import Mathlib

/-!
# SlimEngine3D: rasteriser, edge projector, linear algebra and camera

A shallow embedding of the drawing primitives (lines, rectangles, circles, text, triangles),
of the edge projector, of the matrix and quaternion library, of the camera with its
operations and keyboard navigation, of the primitive transform and of the box drawing of
`src/src/SlimEngine.h` and `src/src/SlimEngine/scene/box.h`, with theorems about them.

Conventions of the embedding.

* `i32` values are modelled by `Int`.  Signed overflow is undefined in C, so the
  model agrees with the program on every run in which no `i32` operation
  overflows, and says nothing about the others.
* `u16` / `u32` values are modelled by `Nat`; where the program relies on unsigned
  wrap-around the reduction `% 2^16` / `% 2^32` is written out.
* `f32` values are modelled by an arbitrary linearly ordered field `F` (exact
  arithmetic); concrete evaluations use `ℚ`.  The functions `sqrtf` and `powf` of the C
  library are parameters of the definitions that call them; the theorems about them are
  stated over `ℝ` with the real square root and the real power, or for every `powf`.
  Where the rounding of binary32 decides a statement, the operations are those of
  `f32Round`, on the integers `n` that stand for the values `n * 2^-149`.
* Memory effects on the pixel store are modelled by the *write trace*: every
  drawing function returns the list of the indices `i` for which it executes
  `canvas->pixels[i].color = color`, in program order.  `writePixels` replays a
  trace on the store.
* Loops whose trip count is not syntactically bounded take a `fuel` argument and
  return `none` when it runs out.
-/

namespace SlimEngine

/-! ## Data model -/

/-- The struct `RGBA`: four `u8` channels. -/
structure RGBA where
  B : Nat
  G : Nat
  R : Nat
  A : Nat
deriving DecidableEq, Repr

/-- The struct `Dimensions`. -/
structure Dimensions (F : Type) where
  width : Nat
  height : Nat
  width_times_height : Nat
  height_over_width : F
  width_over_height : F
  f_height : F
  f_width : F
  h_height : F
  h_width : F

/-- The function `updateDimensions`: the single entry point that sets the size and
every derived quantity. -/
def updateDimensions {F : Type} [Field F] (width height : Nat) : Dimensions F :=
  let f_width : F := (width : F)
  let f_height : F := (height : F)
  { width := width
    height := height
    width_times_height := width * height
    f_width := f_width
    f_height := f_height
    h_width := f_width / 2
    h_height := f_height / 2
    width_over_height := f_width / f_height
    height_over_width := f_height / f_width }

/-- The struct `PixelGrid`: the dimensions and the flat pixel store. -/
structure PixelGrid (F : Type) where
  dimensions : Dimensions F
  pixels : List RGBA

/-- A grid whose cached product and whose store both agree with `width * height`. -/
def PixelGrid.WellFormed {F : Type} (canvas : PixelGrid F) : Prop :=
  canvas.dimensions.width_times_height = canvas.dimensions.width * canvas.dimensions.height ∧
  canvas.pixels.length = canvas.dimensions.width * canvas.dimensions.height

/-- Replays a write trace on the pixel store.  A write outside the store is undefined
behaviour in the program; the replay skips it. -/
def writePixels {F : Type} (canvas : PixelGrid F) (color : RGBA) (ws : List Int) : PixelGrid F :=
  ws.foldl
    (fun g i => if 0 ≤ i then { g with pixels := g.pixels.set i.toNat color } else g)
    canvas

/-- An empty (black) grid of the given size, built through `updateDimensions`. -/
def blankGrid (width height : Nat) : PixelGrid ℚ :=
  { dimensions := updateDimensions width height
    pixels := List.replicate (width * height) ⟨0, 0, 0, 0⟩ }

/-! ## Integer helpers -/

/-- The function `swap`. -/
def swap (a b : Int) : Int × Int := (b, a)

/-- The function `subRange`; returns `(first, last)`. -/
def subRange (from_ to_ end_ start : Int) : Int × Int :=
  let first := from_
  let last := to_
  let fl := if to_ < from_ then swap first last else (first, last)
  let first := if fl.1 > start then fl.1 else start
  let last := (if fl.2 < end_ then fl.2 else end_) - 1
  (first, last)

/-- The function `inRange`. -/
def inRange (value end_ start : Int) : Bool :=
  decide (value ≥ start) && decide (value < end_)

/-- The values taken by `i` in `for (i32 i = first; i <= last; i += step)`,
for a positive `step`. -/
def forRange (first last step : Int) : List Int :=
  if first ≤ last then
    (List.range (((last - first) / step).toNat + 1)).map (fun (k : Nat) => first + (k : Int) * step)
  else []

/-! ## Lines -/

/-- The function `drawHLine2D`. -/
def drawHLine2D {F : Type} (canvas : PixelGrid F) (from_ to_ at_ : Int) : List Int :=
  if !inRange at_ canvas.dimensions.height 0 then [] else
  let offset := at_ * (canvas.dimensions.width : Int)
  let fl := subRange from_ to_ canvas.dimensions.width 0
  let first := fl.1 + offset
  let last := fl.2 + offset
  forRange first last 1

/-- The function `drawVLine2D`. -/
def drawVLine2D {F : Type} (canvas : PixelGrid F) (from_ to_ at_ : Int) : List Int :=
  if !inRange at_ canvas.dimensions.width 0 then [] else
  let fl := subRange from_ to_ canvas.dimensions.height 0
  let first := fl.1 * (canvas.dimensions.width : Int) + at_
  let last := fl.2 * (canvas.dimensions.width : Int) + at_
  forRange first last canvas.dimensions.width

/-- The locals of `drawLine2D` that its `while` loop only reads. -/
structure LineConfig where
  width : Int
  height : Int
  size : Int
  is_steap : Bool
  inc1 : Int
  inc2 : Int
  index_inc1 : Int
  index_inc2 : Int
  error_inc : Int
  error_dec : Int
  threshold : Int
  end_ : Int
deriving DecidableEq, Repr

/-- The locals of `drawLine2D` that its `while` loop updates. -/
structure LineState where
  index : Int
  error : Int
  current1 : Int
  current2 : Int
deriving DecidableEq, Repr

/-- One pass through the body of the `while` loop of `drawLine2D`: the indices written
(none or one) and the next state. -/
def lineBody (c : LineConfig) (s : LineState) : List Int × LineState :=
  let current1 := s.current1 + c.inc1
  let ws : List Int :=
    if inRange s.index c.size 0 then
      if c.is_steap then
        if inRange current1 c.height 0 && inRange s.current2 c.width 0 then [s.index] else []
      else
        if inRange s.current2 c.height 0 && inRange current1 c.width 0 then [s.index] else []
    else []
  let index := s.index + c.index_inc1
  let error := s.error + c.error_inc
  if error > c.threshold then
    (ws, { index := index + c.index_inc2, error := error - c.error_dec,
           current1 := current1, current2 := s.current2 + c.inc2 })
  else
    (ws, { index := index, error := error, current1 := current1, current2 := s.current2 })

/-- The loop `while (current1 != end)` of `drawLine2D`. -/
def lineLoop (c : LineConfig) : Nat → LineState → Option (List Int)
  | 0, _ => none
  | fuel + 1, s =>
    if s.current1 ≠ c.end_ then
      (lineLoop c fuel (lineBody c s).2).map (fun ws => (lineBody c s).1 ++ ws)
    else some []

/-- The set-up of `drawLine2D` between its fast paths and its loop: the locals are
configured for a shallow line and, when `is_steap`, the two axes are swapped. -/
def lineSetup {F : Type} (canvas : PixelGrid F) (x0 y0 x1 y1 : Int) : LineConfig × LineState :=
  let width : Int := canvas.dimensions.width
  let height : Int := canvas.dimensions.height
  let pitch := width
  let index := x0 + y0 * pitch
  let run := x1 - x0
  let rise := y1 - y0
  let dx : Int := if run < 0 then -1 else 1
  let run := if run < 0 then -run else run
  let dy : Int := if rise < 0 then -1 else 1
  let pitch := if rise < 0 then -pitch else pitch
  let rise := if rise < 0 then -rise else rise
  let rise_twice := rise + rise
  let run_twice := run + run
  let is_steap : Bool := decide (rise > run)
  let inc := if is_steap then swap dx dy else (dx, dy)
  let start := if is_steap then swap x0 y0 else (x0, y0)
  let index_inc := if is_steap then swap dx pitch else (dx, pitch)
  let error_dec_inc := if is_steap then swap run_twice rise_twice else (run_twice, rise_twice)
  let end_ := if is_steap then y1 + dy else x1 + dx
  let threshold := if is_steap then rise else run
  ({ width := width, height := height, size := canvas.dimensions.width_times_height,
     is_steap := is_steap,
     inc1 := inc.1, inc2 := inc.2, index_inc1 := index_inc.1, index_inc2 := index_inc.2,
     error_inc := error_dec_inc.2, error_dec := error_dec_inc.1,
     threshold := threshold, end_ := end_ },
   { index := index, error := 0, current1 := start.1, current2 := start.2 })

/-- The function `drawLine2D`. -/
def drawLine2D {F : Type} (fuel : Nat) (canvas : PixelGrid F) (x0 y0 x1 y1 : Int) :
    Option (List Int) :=
  if x0 < 0 ∧ y0 < 0 ∧ x1 < 0 ∧ y1 < 0 then some []
  else if x0 = x1 then some (drawVLine2D canvas y0 y1 x1)
  else if y0 = y1 then some (drawHLine2D canvas x0 x1 y1)
  else lineLoop (lineSetup canvas x0 y0 x1 y1).1 fuel (lineSetup canvas x0 y0 x1 y1).2

/-! ## Circles -/

/-- The locals shared by the loops of `drawCircle` and `fillCircle`. -/
structure CircleState where
  x : Int
  y : Int
  y2 : Int
  x2 : Int
  Sx1 : Int
  Ex1 : Int
  Sy1 : Int
  Ey1 : Int
  Sx2 : Int
  Ex2 : Int
  Sy2 : Int
  Ey2 : Int
deriving DecidableEq, Repr

/-- The initialisation of the locals of `drawCircle` / `fillCircle` (radius above 1). -/
def circleInit (width center_x center_y radius : Int) : CircleState :=
  let r2 := radius * radius
  let Sy1 := center_y * width
  { x := radius, y := 0, y2 := 0, x2 := r2
    Sx1 := center_x - radius, Ex1 := center_x + radius, Sy1 := Sy1, Ey1 := Sy1
    Sx2 := center_x, Ex2 := center_x
    Sy2 := (center_y - radius) * width, Ey2 := (center_y + radius) * width }

/-- The common tail of both circle loop bodies: the decision step and the advance of `y`. -/
def circleAdvance (width r2 : Int) (s : CircleState) : CircleState :=
  let s1 : CircleState :=
    if (s.x2 + s.y2) > r2 then
      { s with x := s.x - 1, x2 := (s.x - 1) * (s.x - 1)
               Sx1 := s.Sx1 + 1, Ex1 := s.Ex1 - 1
               Sy2 := s.Sy2 + width, Ey2 := s.Ey2 - width }
    else s
  { s1 with y := s1.y + 1, y2 := (s1.y + 1) * (s1.y + 1)
            Sy1 := s1.Sy1 - width, Ey1 := s1.Ey1 + width
            Sx2 := s1.Sx2 - 1, Ex2 := s1.Ex2 + 1 }

/-- The two guarded writes `pixels[Sy + Sx]`, `pixels[Sy + Ex]` of one row of `drawCircle`. -/
def circleRowPoints (width size Sy Sx Ex : Int) : List Int :=
  if Sy ≥ 0 ∧ Sy < size then
    (if Sx ≥ 0 ∧ Sx < width then [Sy + Sx] else []) ++
    (if Ex ≥ 0 ∧ Ex < width then [Sy + Ex] else [])
  else []

/-- The writes of one pass through the loop body of `drawCircle`. -/
def drawCircleBody (width size : Int) (s : CircleState) : List Int :=
  circleRowPoints width size s.Sy1 s.Sx1 s.Ex1 ++
  circleRowPoints width size s.Ey1 s.Sx1 s.Ex1 ++
  circleRowPoints width size s.Sy2 s.Sx2 s.Ex2 ++
  circleRowPoints width size s.Ey2 s.Sx2 s.Ex2

/-- The loop `while (y <= x)` of `drawCircle` and of `fillCircle`; the two differ only in
the writes of the body, passed as `body`. -/
def circleLoop (body : CircleState → List Int) (width r2 : Int) :
    Nat → CircleState → Option (List Int)
  | 0, _ => none
  | fuel + 1, s =>
    if s.y ≤ s.x then
      (circleLoop body width r2 fuel (circleAdvance width r2 s)).map (fun ws => body s ++ ws)
    else some []

/-- The branch `radius <= 1` shared by `drawCircle` and `fillCircle`. -/
def circleCentre {F : Type} (canvas : PixelGrid F) (center_x center_y : Int) : List Int :=
  if inRange 0 center_x ((canvas.dimensions.width : Int) - 1) &&
     inRange 0 center_y ((canvas.dimensions.height : Int) - 1) then
    [(canvas.dimensions.width : Int) * center_y + center_x]
  else []

/-- The function `drawCircle`. -/
def drawCircle {F : Type} (fuel : Nat) (canvas : PixelGrid F) (center_x center_y radius : Int) :
    Option (List Int) :=
  if radius ≤ 1 then some (circleCentre canvas center_x center_y)
  else
    let width : Int := canvas.dimensions.width
    let size : Int := canvas.dimensions.width_times_height
    circleLoop (drawCircleBody width size) width (radius * radius) fuel
      (circleInit width center_x center_y radius)

/-- The span `for (i = start; i <= end; i++) pixels[Sy + i]` of `fillCircle`, with its guard
on `Sy`. -/
def circleRowSpan (size Sy start end_ : Int) : List Int :=
  if Sy ≥ 0 ∧ Sy < size then (forRange start end_ 1).map (fun i => Sy + i) else []

/-- The writes of one pass through the loop body of `fillCircle`. -/
def fillCircleBody (width size : Int) (s : CircleState) : List Int :=
  let start1 := if s.Sx1 > 0 then s.Sx1 else 0
  let end1 := if s.Ex1 < width - 1 then s.Ex1 else width - 1
  let start2 := if s.Sx2 > 0 then s.Sx2 else 0
  let end2 := if s.Ex2 < width - 1 then s.Ex2 else width - 1
  circleRowSpan size s.Sy1 start1 end1 ++
  circleRowSpan size s.Ey1 start1 end1 ++
  circleRowSpan size s.Sy2 start2 end2 ++
  circleRowSpan size s.Ey2 start2 end2

/-- The function `fillCircle`. -/
def fillCircle {F : Type} (fuel : Nat) (canvas : PixelGrid F) (center_x center_y radius : Int) :
    Option (List Int) :=
  if radius ≤ 1 then some (circleCentre canvas center_x center_y)
  else
    let width : Int := canvas.dimensions.width
    let size : Int := canvas.dimensions.width_times_height
    circleLoop (fillCircleBody width size) width (radius * radius) fuel
      (circleInit width center_x center_y radius)

/-! ## Text -/

/-- The constant `FONT_HEIGHT`. -/
def FONT_HEIGHT : Nat := 8

/-- The constant `FONT_WIDTH`. -/
def FONT_WIDTH : Nat := 8

/-- The constant `LINE_HEIGHT`. -/
def LINE_HEIGHT : Nat := 12

/-- The constant `FIRST_CHARACTER_CODE`. -/
def FIRST_CHARACTER_CODE : Int := 32

/-- The constant `LAST_CHARACTER_CODE`. -/
def LAST_CHARACTER_CODE : Int := 127

/-- The table `Font[768]`: 96 glyphs of 8 row bitmasks each. -/
def Font : List Nat := [
  0x00, 0x00, 0x00, 0x00, 0x00, 0x00, 0x00, 0x00, 0x18, 0x3c, 0x3c, 0x18,
  0x18, 0x00, 0x18, 0x00, 0x66, 0x66, 0x24, 0x00, 0x00, 0x00, 0x00, 0x00,
  0x6c, 0x6c, 0xfe, 0x6c, 0xfe, 0x6c, 0x6c, 0x00, 0x18, 0x3e, 0x60, 0x3c,
  0x06, 0x7c, 0x18, 0x00, 0x00, 0xc6, 0xcc, 0x18, 0x30, 0x66, 0xc6, 0x00,
  0x38, 0x6c, 0x38, 0x76, 0xdc, 0xcc, 0x76, 0x00, 0x18, 0x18, 0x30, 0x00,
  0x00, 0x00, 0x00, 0x00, 0x0c, 0x18, 0x30, 0x30, 0x30, 0x18, 0x0c, 0x00,
  0x30, 0x18, 0x0c, 0x0c, 0x0c, 0x18, 0x30, 0x00, 0x00, 0x66, 0x3c, 0xff,
  0x3c, 0x66, 0x00, 0x00, 0x00, 0x18, 0x18, 0x7e, 0x18, 0x18, 0x00, 0x00,
  0x00, 0x00, 0x00, 0x00, 0x00, 0x18, 0x18, 0x30, 0x00, 0x00, 0x00, 0x7e,
  0x00, 0x00, 0x00, 0x00, 0x00, 0x00, 0x00, 0x00, 0x00, 0x18, 0x18, 0x00,
  0x06, 0x0c, 0x18, 0x30, 0x60, 0xc0, 0x80, 0x00, 0x38, 0x6c, 0xc6, 0xd6,
  0xc6, 0x6c, 0x38, 0x00, 0x18, 0x38, 0x18, 0x18, 0x18, 0x18, 0x7e, 0x00,
  0x7c, 0xc6, 0x06, 0x1c, 0x30, 0x66, 0xfe, 0x00, 0x7c, 0xc6, 0x06, 0x3c,
  0x06, 0xc6, 0x7c, 0x00, 0x1c, 0x3c, 0x6c, 0xcc, 0xfe, 0x0c, 0x1e, 0x00,
  0xfe, 0xc0, 0xc0, 0xfc, 0x06, 0xc6, 0x7c, 0x00, 0x38, 0x60, 0xc0, 0xfc,
  0xc6, 0xc6, 0x7c, 0x00, 0xfe, 0xc6, 0x0c, 0x18, 0x30, 0x30, 0x30, 0x00,
  0x7c, 0xc6, 0xc6, 0x7c, 0xc6, 0xc6, 0x7c, 0x00, 0x7c, 0xc6, 0xc6, 0x7e,
  0x06, 0x0c, 0x78, 0x00, 0x00, 0x18, 0x18, 0x00, 0x00, 0x18, 0x18, 0x00,
  0x00, 0x18, 0x18, 0x00, 0x00, 0x18, 0x18, 0x30, 0x06, 0x0c, 0x18, 0x30,
  0x18, 0x0c, 0x06, 0x00, 0x00, 0x00, 0x7e, 0x00, 0x00, 0x7e, 0x00, 0x00,
  0x60, 0x30, 0x18, 0x0c, 0x18, 0x30, 0x60, 0x00, 0x7c, 0xc6, 0x0c, 0x18,
  0x18, 0x00, 0x18, 0x00, 0x7c, 0xc6, 0xde, 0xde, 0xde, 0xc0, 0x78, 0x00,
  0x38, 0x6c, 0xc6, 0xfe, 0xc6, 0xc6, 0xc6, 0x00, 0xfc, 0x66, 0x66, 0x7c,
  0x66, 0x66, 0xfc, 0x00, 0x3c, 0x66, 0xc0, 0xc0, 0xc0, 0x66, 0x3c, 0x00,
  0xf8, 0x6c, 0x66, 0x66, 0x66, 0x6c, 0xf8, 0x00, 0xfe, 0x62, 0x68, 0x78,
  0x68, 0x62, 0xfe, 0x00, 0xfe, 0x62, 0x68, 0x78, 0x68, 0x60, 0xf0, 0x00,
  0x3c, 0x66, 0xc0, 0xc0, 0xce, 0x66, 0x3a, 0x00, 0xc6, 0xc6, 0xc6, 0xfe,
  0xc6, 0xc6, 0xc6, 0x00, 0x3c, 0x18, 0x18, 0x18, 0x18, 0x18, 0x3c, 0x00,
  0x1e, 0x0c, 0x0c, 0x0c, 0xcc, 0xcc, 0x78, 0x00, 0xe6, 0x66, 0x6c, 0x78,
  0x6c, 0x66, 0xe6, 0x00, 0xf0, 0x60, 0x60, 0x60, 0x62, 0x66, 0xfe, 0x00,
  0xc6, 0xee, 0xfe, 0xfe, 0xd6, 0xc6, 0xc6, 0x00, 0xc6, 0xe6, 0xf6, 0xde,
  0xce, 0xc6, 0xc6, 0x00, 0x7c, 0xc6, 0xc6, 0xc6, 0xc6, 0xc6, 0x7c, 0x00,
  0xfc, 0x66, 0x66, 0x7c, 0x60, 0x60, 0xf0, 0x00, 0x7c, 0xc6, 0xc6, 0xc6,
  0xc6, 0xce, 0x7c, 0x0e, 0xfc, 0x66, 0x66, 0x7c, 0x6c, 0x66, 0xe6, 0x00,
  0x3c, 0x66, 0x30, 0x18, 0x0c, 0x66, 0x3c, 0x00, 0x7e, 0x7e, 0x5a, 0x18,
  0x18, 0x18, 0x3c, 0x00, 0xc6, 0xc6, 0xc6, 0xc6, 0xc6, 0xc6, 0x7c, 0x00,
  0xc6, 0xc6, 0xc6, 0xc6, 0xc6, 0x6c, 0x38, 0x00, 0xc6, 0xc6, 0xc6, 0xd6,
  0xd6, 0xfe, 0x6c, 0x00, 0xc6, 0xc6, 0x6c, 0x38, 0x6c, 0xc6, 0xc6, 0x00,
  0x66, 0x66, 0x66, 0x3c, 0x18, 0x18, 0x3c, 0x00, 0xfe, 0xc6, 0x8c, 0x18,
  0x32, 0x66, 0xfe, 0x00, 0x3c, 0x30, 0x30, 0x30, 0x30, 0x30, 0x3c, 0x00,
  0xc0, 0x60, 0x30, 0x18, 0x0c, 0x06, 0x02, 0x00, 0x3c, 0x0c, 0x0c, 0x0c,
  0x0c, 0x0c, 0x3c, 0x00, 0x10, 0x38, 0x6c, 0xc6, 0x00, 0x00, 0x00, 0x00,
  0x00, 0x00, 0x00, 0x00, 0x00, 0x00, 0x00, 0xff, 0x30, 0x18, 0x0c, 0x00,
  0x00, 0x00, 0x00, 0x00, 0x00, 0x00, 0x78, 0x0c, 0x7c, 0xcc, 0x76, 0x00,
  0xe0, 0x60, 0x7c, 0x66, 0x66, 0x66, 0xdc, 0x00, 0x00, 0x00, 0x7c, 0xc6,
  0xc0, 0xc6, 0x7c, 0x00, 0x1c, 0x0c, 0x7c, 0xcc, 0xcc, 0xcc, 0x76, 0x00,
  0x00, 0x00, 0x7c, 0xc6, 0xfe, 0xc0, 0x7c, 0x00, 0x3c, 0x66, 0x60, 0xf8,
  0x60, 0x60, 0xf0, 0x00, 0x00, 0x00, 0x76, 0xcc, 0xcc, 0x7c, 0x0c, 0xf8,
  0xe0, 0x60, 0x6c, 0x76, 0x66, 0x66, 0xe6, 0x00, 0x18, 0x00, 0x38, 0x18,
  0x18, 0x18, 0x3c, 0x00, 0x06, 0x00, 0x06, 0x06, 0x06, 0x66, 0x66, 0x3c,
  0xe0, 0x60, 0x66, 0x6c, 0x78, 0x6c, 0xe6, 0x00, 0x38, 0x18, 0x18, 0x18,
  0x18, 0x18, 0x3c, 0x00, 0x00, 0x00, 0xec, 0xfe, 0xd6, 0xd6, 0xd6, 0x00,
  0x00, 0x00, 0xdc, 0x66, 0x66, 0x66, 0x66, 0x00, 0x00, 0x00, 0x7c, 0xc6,
  0xc6, 0xc6, 0x7c, 0x00, 0x00, 0x00, 0xdc, 0x66, 0x66, 0x7c, 0x60, 0xf0,
  0x00, 0x00, 0x76, 0xcc, 0xcc, 0x7c, 0x0c, 0x1e, 0x00, 0x00, 0xdc, 0x76,
  0x60, 0x60, 0xf0, 0x00, 0x00, 0x00, 0x7e, 0xc0, 0x7c, 0x06, 0xfc, 0x00,
  0x30, 0x30, 0xfc, 0x30, 0x30, 0x36, 0x1c, 0x00, 0x00, 0x00, 0xcc, 0xcc,
  0xcc, 0xcc, 0x76, 0x00, 0x00, 0x00, 0xc6, 0xc6, 0xc6, 0x6c, 0x38, 0x00,
  0x00, 0x00, 0xc6, 0xd6, 0xd6, 0xfe, 0x6c, 0x00, 0x00, 0x00, 0xc6, 0x6c,
  0x38, 0x6c, 0xc6, 0x00, 0x00, 0x00, 0xc6, 0xc6, 0xc6, 0x7e, 0x06, 0xfc,
  0x00, 0x00, 0x7e, 0x4c, 0x18, 0x32, 0x7e, 0x00, 0x0e, 0x18, 0x18, 0x70,
  0x18, 0x18, 0x0e, 0x00, 0x18, 0x18, 0x18, 0x18, 0x18, 0x18, 0x18, 0x00,
  0x70, 0x18, 0x18, 0x0e, 0x18, 0x18, 0x70, 0x00, 0x76, 0xdc, 0x00, 0x00,
  0x00, 0x00, 0x00, 0x00, 0x00, 0x10, 0x38, 0x6c, 0xc6, 0xc6, 0xfe, 0x00]

/-- The locals of `drawText` that its loop updates: the `u16` cursor and the pointer
`pixel`, kept as its offset from `canvas->pixels`. -/
structure TextCursor where
  current_x : Nat
  current_y : Nat
  pixel : Int
deriving DecidableEq, Repr

/-- The two nested `for` loops of `drawText` that blit one glyph: row `h`, column `w` is
written when bit `0x80 >> w` of the row byte is set; `character_pixel` moves on by one per
column and by `pixel_line_step` more per row. -/
def drawGlyph (pixel_line_step : Nat) (character : Int) (pixel : Int) : List Int :=
  let byte := FONT_WIDTH * (character - FIRST_CHARACTER_CODE).toNat
  (List.range FONT_HEIGHT).flatMap (fun h =>
    (List.range FONT_WIDTH).filterMap (fun w =>
      if (Font.getD (byte + h) 0) &&& (0x80 >>> w) ≠ 0 then
        some (pixel + ((h * (FONT_WIDTH + pixel_line_step) + w : Nat) : Int))
      else none))

/-- The branch of `drawText` for a newline, after its `break` test. -/
def textNewline (char_line_step : Nat) (x : Int) (cur : TextCursor) : TextCursor :=
  { pixel := cur.pixel + ((char_line_step : Int) - (cur.current_x : Int) + x) % 2 ^ 32
    current_x := (x % 2 ^ 16).toNat
    current_y := (cur.current_y + LINE_HEIGHT) % 2 ^ 16 }

/-- The branch of `drawText` for a tab. -/
def textTab (cur : TextCursor) : TextCursor :=
  let t_offset := (FONT_WIDTH * (4 - ((cur.current_x / FONT_WIDTH) % 4))) % 2 ^ 16
  { current_x := (cur.current_x + t_offset) % 2 ^ 16
    current_y := cur.current_y
    pixel := cur.pixel + (t_offset : Int) }

/-- The cursor after a drawn glyph. -/
def textAdvance (cur : TextCursor) : TextCursor :=
  { pixel := cur.pixel + (FONT_WIDTH : Int)
    current_x := (cur.current_x + FONT_WIDTH) % 2 ^ 16
    current_y := cur.current_y }

/-- The loop `while (character)` of `drawText` over the characters of `str` (a list of
`char` codes; the terminating NUL is the end of the list, or the first `0` in it). -/
def drawTextLoop (width height : Nat) (pixel_line_step char_line_step : Nat) (x : Int) :
    List Int → TextCursor → List Int
  | [], _ => []
  | character :: str, cur =>
    if character = 0 then []
    else if character = 10 then
      if cur.current_y + FONT_HEIGHT > height then []
      else drawTextLoop width height pixel_line_step char_line_step x str
        (textNewline char_line_step x cur)
    else if character = 9 then
      drawTextLoop width height pixel_line_step char_line_step x str (textTab cur)
    else if character ≥ FIRST_CHARACTER_CODE ∧ character ≤ LAST_CHARACTER_CODE then
      drawGlyph pixel_line_step character cur.pixel ++
        (if (textAdvance cur).current_x + FONT_WIDTH > width then []
         else drawTextLoop width height pixel_line_step char_line_step x str (textAdvance cur))
    else drawTextLoop width height pixel_line_step char_line_step x str cur

/-- The function `drawText`. -/
def drawText {F : Type} (canvas : PixelGrid F) (str : List Int) (x y : Int) : List Int :=
  let width := canvas.dimensions.width
  let height := canvas.dimensions.height
  if x < 0 ∨ x > (width : Int) - FONT_WIDTH ∨ y < 0 ∨ y > (height : Int) - FONT_HEIGHT then []
  else
    let pixel_line_step := (((width : Int) - FONT_WIDTH) % 2 ^ 16).toNat
    let char_line_step := (width * LINE_HEIGHT) % 2 ^ 32
    drawTextLoop width height pixel_line_step char_line_step x str
      { current_x := (x % 2 ^ 16).toNat, current_y := (y % 2 ^ 16).toNat,
        pixel := (width : Int) * y + x }

/-! ## Edge projection -/

/-- The struct `vec3`. -/
structure vec3 (F : Type) where
  x : F
  y : F
  z : F

/-- The struct `Edge`. -/
structure Edge (F : Type) where
  from_ : vec3 F
  to_ : vec3 F

section EdgeProjector

variable {F : Type} [LinearOrderedField F]

/-- The function `getVec3Of`. -/
def getVec3Of (value : F) : vec3 F := ⟨value, value, value⟩

/-- The function `subVec3`. -/
def subVec3 (a b : vec3 F) : vec3 F := ⟨a.x - b.x, a.y - b.y, a.z - b.z⟩

/-- The function `addVec3`. -/
def addVec3 (a b : vec3 F) : vec3 F := ⟨a.x + b.x, a.y + b.y, a.z + b.z⟩

/-- The function `scaleVec3`. -/
def scaleVec3 (a : vec3 F) (factor : F) : vec3 F := ⟨a.x * factor, a.y * factor, a.z * factor⟩

/-- The block `// Clip:` of `projectEdge`. -/
def clipEdge (edge : Edge F) (near_clipping_plane_distance : F) : Edge F :=
  let v1_is_out := edge.from_.z < near_clipping_plane_distance
  let v2_is_out := edge.to_.z < near_clipping_plane_distance
  if v1_is_out ∨ v2_is_out then
    if v1_is_out then
      let v := subVec3 edge.from_ edge.to_
      let v := scaleVec3 v
        ((edge.to_.z - near_clipping_plane_distance) / (edge.to_.z - edge.from_.z))
      { edge with from_ := addVec3 edge.to_ v }
    else
      let v := subVec3 edge.to_ edge.from_
      let v := scaleVec3 v
        ((edge.from_.z - near_clipping_plane_distance) / (edge.from_.z - edge.to_.z))
      { edge with to_ := addVec3 edge.from_ v }
  else edge

/-- The blocks `// Project:`, `// NDC->screen:` and `// Flip Y:` of `projectEdge`. -/
def projectToScreen (edge : Edge F) (dimensions : Dimensions F) (focal_length : F) : Edge F :=
  let fl_over_z_from := focal_length / edge.from_.z
  let fl_over_z_to := focal_length / edge.to_.z
  let from_x := edge.from_.x * fl_over_z_from
  let from_y := edge.from_.y * (fl_over_z_from * dimensions.width_over_height)
  let to_x := edge.to_.x * fl_over_z_to
  let to_y := edge.to_.y * (fl_over_z_to * dimensions.width_over_height)
  let from_x := (from_x + 1) * dimensions.h_width
  let to_x := (to_x + 1) * dimensions.h_width
  let from_y := (from_y + 1) * dimensions.h_height
  let to_y := (to_y + 1) * dimensions.h_height
  let from_y := dimensions.f_height - from_y
  let to_y := dimensions.f_height - to_y
  { from_ := ⟨from_x, from_y, edge.from_.z⟩, to_ := ⟨to_x, to_y, edge.to_.z⟩ }

/-- The function `projectEdge`: cull, then clip, then project to the screen. -/
def projectEdge (edge : Edge F) (dimensions : Dimensions F)
    (focal_length near_clipping_plane_distance : F) : Edge F :=
  let v1_is_out := edge.from_.z < near_clipping_plane_distance
  let v2_is_out := edge.to_.z < near_clipping_plane_distance
  if v1_is_out ∧ v2_is_out then
    { from_ := getVec3Of (-1), to_ := getVec3Of (-1) }
  else
    projectToScreen (clipEdge edge near_clipping_plane_distance) dimensions focal_length

end EdgeProjector

/-! ## Linear algebra library -/

/-- The struct `vec2`. -/
structure vec2 (F : Type) where
  x : F
  y : F

/-- The struct `vec4`. -/
structure vec4 (F : Type) where
  x : F
  y : F
  z : F
  w : F

/-- The struct `mat3`: the rows `X`, `Y`, `Z`. -/
structure mat3 (F : Type) where
  X : vec3 F
  Y : vec3 F
  Z : vec3 F

/-- The struct `mat4`: the rows `X`, `Y`, `Z`, `W`. -/
structure mat4 (F : Type) where
  X : vec4 F
  Y : vec4 F
  Z : vec4 F
  W : vec4 F

/-- The struct `quat`. -/
structure quat (F : Type) where
  axis : vec3 F
  amount : F

section LinearAlgebra

variable {F : Type} [LinearOrderedField F]

/-- The function `getMat3Identity`. -/
def getMat3Identity : mat3 F := ⟨⟨1, 0, 0⟩, ⟨0, 1, 0⟩, ⟨0, 0, 1⟩⟩

/-- The function `invertedVec3`. -/
def invertedVec3 (v : vec3 F) : vec3 F := ⟨-v.x, -v.y, -v.z⟩

/-- The function `getPointOnUnitCircle`. -/
def getPointOnUnitCircle (t : F) : vec2 F :=
  let t_squared := t * t
  let factor := 1 / (1 + t_squared)
  ⟨factor - factor * t_squared, factor * 2 * t⟩

/-- The function `mulVec3Mat3`. -/
def mulVec3Mat3 (v : vec3 F) (m : mat3 F) : vec3 F :=
  ⟨v.x * m.X.x + v.y * m.Y.x + v.z * m.Z.x,
   v.x * m.X.y + v.y * m.Y.y + v.z * m.Z.y,
   v.x * m.X.z + v.y * m.Y.z + v.z * m.Z.z⟩

/-- The function `squaredLengthVec3`. -/
def squaredLengthVec3 (v : vec3 F) : F := (v.x * v.x) + (v.y * v.y) + (v.z * v.z)

/-- The function `lengthVec3`; the library function `sqrtf` is a parameter. -/
def lengthVec3 (sqrtf : F → F) (v : vec3 F) : F := sqrtf (squaredLengthVec3 v)

/-- Modelled from the spec: the name `length` that `normVec3` calls is not defined in the
source; normalisation "divides by length", so it is taken to be `lengthVec3`. -/
def length (sqrtf : F → F) (v : vec3 F) : F := lengthVec3 sqrtf v

/-- The function `normVec3`. -/
def normVec3 (sqrtf : F → F) (v : vec3 F) : vec3 F := scaleVec3 v (1 / length sqrtf v)

/-- The function `transposedMat3`. -/
def transposedMat3 (m : mat3 F) : mat3 F :=
  ⟨⟨m.X.x, m.Y.x, m.Z.x⟩, ⟨m.X.y, m.Y.y, m.Z.y⟩, ⟨m.X.z, m.Y.z, m.Z.z⟩⟩

/-- The function `mulMat3`. -/
def mulMat3 (a b : mat3 F) : mat3 F :=
  { X := ⟨a.X.x * b.X.x + a.X.y * b.Y.x + a.X.z * b.Z.x,
      a.X.x * b.X.y + a.X.y * b.Y.y + a.X.z * b.Z.y,
      a.X.x * b.X.z + a.X.y * b.Y.z + a.X.z * b.Z.z⟩,
    Y := ⟨a.Y.x * b.X.x + a.Y.y * b.Y.x + a.Y.z * b.Z.x,
      a.Y.x * b.X.y + a.Y.y * b.Y.y + a.Y.z * b.Z.y,
      a.Y.x * b.X.z + a.Y.y * b.Y.z + a.Y.z * b.Z.z⟩,
    Z := ⟨a.Z.x * b.X.x + a.Z.y * b.Y.x + a.Z.z * b.Z.x,
      a.Z.x * b.X.y + a.Z.y * b.Y.y + a.Z.z * b.Z.y,
      a.Z.x * b.X.z + a.Z.y * b.Y.z + a.Z.z * b.Z.z⟩ }

/-- The divisor of `invMat3`, whose reciprocal is `one_over_determinant`. -/
def invMat3Divisor (m : mat3 F) : F :=
  m.X.x * (m.Y.y * m.Z.z - m.Z.y * m.Y.z)
  - m.Y.x * (m.X.y * m.Z.z - m.Z.y * m.X.z)
  + m.Z.x * (m.X.y * m.Y.z - m.Y.y * m.X.z)

/-- The function `invMat3`. -/
def invMat3 (m : mat3 F) : mat3 F :=
  let one_over_determinant := 1 / invMat3Divisor m
  { X := ⟨(m.Y.y * m.Z.z - m.Z.y * m.Y.z) * one_over_determinant,
          -(m.X.y * m.Z.z - m.Z.y * m.X.z) * one_over_determinant,
          (m.X.y * m.Y.z - m.Y.y * m.X.z) * one_over_determinant⟩
    Y := ⟨-(m.Y.x * m.Z.z - m.Z.x * m.Y.z) * one_over_determinant,
          (m.X.x * m.Z.z - m.Z.x * m.X.z) * one_over_determinant,
          -(m.X.x * m.Y.z - m.Y.x * m.X.z) * one_over_determinant⟩
    Z := ⟨(m.Y.x * m.Z.y - m.Z.x * m.Y.y) * one_over_determinant,
          -(m.X.x * m.Z.y - m.Z.x * m.X.y) * one_over_determinant,
          (m.X.x * m.Y.y - m.Y.x * m.X.y) * one_over_determinant⟩ }

/-- The value `d` that `safeInvertMat3` tests and divides by: the sum of its nine locals
`c11` ... `c33`. -/
def safeInvertMat3Divisor (m : mat3 F) : F :=
  let m11 := m.X.x
  let m12 := m.X.y
  let m13 := m.X.z
  let m21 := m.Y.x
  let m22 := m.Y.y
  let m23 := m.Y.z
  let m31 := m.Z.x
  let m32 := m.Z.y
  let m33 := m.Z.z
  let c11 := m22 * m33 - m23 * m32
  let c12 := m13 * m32 - m12 * m33
  let c13 := m12 * m23 - m13 * m22
  let c21 := m23 * m31 - m21 * m33
  let c22 := m11 * m33 - m13 * m31
  let c23 := m13 * m21 - m11 * m23
  let c31 := m21 * m32 - m22 * m31
  let c32 := m12 * m31 - m11 * m32
  let c33 := m11 * m22 - m12 * m21
  c11 + c12 + c13 + c21 + c22 + c23 + c31 + c32 + c33

/-- The function `safeInvertMat3`: the returned flag and the matrix left in `*m`. -/
def safeInvertMat3 (m : mat3 F) : Bool × mat3 F :=
  let m11 := m.X.x
  let m12 := m.X.y
  let m13 := m.X.z
  let m21 := m.Y.x
  let m22 := m.Y.y
  let m23 := m.Y.z
  let m31 := m.Z.x
  let m32 := m.Z.y
  let m33 := m.Z.z
  let c11 := m22 * m33 - m23 * m32
  let c12 := m13 * m32 - m12 * m33
  let c13 := m12 * m23 - m13 * m22
  let c21 := m23 * m31 - m21 * m33
  let c22 := m11 * m33 - m13 * m31
  let c23 := m13 * m21 - m11 * m23
  let c31 := m21 * m32 - m22 * m31
  let c32 := m12 * m31 - m11 * m32
  let c33 := m11 * m22 - m12 * m21
  let d := safeInvertMat3Divisor m
  if d = 0 then (false, m)
  else
    let d := 1 / d
    (true, ⟨⟨d * c11, d * c12, d * c13⟩, ⟨d * c21, d * c22, d * c23⟩,
            ⟨d * c31, d * c32, d * c33⟩⟩)

/-- The function `yawMat3`. -/
def yawMat3 (amount : F) (out : mat3 F) : mat3 F :=
  let xy := getPointOnUnitCircle amount
  let X := out.X
  let Y := out.Y
  let Z := out.Z
  { X := ⟨xy.x * X.x - xy.y * X.z, X.y, xy.x * X.z + xy.y * X.x⟩
    Y := ⟨xy.x * Y.x - xy.y * Y.z, Y.y, xy.x * Y.z + xy.y * Y.x⟩
    Z := ⟨xy.x * Z.x - xy.y * Z.z, Z.y, xy.x * Z.z + xy.y * Z.x⟩ }

/-- The function `pitchMat3`. -/
def pitchMat3 (amount : F) (out : mat3 F) : mat3 F :=
  let xy := getPointOnUnitCircle amount
  let X := out.X
  let Y := out.Y
  let Z := out.Z
  { X := ⟨X.x, xy.x * X.y + xy.y * X.z, xy.x * X.z - xy.y * X.y⟩
    Y := ⟨Y.x, xy.x * Y.y + xy.y * Y.z, xy.x * Y.z - xy.y * Y.y⟩
    Z := ⟨Z.x, xy.x * Z.y + xy.y * Z.z, xy.x * Z.z - xy.y * Z.y⟩ }

/-- The function `rollMat3`. -/
def rollMat3 (amount : F) (out : mat3 F) : mat3 F :=
  let xy := getPointOnUnitCircle amount
  let X := out.X
  let Y := out.Y
  let Z := out.Z
  { X := ⟨xy.x * X.x + xy.y * X.y, xy.x * X.y - xy.y * X.x, X.z⟩
    Y := ⟨xy.x * Y.x + xy.y * Y.y, xy.x * Y.y - xy.y * Y.x, Y.z⟩
    Z := ⟨xy.x * Z.x + xy.y * Z.y, xy.x * Z.y - xy.y * Z.x, Z.z⟩ }

/-- The function `getMat4Identity`. -/
def getMat4Identity : mat4 F :=
  ⟨⟨1, 0, 0, 0⟩, ⟨0, 1, 0, 0⟩, ⟨0, 0, 1, 0⟩, ⟨0, 0, 0, 1⟩⟩

/-- The function `scaleVec4`. -/
def scaleVec4 (a : vec4 F) (factor : F) : vec4 F :=
  ⟨a.x * factor, a.y * factor, a.z * factor, a.w * factor⟩

/-- The function `scaleMat4`. -/
def scaleMat4 (m : mat4 F) (factor : F) : mat4 F :=
  ⟨scaleVec4 m.X factor, scaleVec4 m.Y factor, scaleVec4 m.Z factor, scaleVec4 m.W factor⟩

/-- The function `mulMat4`. -/
def mulMat4 (a b : mat4 F) : mat4 F :=
  { X := ⟨a.X.x * b.X.x + a.X.y * b.Y.x + a.X.z * b.Z.x + a.X.w * b.W.x,
      a.X.x * b.X.y + a.X.y * b.Y.y + a.X.z * b.Z.y + a.X.w * b.W.y,
      a.X.x * b.X.z + a.X.y * b.Y.z + a.X.z * b.Z.z + a.X.w * b.W.z,
      a.X.x * b.X.w + a.X.y * b.Y.w + a.X.z * b.Z.w + a.X.w * b.W.w⟩,
    Y := ⟨a.Y.x * b.X.x + a.Y.y * b.Y.x + a.Y.z * b.Z.x + a.Y.w * b.W.x,
      a.Y.x * b.X.y + a.Y.y * b.Y.y + a.Y.z * b.Z.y + a.Y.w * b.W.y,
      a.Y.x * b.X.z + a.Y.y * b.Y.z + a.Y.z * b.Z.z + a.Y.w * b.W.z,
      a.Y.x * b.X.w + a.Y.y * b.Y.w + a.Y.z * b.Z.w + a.Y.w * b.W.w⟩,
    Z := ⟨a.Z.x * b.X.x + a.Z.y * b.Y.x + a.Z.z * b.Z.x + a.Z.w * b.W.x,
      a.Z.x * b.X.y + a.Z.y * b.Y.y + a.Z.z * b.Z.y + a.Z.w * b.W.y,
      a.Z.x * b.X.z + a.Z.y * b.Y.z + a.Z.z * b.Z.z + a.Z.w * b.W.z,
      a.Z.x * b.X.w + a.Z.y * b.Y.w + a.Z.z * b.Z.w + a.Z.w * b.W.w⟩,
    W := ⟨a.W.x * b.X.x + a.W.y * b.Y.x + a.W.z * b.Z.x + a.W.w * b.W.x,
      a.W.x * b.X.y + a.W.y * b.Y.y + a.W.z * b.Z.y + a.W.w * b.W.y,
      a.W.x * b.X.z + a.W.y * b.Y.z + a.W.z * b.Z.z + a.W.w * b.W.z,
      a.W.x * b.X.w + a.W.y * b.Y.w + a.W.z * b.Z.w + a.W.w * b.W.w⟩ }

/-- The sixteen products that `invMat4` stores in `out` before it scales them. -/
def invMat4Cofactors (m : mat4 F) : mat4 F :=
  let m11 := m.X.x
  let m12 := m.X.y
  let m13 := m.X.z
  let m14 := m.X.w
  let m21 := m.Y.x
  let m22 := m.Y.y
  let m23 := m.Y.z
  let m24 := m.Y.w
  let m31 := m.Z.x
  let m32 := m.Z.y
  let m33 := m.Z.z
  let m34 := m.Z.w
  let m41 := m.W.x
  let m42 := m.W.y
  let m43 := m.W.z
  let m44 := m.W.w
  { X := ⟨m22 * m33 * m44 - m22 * m34 * m43 - m32 * m23 * m44 + m32 * m24 * m43 + m42 * m23 * m34 - m42 * m24 * m33,
      -m12 * m33 * m44 + m12 * m34 * m43 + m32 * m13 * m44 - m32 * m14 * m43 - m42 * m13 * m34 + m42 * m14 * m33,
      m12 * m23 * m44 - m12 * m24 * m43 - m22 * m13 * m44 + m22 * m14 * m43 + m42 * m13 * m24 - m42 * m14 * m23,
      -m12 * m23 * m34 + m12 * m24 * m33 + m22 * m13 * m34 - m22 * m14 * m33 - m32 * m13 * m24 + m32 * m14 * m23⟩,
    Y := ⟨-m21 * m33 * m44 + m21 * m34 * m43 + m31 * m23 * m44 - m31 * m24 * m43 - m41 * m23 * m34 + m41 * m24 * m33,
      m11 * m33 * m44 - m11 * m34 * m43 - m31 * m13 * m44 + m31 * m14 * m43 + m41 * m13 * m34 - m41 * m14 * m33,
      -m11 * m23 * m44 + m11 * m24 * m43 + m21 * m13 * m44 - m21 * m14 * m43 - m41 * m13 * m24 + m41 * m14 * m23,
      m11 * m23 * m34 - m11 * m24 * m33 - m21 * m13 * m34 + m21 * m14 * m33 + m31 * m13 * m24 - m31 * m14 * m23⟩,
    Z := ⟨m21 * m32 * m44 - m21 * m34 * m42 - m31 * m22 * m44 + m31 * m24 * m42 + m41 * m22 * m34 - m41 * m24 * m32,
      -m11 * m32 * m44 + m11 * m34 * m42 + m31 * m12 * m44 - m31 * m14 * m42 - m41 * m12 * m34 + m41 * m14 * m32,
      m11 * m22 * m44 - m11 * m24 * m42 - m21 * m12 * m44 + m21 * m14 * m42 + m41 * m12 * m24 - m41 * m14 * m22,
      -m11 * m22 * m34 + m11 * m24 * m32 + m21 * m12 * m34 - m21 * m14 * m32 - m31 * m12 * m24 + m31 * m14 * m22⟩,
    W := ⟨-m21 * m32 * m43 + m21 * m33 * m42 + m31 * m22 * m43 - m31 * m23 * m42 - m41 * m22 * m33 + m41 * m23 * m32,
      m11 * m32 * m43 - m11 * m33 * m42 - m31 * m12 * m43 + m31 * m13 * m42 + m41 * m12 * m33 - m41 * m13 * m32,
      -m11 * m22 * m43 + m11 * m23 * m42 + m21 * m12 * m43 - m21 * m13 * m42 - m41 * m12 * m23 + m41 * m13 * m22,
      m11 * m22 * m33 - m11 * m23 * m32 - m21 * m12 * m33 + m21 * m13 * m32 + m31 * m12 * m23 - m31 * m13 * m22⟩ }

/-- The local `det` of `invMat4`. -/
def invMat4Det (m : mat4 F) : F :=
  let out := invMat4Cofactors m
  m.X.x * out.X.x + m.X.y * out.Y.x + m.X.z * out.Z.x + m.X.w * out.W.x

/-- The function `invMat4`. -/
def invMat4 (m : mat4 F) : mat4 F :=
  let out := invMat4Cofactors m
  let det := invMat4Det m
  if det = 0 then m
  else scaleMat4 out (1 / det)

/-- The function `convertRotationMatrixToQuaternion`; the library function `sqrtf` is a
parameter. -/
def convertRotationMatrixToQuaternion (sqrtf : F → F) (rotation_matrix : mat3 F) : quat F :=
  let fourXSquaredMinus1 := rotation_matrix.X.x - rotation_matrix.Y.y - rotation_matrix.Z.z
  let fourYSquaredMinus1 := rotation_matrix.Y.y - rotation_matrix.X.x - rotation_matrix.Z.z
  let fourZSquaredMinus1 := rotation_matrix.Z.z - rotation_matrix.X.x - rotation_matrix.Y.y
  let fourWSquaredMinus1 := rotation_matrix.X.x + rotation_matrix.Y.y + rotation_matrix.Z.z
  let biggestIndex : Nat := 0
  let fourBiggestSquaredMinus1 := fourWSquaredMinus1
  let biggestIndex := if fourXSquaredMinus1 > fourBiggestSquaredMinus1 then 1 else biggestIndex
  let fourBiggestSquaredMinus1 :=
    if fourXSquaredMinus1 > fourBiggestSquaredMinus1 then fourXSquaredMinus1
    else fourBiggestSquaredMinus1
  let biggestIndex := if fourYSquaredMinus1 > fourBiggestSquaredMinus1 then 2 else biggestIndex
  let fourBiggestSquaredMinus1 :=
    if fourYSquaredMinus1 > fourBiggestSquaredMinus1 then fourYSquaredMinus1
    else fourBiggestSquaredMinus1
  let biggestIndex := if fourZSquaredMinus1 > fourBiggestSquaredMinus1 then 3 else biggestIndex
  let fourBiggestSquaredMinus1 :=
    if fourZSquaredMinus1 > fourBiggestSquaredMinus1 then fourZSquaredMinus1
    else fourBiggestSquaredMinus1
  let biggestVal := sqrtf (fourBiggestSquaredMinus1 + 1) * (1 / 2)
  let mult := (1 / 4) / biggestVal
  if biggestIndex = 0 then
    { amount := biggestVal
      axis := ⟨(rotation_matrix.Y.z - rotation_matrix.Z.y) * mult,
               (rotation_matrix.Z.x - rotation_matrix.X.z) * mult,
               (rotation_matrix.X.y - rotation_matrix.Y.x) * mult⟩ }
  else if biggestIndex = 1 then
    { amount := (rotation_matrix.Y.z - rotation_matrix.Z.y) * mult
      axis := ⟨biggestVal,
               (rotation_matrix.X.y + rotation_matrix.Y.x) * mult,
               (rotation_matrix.Z.x + rotation_matrix.X.z) * mult⟩ }
  else if biggestIndex = 2 then
    { amount := (rotation_matrix.Z.x - rotation_matrix.X.z) * mult
      axis := ⟨(rotation_matrix.X.y + rotation_matrix.Y.x) * mult,
               biggestVal,
               (rotation_matrix.Y.z + rotation_matrix.Z.y) * mult⟩ }
  else
    { amount := (rotation_matrix.X.y - rotation_matrix.Y.x) * mult
      axis := ⟨(rotation_matrix.Z.x + rotation_matrix.X.z) * mult,
               (rotation_matrix.Y.z + rotation_matrix.Z.y) * mult,
               biggestVal⟩ }

/-- The function `convertQuaternionToRotationMatrix`. -/
def convertQuaternionToRotationMatrix (q : quat F) : mat3 F :=
  let q0 := q.amount
  let q1 := q.axis.x
  let q2 := q.axis.y
  let q3 := q.axis.z
  { X := ⟨2 * (q0 * q0 + q1 * q1) - 1, 2 * (q1 * q2 - q0 * q3), 2 * (q1 * q3 + q0 * q2)⟩
    Y := ⟨2 * (q1 * q2 + q0 * q3), 2 * (q0 * q0 + q2 * q2) - 1, 2 * (q2 * q3 - q0 * q1)⟩
    Z := ⟨2 * (q1 * q3 - q0 * q2), 2 * (q2 * q3 + q0 * q1), 2 * (q0 * q0 + q3 * q3) - 1⟩ }

end LinearAlgebra

/-! ## Spatial transform and camera -/

/-- The struct `xform3`.  Its three pointers `right_direction`, `up_direction` and
`forward_direction` always point at the rows `X`, `Y`, `Z` of `rotation_matrix`; they are the
functions of those names below. -/
structure xform3 (F : Type) where
  matrix : mat3 F
  yaw_matrix : mat3 F
  pitch_matrix : mat3 F
  roll_matrix : mat3 F
  rotation_matrix : mat3 F
  rotation_matrix_inverted : mat3 F
  position : vec3 F

/-- The struct `Camera`. -/
structure Camera (F : Type) where
  focal_length : F
  zoom : F
  dolly : F
  target_distance : F
  transform : xform3 F
  current_velocity : vec3 F
  moved : Bool
  turned : Bool
  zoomed : Bool

/-- The struct `CameraSettings`. -/
structure CameraSettings (F : Type) where
  focal_length : F
  target_distance : F

section Camera

variable {F : Type} [LinearOrderedField F]

/-- The pointer `right_direction` of an `xform3`. -/
def xform3.right_direction (xform : xform3 F) : vec3 F := xform.rotation_matrix.X

/-- The pointer `up_direction` of an `xform3`. -/
def xform3.up_direction (xform : xform3 F) : vec3 F := xform.rotation_matrix.Y

/-- The pointer `forward_direction` of an `xform3`. -/
def xform3.forward_direction (xform : xform3 F) : vec3 F := xform.rotation_matrix.Z

/-- The function `initXform3`. -/
def initXform3 : xform3 F :=
  { matrix := getMat3Identity, yaw_matrix := getMat3Identity, pitch_matrix := getMat3Identity
    roll_matrix := getMat3Identity, rotation_matrix := getMat3Identity
    rotation_matrix_inverted := getMat3Identity, position := getVec3Of 0 }

/-- The function `rotateXform3`. -/
def rotateXform3 (xform : xform3 F) (yaw pitch roll : F) : xform3 F :=
  let yaw_matrix := if yaw ≠ 0 then yawMat3 yaw xform.yaw_matrix else xform.yaw_matrix
  let pitch_matrix := if pitch ≠ 0 then pitchMat3 pitch xform.pitch_matrix else xform.pitch_matrix
  let roll_matrix := if roll ≠ 0 then rollMat3 roll xform.roll_matrix else xform.roll_matrix
  let rotation_matrix := mulMat3 (mulMat3 pitch_matrix yaw_matrix) roll_matrix
  { xform with
    yaw_matrix := yaw_matrix, pitch_matrix := pitch_matrix, roll_matrix := roll_matrix
    rotation_matrix := rotation_matrix
    rotation_matrix_inverted := transposedMat3 rotation_matrix
    matrix := mulMat3 xform.matrix rotation_matrix }

/-- The constants `CAMERA_DEFAULT__FOCAL_LENGTH` and `CAMERA_DEFAULT__TARGET_DISTANCE`, as
returned by `getDefaultCameraSettings`. -/
def getDefaultCameraSettings : CameraSettings F := { focal_length := 2, target_distance := 10 }

/-- The function `initCamera`. -/
def initCamera (camera_settings : CameraSettings F) : Camera F :=
  { transform := initXform3
    zoom := camera_settings.focal_length
    focal_length := camera_settings.focal_length
    target_distance := camera_settings.target_distance
    dolly := 0
    turned := false
    moved := false
    zoomed := false
    current_velocity := getVec3Of 0 }

/-- The function `dollyCamera`; the library function `powf` is a parameter. -/
def dollyCamera (powf : F → F → F) (camera : Camera F) (dolly max_distance : F) : Camera F :=
  let target_position := scaleVec3 camera.transform.forward_direction camera.target_distance
  let target_position := addVec3 camera.transform.position target_position
  let new_dolly := camera.dolly + dolly
  let target_distance := powf 2 (new_dolly / -200) * max_distance
  let position := scaleVec3 camera.transform.forward_direction target_distance
  let position := subVec3 target_position position
  { camera with
    dolly := new_dolly
    target_distance := target_distance
    transform := { camera.transform with position := position }
    moved := true }

/-- The conversion `(i32)` of an `f32`: truncation towards zero. -/
def toI32 [FloorRing F] (value : F) : Int := if 0 ≤ value then ⌊value⌋ else ⌈value⌉

/-- The first two statements of `drawEdge`: the edge in the view space of the camera. -/
def viewEdge (N : Edge F) (camera : Camera F) : Edge F :=
  { from_ := mulVec3Mat3 (subVec3 N.from_ camera.transform.position)
      camera.transform.rotation_matrix_inverted
    to_ := mulVec3Mat3 (subVec3 N.to_ camera.transform.position)
      camera.transform.rotation_matrix_inverted }

/-- The function `drawEdge`. -/
def drawEdge [FloorRing F] (fuel : Nat) (canvas : PixelGrid F) (N : Edge F) (camera : Camera F)
    (near_clipping_plane_distance : F) : Option (List Int) :=
  let N := projectEdge (viewEdge N camera) canvas.dimensions camera.focal_length
    near_clipping_plane_distance
  drawLine2D fuel canvas (toI32 N.from_.x) (toI32 N.from_.y) (toI32 N.to_.x) (toI32 N.to_.y)

end Camera

/-! ## Camera operations and navigation -/

/-- The struct `NavigationSpeedSettings`. -/
structure NavigationSpeedSettings (F : Type) where
  turn : F
  zoom : F
  dolly : F
  pan : F
  orbit : F
  orient : F

/-- The struct `NavigationSettings`. -/
structure NavigationSettings (F : Type) where
  speeds : NavigationSpeedSettings F
  max_velocity : F
  acceleration : F

/-- The struct `NavigationTurn`. -/
structure NavigationTurn where
  right : Bool
  left : Bool

/-- The struct `NavigationMove`. -/
structure NavigationMove where
  right : Bool
  left : Bool
  up : Bool
  down : Bool
  forward : Bool
  backward : Bool

/-- The struct `Navigation`. -/
structure Navigation (F : Type) where
  move : NavigationMove
  turn : NavigationTurn
  settings : NavigationSettings F

section CameraOperations

variable {F : Type} [LinearOrderedField F]

/-- The function `approach`. -/
def approach (src trg diff : F) : F :=
  if trg > src + diff then src + diff
  else if trg < src - diff then src - diff
  else trg

/-- The function `approachVec3`. -/
def approachVec3 (src trg : vec3 F) (diff : F) : vec3 F :=
  ⟨approach src.x trg.x diff, approach src.y trg.y diff, approach src.z trg.z diff⟩

/-- The function `nonZeroVec3`. -/
def nonZeroVec3 (v : vec3 F) : Bool :=
  decide (v.x ≠ 0) || decide (v.y ≠ 0) || decide (v.z ≠ 0)

/-- The function `zoomCamera`. -/
def zoomCamera (camera : Camera F) (zoom : F) : Camera F :=
  let new_zoom := camera.zoom + zoom
  { camera with
    focal_length := if new_zoom > 1 then new_zoom else (if new_zoom < -1 then -1 / new_zoom else 1)
    zoom := new_zoom
    zoomed := true }

/-- The function `turnCamera`. -/
def turnCamera (camera : Camera F) (yaw pitch : F) : Camera F :=
  { camera with
    transform := rotateXform3 camera.transform yaw pitch 0
    turned := true }

/-- The function `orbitCamera`. -/
def orbitCamera (camera : Camera F) (azimuth altitude : F) : Camera F :=
  let movement := scaleVec3 camera.transform.forward_direction camera.target_distance
  let camera : Camera F :=
    { camera with
      transform := { camera.transform with
        position := addVec3 camera.transform.position movement } }
  let camera := turnCamera camera azimuth altitude
  let movement := scaleVec3 camera.transform.forward_direction camera.target_distance
  { camera with
    transform := { camera.transform with
      position := subVec3 camera.transform.position movement }
    moved := true }

/-- The function `panCamera`. -/
def panCamera (camera : Camera F) (right up : F) : Camera F :=
  let right_movement := scaleVec3 camera.transform.right_direction right
  let up_movement := scaleVec3 camera.transform.up_direction up
  let position := addVec3 camera.transform.position up_movement
  let position := addVec3 position right_movement
  { camera with
    transform := { camera.transform with position := position }
    moved := true }

/-- The first statements of `navigateCamera`: the target velocity selected by the move
flags. -/
def navigationTargetVelocity (navigation : Navigation F) : vec3 F :=
  let target_velocity : vec3 F := getVec3Of 0
  let target_velocity : vec3 F :=
    if navigation.move.right then
      { target_velocity with x := target_velocity.x + navigation.settings.max_velocity }
    else target_velocity
  let target_velocity : vec3 F :=
    if navigation.move.left then
      { target_velocity with x := target_velocity.x - navigation.settings.max_velocity }
    else target_velocity
  let target_velocity : vec3 F :=
    if navigation.move.up then
      { target_velocity with y := target_velocity.y + navigation.settings.max_velocity }
    else target_velocity
  let target_velocity : vec3 F :=
    if navigation.move.down then
      { target_velocity with y := target_velocity.y - navigation.settings.max_velocity }
    else target_velocity
  let target_velocity : vec3 F :=
    if navigation.move.forward then
      { target_velocity with z := target_velocity.z + navigation.settings.max_velocity }
    else target_velocity
  let target_velocity : vec3 F :=
    if navigation.move.backward then
      { target_velocity with z := target_velocity.z - navigation.settings.max_velocity }
    else target_velocity
  target_velocity

/-- The turn of `navigateCamera`, made when one of the turn flags is set. -/
def navigationTurn (camera : Camera F) (navigation : Navigation F) (delta_time : F) : Camera F :=
  if navigation.turn.right || navigation.turn.left then
    let yaw := delta_time * navigation.settings.speeds.turn
    { camera with
      transform := rotateXform3 camera.transform (if navigation.turn.left then yaw else -yaw) 0 0
      turned := true }
  else camera

/-- The function `navigateCamera`. -/
def navigateCamera (camera : Camera F) (navigation : Navigation F) (delta_time : F) : Camera F :=
  let target_velocity := navigationTargetVelocity navigation
  let camera := navigationTurn camera navigation delta_time
  let velocity_difference := navigation.settings.acceleration * delta_time
  let current_velocity := approachVec3 camera.current_velocity target_velocity velocity_difference
  let moved := nonZeroVec3 current_velocity
  let camera : Camera F := { camera with current_velocity := current_velocity, moved := moved }
  if moved then
    let movement := scaleVec3 camera.current_velocity delta_time
    let movement := mulVec3Mat3 movement camera.transform.rotation_matrix
    { camera with
      transform := { camera.transform with
        position := addVec3 camera.transform.position movement } }
  else camera

end CameraOperations

/-! ## Primitives -/

/-- The enum `PrimitiveType`. -/
inductive PrimitiveType where
  | None
  | Quad
  | Box
  | Tetrahedron
deriving DecidableEq, Repr

/-- The struct `Primitive`; `flags` is a `u8` bit set. -/
structure Primitive (F : Type) where
  rotation : quat F
  position : vec3 F
  scale : vec3 F
  id : Nat
  type : PrimitiveType
  flags : Nat

/-- The constant `IS_VISIBLE`. -/
def IS_VISIBLE : Nat := 1

/-- The constant `IS_TRANSLATED`. -/
def IS_TRANSLATED : Nat := 2

/-- The constant `IS_ROTATED`. -/
def IS_ROTATED : Nat := 4

/-- The constant `IS_SCALED`. -/
def IS_SCALED : Nat := 8

/-- The constant `IS_SCALED_NON_UNIFORMLY`. -/
def IS_SCALED_NON_UNIFORMLY : Nat := 16

section Primitives

variable {F : Type} [LinearOrderedField F]

/-- The function `mulVec3`. -/
def mulVec3 (a b : vec3 F) : vec3 F := ⟨a.x * b.x, a.y * b.y, a.z * b.z⟩

/-- The function `scaleAddVec3`; `fast_mul_add(a, b, c)` is `a * b + c`. -/
def scaleAddVec3 (v : vec3 F) (factor : F) (to_be_added : vec3 F) : vec3 F :=
  ⟨v.x * factor + to_be_added.x, v.y * factor + to_be_added.y, v.z * factor + to_be_added.z⟩

/-- The function `crossVec3`. -/
def crossVec3 (a b : vec3 F) : vec3 F :=
  ⟨(a.y * b.z) - (a.z * b.y), (a.z * b.x) - (a.x * b.z), (a.x * b.y) - (a.y * b.x)⟩

/-- Modelled from the spec: the name `cross` that `mulVec3Quat` calls is not defined in the
source; it is taken to be the cross product of the library, `crossVec3`. -/
def cross (a b : vec3 F) : vec3 F := crossVec3 a b

/-- The function `getIdentityQuaternion`. -/
def getIdentityQuaternion : quat F := { axis := getVec3Of 0, amount := 1 }

/-- The function `mulVec3Quat`. -/
def mulVec3Quat (v : vec3 F) (q : quat F) : vec3 F :=
  let out := cross q.axis v
  let qqv := cross q.axis out
  let out := scaleAddVec3 out q.amount qqv
  let out := scaleAddVec3 out 2 v
  out

/-- The function `initPrimitive`. -/
def initPrimitive : Primitive F :=
  { type := PrimitiveType.None, flags := IS_VISIBLE, id := 0
    scale := getVec3Of 1, position := getVec3Of 0, rotation := getIdentityQuaternion }

/-- The function `convertPositionToWorldSpace`. -/
def convertPositionToWorldSpace (position : vec3 F) (primitive : Primitive F) : vec3 F :=
  let position :=
    if primitive.flags &&& IS_SCALED ≠ 0 then mulVec3 position primitive.scale else position
  let position :=
    if primitive.flags &&& IS_ROTATED ≠ 0 then mulVec3Quat position primitive.rotation
    else position
  let position :=
    if primitive.flags &&& IS_TRANSLATED ≠ 0 then addVec3 position primitive.position
    else position
  position

/-- The unflagged computation of the specification: scale, then rotate, then translate,
with no test of the flags. -/
def convertPositionToWorldSpaceUnflagged (position scale : vec3 F) (rotation : quat F)
    (translation : vec3 F) : vec3 F :=
  addVec3 (mulVec3Quat (mulVec3 position scale) rotation) translation

end Primitives

/-! ## Triangles -/

/-- The locals of `fillTriangle` that its loop only reads. -/
structure TriangleSetup (F : Type) where
  x1 : F
  y1 : F
  x2 : F
  y2 : F
  x3 : F
  y3 : F
  x1i : Int
  y1i : Int
  x2i : Int
  y2i : Int
  x3i : Int
  y3i : Int
  dx1 : F
  dx2 : F
  dx3 : F
  ysi : Int
  yei : Int

/-- The locals of `fillTriangle` that its loop updates. -/
structure TriangleState (F : Type) where
  xs : F
  xe : F
  offset : Int

section Triangles

variable {F : Type} [LinearOrderedField F] [FloorRing F]

/-- The first loop of `fillTriangle`: the indices `ysi` and `yei` of a vertex of least and of
greatest `Y`. -/
def triangleExtremes (Y : Fin 3 → F) : Fin 3 × Fin 3 :=
  let ysi : Fin 3 := 0
  let yei : Fin 3 := 0
  let ysi := if Y 1 < Y ysi then 1 else ysi
  let yei := if Y 1 > Y yei then 1 else yei
  let ysi := if Y 2 < Y ysi then 2 else ysi
  let yei := if Y 2 > Y yei then 2 else yei
  (ysi, yei)

/-- The array `id` of `fillTriangle`: the vertex indices in the order in which they are used. -/
def triangleOrder (ysi : Fin 3) : Fin 3 → Fin 3 :=
  if ysi ≠ 0 then (if ysi = 1 then ![1, 2, 0] else ![2, 0, 1]) else ![0, 1, 2]

/-- A slope of `fillTriangle`: 0 when the truncated `x` or the truncated `y` of the two
vertices coincide, the quotient otherwise. -/
def triangleSlope (xa ya xb yb : F) : F :=
  if toI32 xa = toI32 xb ∨ toI32 ya = toI32 yb then 0 else (xb - xa) / (yb - ya)

/-- The statements of `fillTriangle` before its scanline loop. -/
def triangleSetup (X Y : Fin 3 → F) : TriangleSetup F :=
  let ysi := (triangleExtremes Y).1
  let yei := (triangleExtremes Y).2
  let id := triangleOrder ysi
  let x1 := X (id 0)
  let y1 := Y (id 0)
  let x2 := X (id 1)
  let y2 := Y (id 1)
  let x3 := X (id 2)
  let y3 := Y (id 2)
  { x1 := x1, y1 := y1, x2 := x2, y2 := y2, x3 := x3, y3 := y3
    x1i := toI32 x1, y1i := toI32 y1, x2i := toI32 x2, y2i := toI32 y2
    x3i := toI32 x3, y3i := toI32 y3
    dx1 := triangleSlope x1 y1 x2 y2
    dx2 := triangleSlope x2 y2 x3 y3
    dx3 := triangleSlope x1 y1 x3 y3
    ysi := toI32 (Y ysi)
    yei := toI32 (Y yei) }

/-- The initial `xs`, `xe` and `offset` of `fillTriangle`. -/
def triangleInit (W : Nat) (t : TriangleSetup F) : TriangleState F :=
  let dy := 1 - (t.y1 - t.y1)
  { xs := if t.dx3 ≠ 0 then t.x1 + t.dx3 * dy else t.x1
    xe := if t.dx1 ≠ 0 then t.x1 + t.dx1 * dy else t.x1
    offset := (W : Int) * t.y1i }

/-- The inner loop `for (x = xsi; x < xei; x++)` of `fillTriangle` with its test. -/
def triangleRow (W H : Nat) (y offset xsi xei : Int) : List Int :=
  ((forRange xsi (xei - 1) 1).filter
    (fun x => decide (x > 0 ∧ x < (W : Int) ∧ y > 0 ∧ y < (H : Int)))).map (fun x => offset + x)

/-- The values of `xs` and `xe` that a pass of the scanline loop uses. -/
def triangleBounds (t : TriangleSetup F) (y : Int) (s : TriangleState F) : F × F :=
  let xs := if y = t.y3i then
      (if t.dx2 ≠ 0 then t.x3 + t.dx2 * (1 - (t.y3 - (t.y3i : F))) else t.x3)
    else s.xs
  let xe := if y = t.y2i then
      (if t.dx2 ≠ 0 then t.x2 + t.dx2 * (1 - (t.y2 - (t.y2i : F))) else t.x2)
    else s.xe
  (xs, xe)

/-- The scanline loop `for (y = ysi; y < yei; y++)` of `fillTriangle`; the first argument is
the number of passes left. -/
def triangleLoop (W H : Nat) (t : TriangleSetup F) : Nat → Int → TriangleState F → List Int
  | 0, _, _ => []
  | n + 1, y, s =>
    let b := triangleBounds t y s
    triangleRow W H y s.offset (toI32 b.1) (toI32 b.2) ++
      triangleLoop W H t n (y + 1)
        { offset := s.offset + (W : Int)
          xs := b.1 + (if y < t.y3i then t.dx3 else t.dx2)
          xe := b.2 + (if y < t.y2i then t.dx1 else t.dx2) }

/-- The function `fillTriangle`. -/
def fillTriangle (canvas : PixelGrid F) (X Y : Fin 3 → F) : List Int :=
  let W := canvas.dimensions.width
  let H := canvas.dimensions.height
  let t := triangleSetup X Y
  triangleLoop W H t (t.yei - t.ysi).toNat t.ysi (triangleInit W t)

end Triangles

/-! ## Rectangles -/

/-- The struct `vec2i`. -/
structure vec2i where
  x : Int
  y : Int
deriving DecidableEq, Repr

/-- The struct `Rect`. -/
structure Rect where
  min : vec2i
  max : vec2i
deriving DecidableEq, Repr

/-- The loop `for (u16 y = min_y; y <= max_y; y++) drawHLine2D(canvas, color, min_x, max_x, y)`
of `fillRect`; `y` is a `u16`, compared with the `i32` bound `max_y`, and wraps at `2^16`. -/
def fillRectLoop {F : Type} (canvas : PixelGrid F) (min_x max_x max_y : Int) :
    Nat → Nat → Option (List Int)
  | 0, _ => none
  | fuel + 1, y =>
    if (y : Int) ≤ max_y then
      (fillRectLoop canvas min_x max_x max_y fuel ((y + 1) % 2 ^ 16)).map
        (fun ws => drawHLine2D canvas min_x max_x y ++ ws)
    else some []

/-- The function `fillRect`. -/
def fillRect {F : Type} (fuel : Nat) (canvas : PixelGrid F) (rect : Rect) : Option (List Int) :=
  if rect.max.x < 0 ∨ rect.min.x ≥ (canvas.dimensions.width : Int) ∨
     rect.max.y < 0 ∨ rect.min.y ≥ (canvas.dimensions.height : Int) then some []
  else
    let xs := subRange rect.min.x rect.max.x canvas.dimensions.width 0
    let ys := subRange rect.min.y rect.max.y canvas.dimensions.height 0
    fillRectLoop canvas xs.1 xs.2 ys.2 fuel (ys.1 % 2 ^ 16).toNat

/-! ## The Bresenham loop with a pass counter -/

/-- The loop `while (current1 != end)` of `drawLine2D`, as `lineLoop`, returning the number
of passes through its body instead of the writes. -/
def lineLoopPasses (c : LineConfig) : Nat → LineState → Option Nat
  | 0, _ => none
  | fuel + 1, s =>
    if s.current1 ≠ c.end_ then
      (lineLoopPasses c fuel (lineBody c s).2).map (fun n => n + 1)
    else some 0

/-! ## Quaternions: the largest term, the conjugate -/

section Quaternions

variable {F : Type} [LinearOrderedField F]

/-- The four candidate terms of `convertRotationMatrixToQuaternion`, in the order
`fourWSquaredMinus1`, `fourXSquaredMinus1`, `fourYSquaredMinus1`, `fourZSquaredMinus1`. -/
def fourSquaredMinus1 (rotation_matrix : mat3 F) : F × F × F × F :=
  (rotation_matrix.X.x + rotation_matrix.Y.y + rotation_matrix.Z.z,
   rotation_matrix.X.x - rotation_matrix.Y.y - rotation_matrix.Z.z,
   rotation_matrix.Y.y - rotation_matrix.X.x - rotation_matrix.Z.z,
   rotation_matrix.Z.z - rotation_matrix.X.x - rotation_matrix.Y.y)

/-- The local `fourBiggestSquaredMinus1` of `convertRotationMatrixToQuaternion` after its
three comparisons. -/
def fourBiggestSquaredMinus1 (rotation_matrix : mat3 F) : F :=
  let fourXSquaredMinus1 := rotation_matrix.X.x - rotation_matrix.Y.y - rotation_matrix.Z.z
  let fourYSquaredMinus1 := rotation_matrix.Y.y - rotation_matrix.X.x - rotation_matrix.Z.z
  let fourZSquaredMinus1 := rotation_matrix.Z.z - rotation_matrix.X.x - rotation_matrix.Y.y
  let fourWSquaredMinus1 := rotation_matrix.X.x + rotation_matrix.Y.y + rotation_matrix.Z.z
  let fourBiggestSquaredMinus1 := fourWSquaredMinus1
  let fourBiggestSquaredMinus1 :=
    if fourXSquaredMinus1 > fourBiggestSquaredMinus1 then fourXSquaredMinus1
    else fourBiggestSquaredMinus1
  let fourBiggestSquaredMinus1 :=
    if fourYSquaredMinus1 > fourBiggestSquaredMinus1 then fourYSquaredMinus1
    else fourBiggestSquaredMinus1
  let fourBiggestSquaredMinus1 :=
    if fourZSquaredMinus1 > fourBiggestSquaredMinus1 then fourZSquaredMinus1
    else fourBiggestSquaredMinus1
  fourBiggestSquaredMinus1

/-- The local `biggestIndex` of `convertRotationMatrixToQuaternion` after its three
comparisons. -/
def biggestIndex (rotation_matrix : mat3 F) : Nat :=
  let fourXSquaredMinus1 := rotation_matrix.X.x - rotation_matrix.Y.y - rotation_matrix.Z.z
  let fourYSquaredMinus1 := rotation_matrix.Y.y - rotation_matrix.X.x - rotation_matrix.Z.z
  let fourZSquaredMinus1 := rotation_matrix.Z.z - rotation_matrix.X.x - rotation_matrix.Y.y
  let fourWSquaredMinus1 := rotation_matrix.X.x + rotation_matrix.Y.y + rotation_matrix.Z.z
  let biggestIndex : Nat := 0
  let fourBiggestSquaredMinus1 := fourWSquaredMinus1
  let biggestIndex := if fourXSquaredMinus1 > fourBiggestSquaredMinus1 then 1 else biggestIndex
  let fourBiggestSquaredMinus1 :=
    if fourXSquaredMinus1 > fourBiggestSquaredMinus1 then fourXSquaredMinus1
    else fourBiggestSquaredMinus1
  let biggestIndex := if fourYSquaredMinus1 > fourBiggestSquaredMinus1 then 2 else biggestIndex
  let fourBiggestSquaredMinus1 :=
    if fourYSquaredMinus1 > fourBiggestSquaredMinus1 then fourYSquaredMinus1
    else fourBiggestSquaredMinus1
  let biggestIndex := if fourZSquaredMinus1 > fourBiggestSquaredMinus1 then 3 else biggestIndex
  biggestIndex

/-- The local `biggestVal` of `convertRotationMatrixToQuaternion`, the divisor of
`mult = 0.25f / biggestVal`. -/
def biggestVal (sqrtf : F → F) (rotation_matrix : mat3 F) : F :=
  sqrtf (fourBiggestSquaredMinus1 rotation_matrix + 1) * (1 / 2)

/-- The function `conjugate`. -/
def conjugate (q : quat F) : quat F := { amount := q.amount, axis := invertedVec3 q.axis }

/-- The function `oneOverVec3`. -/
def oneOverVec3 (v : vec3 F) : vec3 F := ⟨1 / v.x, 1 / v.y, 1 / v.z⟩

/-- Modelled from the spec: the name `oneOver` that `convertPositionToObjectSpace` calls is
not defined in the source; it is taken to be the component-wise reciprocal of the library,
`oneOverVec3`. -/
def oneOver (v : vec3 F) : vec3 F := oneOverVec3 v

/-- The function `convertPositionToObjectSpace`. -/
def convertPositionToObjectSpace (position : vec3 F) (primitive : Primitive F) : vec3 F :=
  let position :=
    if primitive.flags &&& IS_TRANSLATED ≠ 0 then subVec3 position primitive.position
    else position
  let position :=
    if primitive.flags &&& IS_ROTATED ≠ 0 then
      mulVec3Quat position (conjugate primitive.rotation)
    else position
  let position :=
    if primitive.flags &&& IS_SCALED ≠ 0 then mulVec3 position (oneOver primitive.scale)
    else position
  position

end Quaternions

/-! ## Boxes: the edges drawn for a mask of sides -/

/-- The enumerator `NoSide` of `BoxSide`. -/
def BoxSide.NoSide : Nat := 0

/-- The enumerator `Top` of `BoxSide`. -/
def BoxSide.Top : Nat := 1

/-- The enumerator `Bottom` of `BoxSide`. -/
def BoxSide.Bottom : Nat := 2

/-- The enumerator `Left` of `BoxSide`. -/
def BoxSide.Left : Nat := 4

/-- The enumerator `Right` of `BoxSide`. -/
def BoxSide.Right : Nat := 8

/-- The enumerator `Front` of `BoxSide`. -/
def BoxSide.Front : Nat := 16

/-- The enumerator `Back` of `BoxSide`. -/
def BoxSide.Back : Nat := 32

/-- The constant `AllBoxSides`. -/
def AllBoxSides : Nat :=
  BoxSide.Top ||| BoxSide.Bottom ||| BoxSide.Left ||| BoxSide.Right ||| BoxSide.Front |||
    BoxSide.Back

/-- The constant `BBOX_EDGE_COUNT`. -/
def BBOX_EDGE_COUNT : Nat := 12

/-- The fields of the struct `BBoxEdgeSides`, in the order of the struct. -/
inductive BBoxEdgeSides where
  | front_top
  | front_bottom
  | front_left
  | front_right
  | back_top
  | back_bottom
  | back_left
  | back_right
  | left_bottom
  | left_top
  | right_bottom
  | right_top
deriving DecidableEq, Repr

/-- The array `buffer` of the union `BBoxEdges`: the twelve fields of `BBoxEdgeSides` in the
order of the struct. -/
def BBoxEdges.buffer : List BBoxEdgeSides :=
  [.front_top, .front_bottom, .front_left, .front_right, .back_top, .back_bottom,
   .back_left, .back_right, .left_bottom, .left_top, .right_bottom, .right_top]

/-- The function `drawBBox`: the edges for which it calls `drawLine2D`, in program order;
`sides` is a `u8`. -/
def drawBBox (sides : Nat) : List BBoxEdgeSides :=
  if sides = AllBoxSides then
    (List.range BBOX_EDGE_COUNT).filterMap (fun i => BBoxEdges.buffer.get? i)
  else
    (if (sides &&& BoxSide.Front) ||| (sides &&& BoxSide.Top) ≠ 0 then [.front_top] else []) ++
    (if (sides &&& BoxSide.Front) ||| (sides &&& BoxSide.Bottom) ≠ 0 then [.front_bottom]
      else []) ++
    (if (sides &&& BoxSide.Front) ||| (sides &&& BoxSide.Left) ≠ 0 then [.front_left] else []) ++
    (if (sides &&& BoxSide.Front) ||| (sides &&& BoxSide.Right) ≠ 0 then [.front_right]
      else []) ++
    (if (sides &&& BoxSide.Back) ||| (sides &&& BoxSide.Top) ≠ 0 then [.back_top] else []) ++
    (if (sides &&& BoxSide.Back) ||| (sides &&& BoxSide.Bottom) ≠ 0 then [.back_bottom]
      else []) ++
    (if (sides &&& BoxSide.Back) ||| (sides &&& BoxSide.Left) ≠ 0 then [.back_left] else []) ++
    (if (sides &&& BoxSide.Back) ||| (sides &&& BoxSide.Right) ≠ 0 then [.back_right] else []) ++
    (if (sides &&& BoxSide.Left) ||| (sides &&& BoxSide.Top) ≠ 0 then [.left_top] else []) ++
    (if (sides &&& BoxSide.Left) ||| (sides &&& BoxSide.Bottom) ≠ 0 then [.left_bottom]
      else []) ++
    (if (sides &&& BoxSide.Right) ||| (sides &&& BoxSide.Top) ≠ 0 then [.right_top] else []) ++
    (if (sides &&& BoxSide.Right) ||| (sides &&& BoxSide.Bottom) ≠ 0 then [.right_bottom]
      else [])

/-- Modelled from the spec: the macro `BOX__ALL_SIDES` that `drawBox` of `scene/box.h` compares
the mask with is not defined in the source; it is taken to be the mask of all six sides,
`AllBoxSides`. -/
def BOX__ALL_SIDES : Nat := AllBoxSides

/-- Modelled from the spec: the macro `BOX__EDGE_COUNT` of `scene/box.h` is not defined in the
source; a box has 12 edges, as `BBOX_EDGE_COUNT`. -/
def BOX__EDGE_COUNT : Nat := 12

/-- The function `drawBox` of `scene/box.h`: the edges for which it calls `drawEdge`, in
program order, after the vertices are transformed and distributed to the edges; `sides` is
a `u8`.  The type `BoxEdges` is not defined in the source; its fields are those named by
`drawBox`, the same as those of `BBoxEdgeSides`, and its `buffer` is taken in the same
order. -/
def drawBox (sides : Nat) : List BBoxEdgeSides :=
  if sides = BOX__ALL_SIDES then
    (List.range BOX__EDGE_COUNT).filterMap (fun i => BBoxEdges.buffer.get? i)
  else
    (if (sides &&& BoxSide.Front) ||| (sides &&& BoxSide.Top) ≠ 0 then [.front_top] else []) ++
    (if (sides &&& BoxSide.Front) ||| (sides &&& BoxSide.Bottom) ≠ 0 then [.front_bottom]
      else []) ++
    (if (sides &&& BoxSide.Front) ||| (sides &&& BoxSide.Left) ≠ 0 then [.front_left] else []) ++
    (if (sides &&& BoxSide.Front) ||| (sides &&& BoxSide.Right) ≠ 0 then [.front_right]
      else []) ++
    (if (sides &&& BoxSide.Back) ||| (sides &&& BoxSide.Top) ≠ 0 then [.back_top] else []) ++
    (if (sides &&& BoxSide.Back) ||| (sides &&& BoxSide.Bottom) ≠ 0 then [.back_bottom]
      else []) ++
    (if (sides &&& BoxSide.Back) ||| (sides &&& BoxSide.Left) ≠ 0 then [.back_left] else []) ++
    (if (sides &&& BoxSide.Back) ||| (sides &&& BoxSide.Right) ≠ 0 then [.back_right] else []) ++
    (if (sides &&& BoxSide.Left) ||| (sides &&& BoxSide.Top) ≠ 0 then [.left_top] else []) ++
    (if (sides &&& BoxSide.Left) ||| (sides &&& BoxSide.Bottom) ≠ 0 then [.left_bottom]
      else []) ++
    (if (sides &&& BoxSide.Right) ||| (sides &&& BoxSide.Top) ≠ 0 then [.right_top] else []) ++
    (if (sides &&& BoxSide.Right) ||| (sides &&& BoxSide.Bottom) ≠ 0 then [.right_bottom]
      else [])

/-! ## Binary32 arithmetic

The finite values of the type `f32` (IEEE 754 binary32) are the numbers `n * 2^-149` for the
integers `n` with `|n| < 2^24`, or with `|n| = k * 2^s` for `2^23 <= k < 2^24` and `s <= 253`.
Such a value is represented here by the integer `n`, so `1.0f` is `2^149`.  Overflow to
infinity, NaN and the division by zero are not modelled. -/

/-- The index `i` is the pixel of a column and a row of the grid. -/
def InGrid (width height : Nat) (i : Int) : Prop :=
  ∃ col row : Int, i = row * width + col ∧ 0 ≤ col ∧ col < width ∧ 0 ≤ row ∧ row < height

/-- The four row offsets of a circle state are multiples of the width. -/
def CircleRows (width : Int) (s : CircleState) : Prop :=
  (∃ a, s.Sy1 = a * width) ∧ (∃ a, s.Ey1 = a * width) ∧
  (∃ a, s.Sy2 = a * width) ∧ (∃ a, s.Ey2 = a * width)

/-- The matrix of the library of mathematics with the entries of a `mat3`, row by row. -/
def mat3.toMatrix {F : Type} (m : mat3 F) : Matrix (Fin 3) (Fin 3) F :=
  !![m.X.x, m.X.y, m.X.z; m.Y.x, m.Y.y, m.Y.z; m.Z.x, m.Z.y, m.Z.z]

/-- The matrix of the library of mathematics with the entries of a `mat4`, row by row. -/
def mat4.toMatrix {F : Type} (m : mat4 F) : Matrix (Fin 4) (Fin 4) F :=
  !![m.X.x, m.X.y, m.X.z, m.X.w; m.Y.x, m.Y.y, m.Y.z, m.Y.w;
     m.Z.x, m.Z.y, m.Z.z, m.Z.w; m.W.x, m.W.y, m.W.z, m.W.w]

/-- A `mat3` whose transpose is its inverse on both sides. -/
def Orthonormal {F : Type} [LinearOrderedField F] (m : mat3 F) : Prop :=
  mulMat3 m (transposedMat3 m) = getMat3Identity ∧
  mulMat3 (transposedMat3 m) m = getMat3Identity

/-- The invariant of an `xform3`: the three cached single-axis matrices and the rotation
matrix are orthonormal, and `rotation_matrix_inverted` is the transpose of `rotation_matrix`. -/
def XformInSync {F : Type} [LinearOrderedField F] (xform : xform3 F) : Prop :=
  Orthonormal xform.yaw_matrix ∧ Orthonormal xform.pitch_matrix ∧
  Orthonormal xform.roll_matrix ∧ Orthonormal xform.rotation_matrix ∧
  xform.rotation_matrix_inverted = transposedMat3 xform.rotation_matrix

/-- The relation between the locals of the loop of `drawCircle` and the centre `(cx, cy)`
and radius `r`: the four columns and the four row offsets are those of the eight points
`(cx ± x, cy ± y)`, `(cx ± y, cy ± x)`, the squares are up to date, and the point `(x, y)`
lies within one pixel of the circle (the outer bound being needed while the loop runs). -/
def CircleOnRadius (width cx cy r : Int) (s : CircleState) : Prop :=
  s.Sx1 = cx - s.x ∧ s.Ex1 = cx + s.x ∧
  s.Sy1 = (cy - s.y) * width ∧ s.Ey1 = (cy + s.y) * width ∧
  s.Sx2 = cx - s.y ∧ s.Ex2 = cx + s.y ∧
  s.Sy2 = (cy - s.x) * width ∧ s.Ey2 = (cy + s.x) * width ∧
  s.x2 = s.x * s.x ∧ s.y2 = s.y * s.y ∧
  0 ≤ s.y ∧ s.x ≤ r ∧
  (r - 1) ^ 2 < s.x ^ 2 + s.y ^ 2 ∧
  (s.y ≤ s.x → s.x ^ 2 + s.y ^ 2 < (r + 1) ^ 2)

/-- The state of the locals of `drawLine2D` at the start of pass `k` of its loop. -/
def lineStateAt {F : Type} (canvas : PixelGrid F) (x0 y0 x1 y1 : Int) (k : Nat) : LineState :=
  (fun s => (lineBody (lineSetup canvas x0 y0 x1 y1).1 s).2)^[k] (lineSetup canvas x0 y0 x1 y1).2

/-- The two sides that name an edge of a box: `front_top` is named by `Front` and `Top`, and
so on. -/
def BBoxEdgeSides.sides : BBoxEdgeSides → Nat × Nat
  | .front_top => (BoxSide.Front, BoxSide.Top)
  | .front_bottom => (BoxSide.Front, BoxSide.Bottom)
  | .front_left => (BoxSide.Front, BoxSide.Left)
  | .front_right => (BoxSide.Front, BoxSide.Right)
  | .back_top => (BoxSide.Back, BoxSide.Top)
  | .back_bottom => (BoxSide.Back, BoxSide.Bottom)
  | .back_left => (BoxSide.Back, BoxSide.Left)
  | .back_right => (BoxSide.Back, BoxSide.Right)
  | .left_bottom => (BoxSide.Left, BoxSide.Bottom)
  | .left_top => (BoxSide.Left, BoxSide.Top)
  | .right_bottom => (BoxSide.Right, BoxSide.Bottom)
  | .right_top => (BoxSide.Right, BoxSide.Top)

/-- The quaternion is a unit quaternion. -/
def UnitQuat {F : Type} [LinearOrderedField F] (q : quat F) : Prop :=
  q.amount * q.amount + q.axis.x * q.axis.x + q.axis.y * q.axis.y + q.axis.z * q.axis.z = 1

/-! ## Auxiliary lemmas on the integer helpers -/

theorem inRange_iff (value end_ start : Int) :
    inRange value end_ start = true ↔ start ≤ value ∧ value < end_ := by
  simp [inRange]

theorem mem_forRange {first last step i : Int} (hstep : 0 < step)
    (h : i ∈ forRange first last step) :
    ∃ k : Nat, i = first + (k : Int) * step ∧ i ≤ last := by
  unfold forRange at h
  split at h
  · rename_i hle
    rw [List.mem_map] at h
    obtain ⟨k, hk, rfl⟩ := h
    rw [List.mem_range] at hk
    refine ⟨k, rfl, ?_⟩
    have hq : 0 ≤ (last - first) / step := Int.ediv_nonneg (by omega) hstep.le
    have hk' : (k : Int) ≤ (last - first) / step := by omega
    have h1 : (last - first) / step * step ≤ last - first := Int.ediv_mul_le _ hstep.ne'
    have h2 : (k : Int) * step ≤ (last - first) / step * step :=
      Int.mul_le_mul_of_nonneg_right hk' hstep.le
    omega
  · simp at h

theorem subRange_fst_nonneg (from_ to_ end_ : Int) : 0 ≤ (subRange from_ to_ end_ 0).1 := by
  simp only [subRange, swap]
  split <;> split <;> omega

theorem subRange_snd_lt (from_ to_ end_ : Int) : (subRange from_ to_ end_ 0).2 < end_ := by
  simp only [subRange, swap]
  split <;> split <;> omega

/-! ## Lines: the fast paths stay inside the store -/

theorem drawHLine2D_mem {F : Type} (canvas : PixelGrid F) (from_ to_ at_ i : Int)
    (h : i ∈ drawHLine2D canvas from_ to_ at_) :
    0 ≤ i ∧ i < (canvas.dimensions.width : Int) * canvas.dimensions.height := by
  unfold drawHLine2D at h
  split at h
  · simp at h
  · rename_i hat
    simp only [Bool.not_eq_true', Bool.not_eq_false] at hat
    rw [inRange_iff] at hat
    obtain ⟨k, hk, hle⟩ := mem_forRange (by norm_num) h
    have h1 := subRange_fst_nonneg from_ to_ canvas.dimensions.width
    have h2 := subRange_snd_lt from_ to_ canvas.dimensions.width
    have hw : (0 : Int) ≤ canvas.dimensions.width := Int.ofNat_nonneg _
    have h3 : 0 ≤ at_ * (canvas.dimensions.width : Int) := Int.mul_nonneg hat.1 hw
    have h4 : (at_ + 1) * (canvas.dimensions.width : Int) ≤
        (canvas.dimensions.height : Int) * canvas.dimensions.width :=
      Int.mul_le_mul_of_nonneg_right (by omega) hw
    constructor
    · omega
    · nlinarith

theorem drawVLine2D_mem {F : Type} (canvas : PixelGrid F) (from_ to_ at_ i : Int)
    (h : i ∈ drawVLine2D canvas from_ to_ at_) :
    0 ≤ i ∧ i < (canvas.dimensions.width : Int) * canvas.dimensions.height := by
  unfold drawVLine2D at h
  split at h
  · simp at h
  · rename_i hat
    simp only [Bool.not_eq_true', Bool.not_eq_false] at hat
    rw [inRange_iff] at hat
    have hw : (0 : Int) < canvas.dimensions.width := by omega
    obtain ⟨k, hk, hle⟩ := mem_forRange hw h
    have h1 := subRange_fst_nonneg from_ to_ canvas.dimensions.height
    have h2 := subRange_snd_lt from_ to_ canvas.dimensions.height
    have h3 : 0 ≤ (subRange from_ to_ canvas.dimensions.height 0).1 *
        (canvas.dimensions.width : Int) := Int.mul_nonneg h1 hw.le
    have h4 : ((subRange from_ to_ canvas.dimensions.height 0).2 + 1) *
        (canvas.dimensions.width : Int) ≤
        (canvas.dimensions.height : Int) * canvas.dimensions.width :=
      Int.mul_le_mul_of_nonneg_right (by omega) hw.le
    have h5 : 0 ≤ (k : Int) * (canvas.dimensions.width : Int) :=
      Int.mul_nonneg (Int.ofNat_nonneg _) hw.le
    constructor
    · omega
    · nlinarith

/-! ## Lines: the Bresenham loop -/

theorem lineBody_fst (c : LineConfig) (s : LineState) :
    (lineBody c s).1 =
      if inRange s.index c.size 0 then
        if c.is_steap then
          if inRange (s.current1 + c.inc1) c.height 0 && inRange s.current2 c.width 0
          then [s.index] else []
        else
          if inRange s.current2 c.height 0 && inRange (s.current1 + c.inc1) c.width 0
          then [s.index] else []
      else [] := by
  unfold lineBody
  by_cases h : s.error + c.error_inc > c.threshold
  · simp only [h, if_true]
  · simp only [h, if_false]

theorem lineBody_writes (c : LineConfig) (s : LineState) (i : Int)
    (h : i ∈ (lineBody c s).1) : i = s.index ∧ 0 ≤ i ∧ i < c.size := by
  rw [lineBody_fst] at h
  split at h
  · rename_i hr
    rw [inRange_iff] at hr
    split at h <;> split at h <;> simp at h <;> (subst h; exact ⟨rfl, hr⟩)
  · simp at h

theorem lineBody_current1 (c : LineConfig) (s : LineState) :
    (lineBody c s).2.current1 = s.current1 + c.inc1 := by
  unfold lineBody
  by_cases h : s.error + c.error_inc > c.threshold
  · simp only [h, if_true]
  · simp only [h, if_false]

theorem lineLoop_writes (c : LineConfig) :
    ∀ (fuel : Nat) (s : LineState) (ws : List Int), lineLoop c fuel s = some ws →
      ∀ i ∈ ws, 0 ≤ i ∧ i < c.size := by
  intro fuel
  induction fuel with
  | zero => intro s ws h; simp [lineLoop] at h
  | succ n ih =>
    intro s ws h i hi
    rw [lineLoop] at h
    split at h
    · rw [Option.map_eq_some'] at h
      obtain ⟨ws', hws', rfl⟩ := h
      rw [List.mem_append] at hi
      rcases hi with hi | hi
      · exact (lineBody_writes c s i hi).2
      · exact ih _ _ hws' i hi
    · cases h; simp at hi

theorem lineLoop_mono (c : LineConfig) :
    ∀ (n : Nat) (s : LineState) (ws : List Int), lineLoop c n s = some ws →
      ∀ m, n ≤ m → lineLoop c m s = some ws := by
  intro n
  induction n with
  | zero => intro s ws h; simp [lineLoop] at h
  | succ n ih =>
    intro s ws h m hm
    obtain ⟨m, rfl⟩ : ∃ m', m = m' + 1 := ⟨m - 1, by omega⟩
    rw [lineLoop] at h ⊢
    split
    · rename_i hne
      rw [if_pos hne, Option.map_eq_some'] at h
      obtain ⟨ws', hws', rfl⟩ := h
      rw [ih _ _ hws' m (by omega)]
      rfl
    · rename_i hne
      rw [if_neg hne] at h
      exact h

/-- The loop stops after `k` passes when `current1` is `k` steps of `inc1` away from `end`. -/
theorem lineLoop_terminates (c : LineConfig) :
    ∀ (k : Nat) (s : LineState),
      ((c.inc1 = 1 ∧ c.end_ - s.current1 = k) ∨ (c.inc1 = -1 ∧ s.current1 - c.end_ = k)) →
      ∃ ws, lineLoop c (k + 1) s = some ws := by
  intro k
  induction k with
  | zero =>
    intro s h
    refine ⟨[], ?_⟩
    rw [lineLoop, if_neg]
    intro hne
    apply hne
    rcases h with ⟨_, h⟩ | ⟨_, h⟩ <;> simp only [Nat.cast_zero] at h <;> omega
  | succ k ih =>
    intro s h
    have hne : s.current1 ≠ c.end_ := by
      intro heq
      rw [heq] at h
      rcases h with ⟨_, h⟩ | ⟨_, h⟩ <;> push_cast at h <;> omega
    obtain ⟨ws, hws⟩ := ih (lineBody c s).2 (by
      rw [lineBody_current1]
      rcases h with ⟨h1, h⟩ | ⟨h1, h⟩ <;> push_cast at h
      · left; exact ⟨h1, by omega⟩
      · right; exact ⟨h1, by omega⟩)
    refine ⟨(lineBody c s).1 ++ ws, ?_⟩
    rw [lineLoop, if_pos hne, hws]
    rfl

theorem lineSetup_direction {F : Type} (canvas : PixelGrid F) (x0 y0 x1 y1 : Int) :
    ((lineSetup canvas x0 y0 x1 y1).1.inc1 = 1 ∧
      0 ≤ (lineSetup canvas x0 y0 x1 y1).1.end_ - (lineSetup canvas x0 y0 x1 y1).2.current1) ∨
    ((lineSetup canvas x0 y0 x1 y1).1.inc1 = -1 ∧
      0 ≤ (lineSetup canvas x0 y0 x1 y1).2.current1 - (lineSetup canvas x0 y0 x1 y1).1.end_) := by
  simp only [lineSetup, swap]
  split_ifs <;> simp <;> omega

theorem lineSetup_size {F : Type} (canvas : PixelGrid F) (x0 y0 x1 y1 : Int) :
    (lineSetup canvas x0 y0 x1 y1).1.size = canvas.dimensions.width_times_height := by
  simp only [lineSetup]

theorem drawLine2D_terminates {F : Type} (canvas : PixelGrid F) (x0 y0 x1 y1 : Int) :
    ∃ n ws, ∀ fuel, n ≤ fuel → drawLine2D fuel canvas x0 y0 x1 y1 = some ws := by
  unfold drawLine2D
  by_cases h0 : x0 < 0 ∧ y0 < 0 ∧ x1 < 0 ∧ y1 < 0
  · exact ⟨0, [], fun _ _ => by rw [if_pos h0]⟩
  by_cases h1 : x0 = x1
  · exact ⟨0, _, fun _ _ => by rw [if_neg h0, if_pos h1]⟩
  by_cases h2 : y0 = y1
  · exact ⟨0, _, fun _ _ => by rw [if_neg h0, if_neg h1, if_pos h2]⟩
  have hdir := lineSetup_direction canvas x0 y0 x1 y1
  have hk : ∃ k : Nat,
      ((lineSetup canvas x0 y0 x1 y1).1.inc1 = 1 ∧
        (lineSetup canvas x0 y0 x1 y1).1.end_ - (lineSetup canvas x0 y0 x1 y1).2.current1 = k) ∨
      ((lineSetup canvas x0 y0 x1 y1).1.inc1 = -1 ∧
        (lineSetup canvas x0 y0 x1 y1).2.current1 - (lineSetup canvas x0 y0 x1 y1).1.end_ = k) := by
    rcases hdir with ⟨h, hd⟩ | ⟨h, hd⟩
    · exact ⟨_, Or.inl ⟨h, (Int.toNat_of_nonneg hd).symm⟩⟩
    · exact ⟨_, Or.inr ⟨h, (Int.toNat_of_nonneg hd).symm⟩⟩
  obtain ⟨k, hk⟩ := hk
  obtain ⟨ws, hws⟩ := lineLoop_terminates _ k _ hk
  refine ⟨k + 1, ws, fun fuel hfuel => ?_⟩
  rw [if_neg h0, if_neg h1, if_neg h2]
  exact lineLoop_mono _ _ _ _ hws fuel hfuel

theorem drawLine2D_mem {F : Type} (canvas : PixelGrid F)
    (hsize : canvas.dimensions.width_times_height =
      canvas.dimensions.width * canvas.dimensions.height)
    (x0 y0 x1 y1 : Int) (fuel : Nat) (ws : List Int)
    (h : drawLine2D fuel canvas x0 y0 x1 y1 = some ws) (i : Int) (hi : i ∈ ws) :
    0 ≤ i ∧ i < (canvas.dimensions.width : Int) * canvas.dimensions.height := by
  unfold drawLine2D at h
  split at h
  · cases h; simp at hi
  split at h
  · cases h; exact drawVLine2D_mem canvas _ _ _ i hi
  split at h
  · cases h; exact drawHLine2D_mem canvas _ _ _ i hi
  have := lineLoop_writes _ fuel _ ws h i hi
  rw [lineSetup_size, hsize] at this
  push_cast at this
  exact this

/-! ## Claims on `drawLine2D` -/

/-- C1: on a grid whose store holds `width * height` pixels, for all endpoints, `drawLine2D`
returns (with enough fuel, and then always the same trace), and every index it writes, in the
Bresenham loop or through `drawHLine2D` / `drawVLine2D`, lies in `[0, width * height)`, that
is inside the store. -/
theorem drawLine2D_writes_in_bounds {F : Type} (canvas : PixelGrid F)
    (hwf : canvas.WellFormed) (x0 y0 x1 y1 : Int) :
    (∃ n ws, ∀ fuel, n ≤ fuel → drawLine2D fuel canvas x0 y0 x1 y1 = some ws) ∧
    (∀ fuel ws, drawLine2D fuel canvas x0 y0 x1 y1 = some ws →
      ∀ i ∈ ws, 0 ≤ i ∧ i < (canvas.dimensions.width : Int) * canvas.dimensions.height ∧
        i.toNat < canvas.pixels.length) := by
  refine ⟨drawLine2D_terminates canvas x0 y0 x1 y1, fun fuel ws h i hi => ?_⟩
  obtain ⟨h0, h1⟩ := drawLine2D_mem canvas hwf.1 x0 y0 x1 y1 fuel ws h i hi
  refine ⟨h0, h1, ?_⟩
  rw [hwf.2]
  have : ((i.toNat : Nat) : Int) <
      ((canvas.dimensions.width * canvas.dimensions.height : Nat) : Int) := by
    rw [Int.toNat_of_nonneg h0]; push_cast; exact h1
  exact_mod_cast this

theorem blankGrid_wellFormed (width height : Nat) : (blankGrid width height).WellFormed :=
  ⟨rfl, by simp [blankGrid, updateDimensions]⟩

/-- C1, instance: the line from (0,0) to (9,5) on a 10x10 grid. -/
theorem drawLine2D_writes_in_bounds_witness :
    (blankGrid 10 10).WellFormed ∧
    ((∃ n ws, ∀ fuel, n ≤ fuel → drawLine2D fuel (blankGrid 10 10) 0 0 9 5 = some ws) ∧
    (∀ fuel ws, drawLine2D fuel (blankGrid 10 10) 0 0 9 5 = some ws →
      ∀ i ∈ ws, 0 ≤ i ∧
        i < ((blankGrid 10 10).dimensions.width : Int) * (blankGrid 10 10).dimensions.height ∧
        i.toNat < (blankGrid 10 10).pixels.length)) :=
  ⟨blankGrid_wellFormed 10 10,
   drawLine2D_writes_in_bounds (blankGrid 10 10) (blankGrid_wellFormed 10 10) 0 0 9 5⟩

theorem drawLine2D_eval {F : Type} (canvas : PixelGrid F) (x0 y0 x1 y1 : Int) (n : Nat)
    (ws : List Int) (h : drawLine2D n canvas x0 y0 x1 y1 = some ws) :
    ∀ fuel, n ≤ fuel → drawLine2D fuel canvas x0 y0 x1 y1 = some ws := by
  intro fuel hfuel
  unfold drawLine2D at h ⊢
  split
  · rename_i h0; rw [if_pos h0] at h; exact h
  · rename_i h0
    rw [if_neg h0] at h
    split
    · rename_i h1; rw [if_pos h1] at h; exact h
    · rename_i h1
      rw [if_neg h1] at h
      split
      · rename_i h2; rw [if_pos h2] at h; exact h
      · rename_i h2
        rw [if_neg h2] at h
        exact lineLoop_mono _ _ _ _ h fuel hfuel

/-- C2: the row/column test of the Bresenham loop looks at the point after the one whose
index it writes.  The line from (-1,1) to (3,3) on a 10x10 grid writes index 9 first, the
pixel (9,0), although no point of the line has column 9 or row 0: the write for the point
(-1,1) has wrapped to the end of the previous row. -/
theorem drawLine2D_wraparound_write :
    (∀ fuel, 6 ≤ fuel →
      drawLine2D fuel (blankGrid 10 10) (-1) 1 3 3 = some [9, 10, 21, 22, 33]) ∧
    ¬ ∃ col row : Int, (9 : Int) = col + row * 10 ∧ 0 ≤ col ∧ col < 10 ∧ 0 ≤ row ∧ row < 10 ∧
        min (-1) 3 ≤ col ∧ col ≤ max (-1) 3 ∧ min 1 3 ≤ row ∧ row ≤ max 1 3 := by
  refine ⟨drawLine2D_eval _ _ _ _ _ 6 _ (by decide), ?_⟩
  rintro ⟨col, row, h1, h2, h3, h4, h5, h6, h7, h8, h9⟩
  simp only [min_def, max_def] at h6 h7 h8 h9
  norm_num at h6 h7 h8 h9
  omega

/-- C3: the line from (-3,1) to (-1,2) lies entirely to the left of a 10x10 grid (both
endpoints have `x < 0`), and `drawLine2D` writes index 19, the pixel (9,1), so the store
changes. -/
theorem drawLine2D_outside_line_writes :
    (∀ fuel, 4 ≤ fuel → drawLine2D fuel (blankGrid 10 10) (-3) 1 (-1) 2 = some [19]) ∧
    (writePixels (blankGrid 10 10) ⟨255, 255, 255, 255⟩ [19]).pixels ≠
      (blankGrid 10 10).pixels := by
  refine ⟨drawLine2D_eval _ _ _ _ _ 4 _ (by decide), by decide⟩

/-- C4: the horizontal line from (0,0) to (4,0) on a 10x10 grid writes the four pixels
(0,0)...(3,0) and not (4,0); the vertical line from (3,0) to (3,4) writes rows 0..3 and not
row 4.  The last pixel is lost in `subRange`, which subtracts 1 from `last` also when `last`
is inside the range. -/
theorem drawLine2D_horizontal_misses_last :
    (∀ fuel, drawLine2D fuel (blankGrid 10 10) 0 0 4 0 = some [0, 1, 2, 3]) ∧
    (∀ fuel, drawLine2D fuel (blankGrid 10 10) 4 0 0 0 = some [0, 1, 2, 3]) ∧
    (∀ fuel, drawLine2D fuel (blankGrid 10 10) 3 0 3 4 = some [3, 13, 23, 33]) ∧
    subRange 0 4 10 0 = (0, 3) := by
  refine ⟨fun fuel => drawLine2D_eval _ _ _ _ _ 0 _ (by decide) fuel (Nat.zero_le _),
    fun fuel => drawLine2D_eval _ _ _ _ _ 0 _ (by decide) fuel (Nat.zero_le _),
    fun fuel => drawLine2D_eval _ _ _ _ _ 0 _ (by decide) fuel (Nat.zero_le _), by decide⟩

/-- C5: both (0,0) and (9,5) lie inside a 10x10 grid, and `drawLine2D` writes 9 pixels
between them instead of 10: the endpoint drawn last is missing, (9,5) (index 59) in one
direction and (0,0) (index 0) in the other.  The diagonal from (0,0) to (4,4) is drawn in
full. -/
theorem drawLine2D_misses_endpoint :
    (∀ fuel, 11 ≤ fuel → drawLine2D fuel (blankGrid 10 10) 0 0 9 5 =
      some [0, 11, 12, 23, 24, 35, 36, 47, 48]) ∧
    (∀ fuel, 11 ≤ fuel → drawLine2D fuel (blankGrid 10 10) 9 5 0 0 =
      some [59, 48, 47, 36, 35, 24, 23, 12, 11]) ∧
    (∀ fuel, 6 ≤ fuel → drawLine2D fuel (blankGrid 10 10) 0 0 4 4 =
      some [0, 11, 22, 33, 44]) := by
  refine ⟨drawLine2D_eval _ _ _ _ _ 11 _ (by decide), drawLine2D_eval _ _ _ _ _ 11 _ (by decide),
    drawLine2D_eval _ _ _ _ _ 6 _ (by decide)⟩

/-! ## Circles -/

theorem circleAdvance_rows (width r2 : Int) (s : CircleState) (h : CircleRows width s) :
    CircleRows width (circleAdvance width r2 s) := by
  obtain ⟨⟨a, ha⟩, ⟨b, hb⟩, ⟨c, hc⟩, ⟨d, hd⟩⟩ := h
  unfold circleAdvance
  by_cases hx : s.x2 + s.y2 > r2
  · simp only [hx, if_true]
    exact ⟨⟨a - 1, by rw [ha]; ring⟩, ⟨b + 1, by rw [hb]; ring⟩,
      ⟨c + 1, by rw [hc]; ring⟩, ⟨d - 1, by rw [hd]; ring⟩⟩
  · simp only [hx, if_false]
    exact ⟨⟨a - 1, by rw [ha]; ring⟩, ⟨b + 1, by rw [hb]; ring⟩, ⟨c, hc⟩, ⟨d, hd⟩⟩

theorem circleAdvance_measure (width r2 : Int) (s : CircleState) :
    (circleAdvance width r2 s).x + 1 - (circleAdvance width r2 s).y ≤ s.x - s.y := by
  unfold circleAdvance
  by_cases hx : s.x2 + s.y2 > r2
  · simp only [hx, if_true]; omega
  · simp only [hx, if_false]; omega

theorem circleInit_rows (width center_x center_y radius : Int) :
    CircleRows width (circleInit width center_x center_y radius) :=
  ⟨⟨center_y, rfl⟩, ⟨center_y, rfl⟩, ⟨center_y - radius, rfl⟩, ⟨center_y + radius, rfl⟩⟩

theorem inGrid_of_row_col (width height : Nat) (a col : Int)
    (h0 : 0 ≤ a * (width : Int)) (h1 : a * (width : Int) < (width : Int) * height)
    (hc0 : 0 ≤ col) (hc1 : col < width) : InGrid width height (a * width + col) := by
  have hw : (0 : Int) < width := by omega
  refine ⟨col, a, rfl, hc0, hc1, ?_, ?_⟩
  · by_contra hneg
    have : a * (width : Int) ≤ (-1) * width :=
      Int.mul_le_mul_of_nonneg_right (by omega) hw.le
    omega
  · by_contra hneg
    have : (height : Int) * width ≤ a * width :=
      Int.mul_le_mul_of_nonneg_right (by omega) hw.le
    have h2 : (width : Int) * height = height * width := Int.mul_comm _ _
    omega

theorem circleRowPoints_mem (width height : Nat) (Sy Sx Ex i : Int) (hSy : ∃ a, Sy = a * width)
    (h : i ∈ circleRowPoints width ((width * height : Nat) : Int) Sy Sx Ex) :
    InGrid width height i := by
  obtain ⟨a, rfl⟩ := hSy
  unfold circleRowPoints at h
  split at h
  · rename_i hg
    push_cast at hg
    rw [List.mem_append] at h
    rcases h with h | h
    · split at h
      · rename_i hc
        simp only [List.mem_singleton] at h
        subst h
        exact inGrid_of_row_col width height a Sx hg.1 hg.2 hc.1 hc.2
      · simp at h
    · split at h
      · rename_i hc
        simp only [List.mem_singleton] at h
        subst h
        exact inGrid_of_row_col width height a Ex hg.1 hg.2 hc.1 hc.2
      · simp at h
  · simp at h

theorem circleRowSpan_mem (width height : Nat) (Sy start end_ i : Int)
    (hSy : ∃ a, Sy = a * width) (hstart : 0 ≤ start) (hend : end_ ≤ (width : Int) - 1)
    (h : i ∈ circleRowSpan ((width * height : Nat) : Int) Sy start end_) :
    InGrid width height i := by
  obtain ⟨a, rfl⟩ := hSy
  unfold circleRowSpan at h
  split at h
  · rename_i hg
    push_cast at hg
    rw [List.mem_map] at h
    obtain ⟨j, hj, rfl⟩ := h
    obtain ⟨k, hk, hle⟩ := mem_forRange (by norm_num) hj
    exact inGrid_of_row_col width height a j hg.1 hg.2 (by omega) (by omega)
  · simp at h

theorem drawCircleBody_mem (width height : Nat) (s : CircleState) (hs : CircleRows width s)
    (i : Int) (h : i ∈ drawCircleBody width ((width * height : Nat) : Int) s) :
    InGrid width height i := by
  unfold drawCircleBody at h
  simp only [List.mem_append] at h
  rcases h with ((h | h) | h) | h
  · exact circleRowPoints_mem width height _ _ _ i hs.1 h
  · exact circleRowPoints_mem width height _ _ _ i hs.2.1 h
  · exact circleRowPoints_mem width height _ _ _ i hs.2.2.1 h
  · exact circleRowPoints_mem width height _ _ _ i hs.2.2.2 h

theorem fillCircleBody_mem (width height : Nat) (s : CircleState) (hs : CircleRows width s)
    (i : Int) (h : i ∈ fillCircleBody width ((width * height : Nat) : Int) s) :
    InGrid width height i := by
  unfold fillCircleBody at h
  simp only [List.mem_append] at h
  have h1 : (0 : Int) ≤ if s.Sx1 > 0 then s.Sx1 else 0 := by split <;> omega
  have h2 : (if s.Ex1 < (width : Int) - 1 then s.Ex1 else (width : Int) - 1) ≤
      (width : Int) - 1 := by split <;> omega
  have h3 : (0 : Int) ≤ if s.Sx2 > 0 then s.Sx2 else 0 := by split <;> omega
  have h4 : (if s.Ex2 < (width : Int) - 1 then s.Ex2 else (width : Int) - 1) ≤
      (width : Int) - 1 := by split <;> omega
  rcases h with ((h | h) | h) | h
  · exact circleRowSpan_mem width height _ _ _ i hs.1 h1 h2 h
  · exact circleRowSpan_mem width height _ _ _ i hs.2.1 h1 h2 h
  · exact circleRowSpan_mem width height _ _ _ i hs.2.2.1 h3 h4 h
  · exact circleRowSpan_mem width height _ _ _ i hs.2.2.2 h3 h4 h

theorem circleLoop_mem (body : CircleState → List Int) (width r2 : Int) (P : Int → Prop)
    (hbody : ∀ s, CircleRows width s → ∀ i ∈ body s, P i) :
    ∀ (fuel : Nat) (s : CircleState) (ws : List Int), CircleRows width s →
      circleLoop body width r2 fuel s = some ws → ∀ i ∈ ws, P i := by
  intro fuel
  induction fuel with
  | zero => intro s ws _ h; simp [circleLoop] at h
  | succ n ih =>
    intro s ws hs h i hi
    rw [circleLoop] at h
    split at h
    · rw [Option.map_eq_some'] at h
      obtain ⟨ws', hws', rfl⟩ := h
      rw [List.mem_append] at hi
      rcases hi with hi | hi
      · exact hbody s hs i hi
      · exact ih _ _ (circleAdvance_rows width r2 s hs) hws' i hi
    · cases h; simp at hi

theorem circleLoop_mono (body : CircleState → List Int) (width r2 : Int) :
    ∀ (n : Nat) (s : CircleState) (ws : List Int), circleLoop body width r2 n s = some ws →
      ∀ m, n ≤ m → circleLoop body width r2 m s = some ws := by
  intro n
  induction n with
  | zero => intro s ws h; simp [circleLoop] at h
  | succ n ih =>
    intro s ws h m hm
    obtain ⟨m, rfl⟩ : ∃ m', m = m' + 1 := ⟨m - 1, by omega⟩
    rw [circleLoop] at h ⊢
    split
    · rename_i hle
      rw [if_pos hle, Option.map_eq_some'] at h
      obtain ⟨ws', hws', rfl⟩ := h
      rw [ih _ _ hws' m (by omega)]
      rfl
    · rename_i hle
      rw [if_neg hle] at h
      exact h

theorem circleLoop_terminates (body : CircleState → List Int) (width r2 : Int) :
    ∀ (k : Nat) (s : CircleState), s.x + 1 - s.y ≤ k →
      ∃ ws, circleLoop body width r2 (k + 1) s = some ws := by
  intro k
  induction k with
  | zero =>
    intro s h
    refine ⟨[], ?_⟩
    rw [circleLoop, if_neg]
    simp only [Nat.cast_zero] at h
    omega
  | succ k ih =>
    intro s h
    by_cases hle : s.y ≤ s.x
    · obtain ⟨ws, hws⟩ := ih (circleAdvance width r2 s) (by
        have := circleAdvance_measure width r2 s
        push_cast at h
        omega)
      refine ⟨body s ++ ws, ?_⟩
      rw [circleLoop, if_pos hle, hws]
      rfl
    · exact ⟨[], by rw [circleLoop, if_neg hle]⟩

theorem circleLoop_returns (body : CircleState → List Int) (width r2 : Int) (s : CircleState) :
    ∃ n ws, ∀ fuel, n ≤ fuel → circleLoop body width r2 fuel s = some ws := by
  obtain ⟨ws, hws⟩ := circleLoop_terminates body width r2 (s.x + 1 - s.y).toNat s
    (Int.self_le_toNat _)
  exact ⟨_, ws, fun fuel hfuel => circleLoop_mono body width r2 _ s ws hws fuel hfuel⟩

/-- C7: on a grid whose store holds `width * height` pixels, for every centre and every
radius of at least 2, `drawCircle` and `fillCircle` return, and every index they write is
`row * width + col` for a column `0 ≤ col < width` and a row `0 ≤ row < height`: nothing is
written for the points of the circle that fall outside the grid. -/
theorem circle_writes_in_grid {F : Type} (canvas : PixelGrid F) (hwf : canvas.WellFormed)
    (center_x center_y radius : Int) (hr : 2 ≤ radius) :
    ((∃ n ws, ∀ fuel, n ≤ fuel → drawCircle fuel canvas center_x center_y radius = some ws) ∧
     (∀ fuel ws, drawCircle fuel canvas center_x center_y radius = some ws →
        ∀ i ∈ ws, InGrid canvas.dimensions.width canvas.dimensions.height i)) ∧
    ((∃ n ws, ∀ fuel, n ≤ fuel → fillCircle fuel canvas center_x center_y radius = some ws) ∧
     (∀ fuel ws, fillCircle fuel canvas center_x center_y radius = some ws →
        ∀ i ∈ ws, InGrid canvas.dimensions.width canvas.dimensions.height i)) := by
  have hr' : ¬ radius ≤ 1 := by omega
  unfold drawCircle fillCircle
  simp only [if_neg hr', hwf.1]
  refine ⟨⟨circleLoop_returns _ _ _ _, fun fuel ws h => ?_⟩,
    ⟨circleLoop_returns _ _ _ _, fun fuel ws h => ?_⟩⟩
  · exact circleLoop_mem _ _ _ _
      (fun s hs i hi => drawCircleBody_mem _ _ s hs i hi) fuel _ ws (circleInit_rows _ _ _ _) h
  · exact circleLoop_mem _ _ _ _
      (fun s hs i hi => fillCircleBody_mem _ _ s hs i hi) fuel _ ws (circleInit_rows _ _ _ _) h

/-- C7, instance: the circle of radius 3 around the corner (0,0) of a 10x10 grid. -/
theorem circle_writes_in_grid_witness :
    (blankGrid 10 10).WellFormed ∧ (2 : Int) ≤ 3 ∧
    ((∃ n ws, ∀ fuel, n ≤ fuel → drawCircle fuel (blankGrid 10 10) 0 0 3 = some ws) ∧
     (∀ fuel ws, drawCircle fuel (blankGrid 10 10) 0 0 3 = some ws →
        ∀ i ∈ ws, InGrid (blankGrid 10 10).dimensions.width
          (blankGrid 10 10).dimensions.height i)) ∧
    ((∃ n ws, ∀ fuel, n ≤ fuel → fillCircle fuel (blankGrid 10 10) 0 0 3 = some ws) ∧
     (∀ fuel ws, fillCircle fuel (blankGrid 10 10) 0 0 3 = some ws →
        ∀ i ∈ ws, InGrid (blankGrid 10 10).dimensions.width
          (blankGrid 10 10).dimensions.height i)) :=
  ⟨blankGrid_wellFormed 10 10, by decide,
   circle_writes_in_grid (blankGrid 10 10) (blankGrid_wellFormed 10 10) 0 0 3 (by decide)⟩

theorem drawCircle_small {F : Type} (fuel : Nat) (canvas : PixelGrid F)
    (center_x center_y radius : Int) (h : radius ≤ 1) :
    drawCircle fuel canvas center_x center_y radius =
      some (circleCentre canvas center_x center_y) := by
  simp only [drawCircle, if_pos h]

theorem fillCircle_small {F : Type} (fuel : Nat) (canvas : PixelGrid F)
    (center_x center_y radius : Int) (h : radius ≤ 1) :
    fillCircle fuel canvas center_x center_y radius =
      some (circleCentre canvas center_x center_y) := by
  simp only [fillCircle, if_pos h]

/-- C6: with radius 0 or 1 and the centre (5,5) inside a 10x10 grid, `drawCircle` and
`fillCircle` write nothing: the test `inRange(0, center_x, width - 1)` has its arguments in
the wrong order and asks for `width - 1 <= 0 < center_x`.  On a 1x1 grid the centre (1,1),
outside the grid, passes the test and index 2 is written, outside the store. -/
theorem circle_radius_one_writes_nothing :
    (∀ fuel, drawCircle fuel (blankGrid 10 10) 5 5 1 = some []) ∧
    (∀ fuel, drawCircle fuel (blankGrid 10 10) 5 5 0 = some []) ∧
    (∀ fuel, fillCircle fuel (blankGrid 10 10) 5 5 1 = some []) ∧
    (∀ fuel, fillCircle fuel (blankGrid 10 10) 5 5 0 = some []) ∧
    (∀ fuel, drawCircle fuel (blankGrid 1 1) 1 1 1 = some [2]) := by
  refine ⟨fun fuel => ?_, fun fuel => ?_, fun fuel => ?_, fun fuel => ?_, fun fuel => ?_⟩
  · rw [drawCircle_small fuel _ _ _ _ (by decide)]; decide
  · rw [drawCircle_small fuel _ _ _ _ (by decide)]; decide
  · rw [fillCircle_small fuel _ _ _ _ (by decide)]; decide
  · rw [fillCircle_small fuel _ _ _ _ (by decide)]; decide
  · rw [drawCircle_small fuel _ _ _ _ (by decide)]; decide

/-! ## Text -/

/-- C8: on a 16x16 grid, `drawText` of a newline followed by `A` at (0,0) passes the row
test of the newline with the old row (0 + 8 <= 16), moves the cursor to row 12 and blits
the glyph over rows 12..19: index 256 and 29 further indices up to 294 are written, all
outside the store of 256 pixels.  A tab followed by `A` at (8,0) on a 16x8 grid moves the
cursor to column 32 without any test and writes up to index 134, outside the 128 pixels. -/
theorem drawText_writes_outside_store :
    (256 : Int) ∈ drawText (blankGrid 16 16) [10, 65] 0 0 ∧
    (blankGrid 16 16).pixels.length = 256 ∧
    (134 : Int) ∈ drawText (blankGrid 16 8) [9, 65] 8 0 ∧
    (blankGrid 16 8).pixels.length = 128 := by
  set_option maxRecDepth 100000 in
  refine ⟨by decide, by decide, by decide, by decide⟩

/-! ## Edge projection -/

section EdgeProjectorClaims

variable {F : Type} [LinearOrderedField F]

theorem clip_ratio_bounds (kept behind near : F) (hb : behind < near) (hk : near ≤ kept) :
    0 ≤ (kept - near) / (kept - behind) ∧ (kept - near) / (kept - behind) < 1 := by
  have hpos : 0 < kept - behind := by linarith
  constructor
  · exact div_nonneg (by linarith) hpos.le
  · rw [div_lt_one hpos]; linarith

theorem clip_depth (kept behind near : F) (hb : behind < near) (hk : near ≤ kept) :
    kept + (behind - kept) * ((kept - near) / (kept - behind)) = near := by
  have hne : kept - behind ≠ 0 := by
    have : 0 < kept - behind := by linarith
    exact this.ne'
  field_simp
  ring

theorem projectEdge_not_culled (edge : Edge F) (dimensions : Dimensions F)
    (focal_length near : F) (h : ¬ (edge.from_.z < near ∧ edge.to_.z < near)) :
    projectEdge edge dimensions focal_length near =
      projectToScreen (clipEdge edge near) dimensions focal_length := by
  simp only [projectEdge, if_neg h]

/-- C9: when exactly one endpoint of an edge is behind the near plane
(`behind.z < near ≤ kept.z`), `projectEdge` projects the clipped edge, in which the behind
endpoint has been replaced by `kept + (behind - kept) * t` with
`t = (kept.z - near) / (kept.z - behind.z)` and `0 ≤ t < 1`; the new endpoint has depth
exactly `near`, and the kept endpoint is the one of the original edge.  Both cases, `from`
behind and `to` behind, are stated. -/
theorem projectEdge_clip_to_near (edge : Edge F) (dimensions : Dimensions F)
    (focal_length near : F) :
    (edge.from_.z < near → near ≤ edge.to_.z →
      0 ≤ (edge.to_.z - near) / (edge.to_.z - edge.from_.z) ∧
      (edge.to_.z - near) / (edge.to_.z - edge.from_.z) < 1 ∧
      (clipEdge edge near).from_.x = edge.to_.x +
        (edge.from_.x - edge.to_.x) * ((edge.to_.z - near) / (edge.to_.z - edge.from_.z)) ∧
      (clipEdge edge near).from_.y = edge.to_.y +
        (edge.from_.y - edge.to_.y) * ((edge.to_.z - near) / (edge.to_.z - edge.from_.z)) ∧
      (clipEdge edge near).from_.z = edge.to_.z +
        (edge.from_.z - edge.to_.z) * ((edge.to_.z - near) / (edge.to_.z - edge.from_.z)) ∧
      (clipEdge edge near).from_.z = near ∧
      (clipEdge edge near).to_ = edge.to_ ∧
      projectEdge edge dimensions focal_length near =
        projectToScreen (clipEdge edge near) dimensions focal_length) ∧
    (edge.to_.z < near → near ≤ edge.from_.z →
      0 ≤ (edge.from_.z - near) / (edge.from_.z - edge.to_.z) ∧
      (edge.from_.z - near) / (edge.from_.z - edge.to_.z) < 1 ∧
      (clipEdge edge near).to_.x = edge.from_.x +
        (edge.to_.x - edge.from_.x) * ((edge.from_.z - near) / (edge.from_.z - edge.to_.z)) ∧
      (clipEdge edge near).to_.y = edge.from_.y +
        (edge.to_.y - edge.from_.y) * ((edge.from_.z - near) / (edge.from_.z - edge.to_.z)) ∧
      (clipEdge edge near).to_.z = edge.from_.z +
        (edge.to_.z - edge.from_.z) * ((edge.from_.z - near) / (edge.from_.z - edge.to_.z)) ∧
      (clipEdge edge near).to_.z = near ∧
      (clipEdge edge near).from_ = edge.from_ ∧
      projectEdge edge dimensions focal_length near =
        projectToScreen (clipEdge edge near) dimensions focal_length) := by
  constructor
  · intro hb hk
    have hclip : clipEdge edge near =
        { edge with from_ := addVec3 edge.to_ (scaleVec3 (subVec3 edge.from_ edge.to_)
            ((edge.to_.z - near) / (edge.to_.z - edge.from_.z))) } := by
      simp only [clipEdge, hb, true_or, if_true]
    have ht := clip_ratio_bounds edge.to_.z edge.from_.z near hb hk
    refine ⟨ht.1, ht.2, ?_, ?_, ?_, ?_, ?_, ?_⟩
    · rw [hclip]; rfl
    · rw [hclip]; rfl
    · rw [hclip]; rfl
    · rw [hclip]; exact clip_depth edge.to_.z edge.from_.z near hb hk
    · rw [hclip]
    · exact projectEdge_not_culled edge dimensions focal_length near
        (fun h => absurd h.2 (not_lt.mpr hk))
  · intro hb hk
    have hk' : ¬ edge.from_.z < near := not_lt.mpr hk
    have hclip : clipEdge edge near =
        { edge with to_ := addVec3 edge.from_ (scaleVec3 (subVec3 edge.to_ edge.from_)
            ((edge.from_.z - near) / (edge.from_.z - edge.to_.z))) } := by
      simp only [clipEdge, hb, hk', or_true, if_true, if_false]
    have ht := clip_ratio_bounds edge.from_.z edge.to_.z near hb hk
    refine ⟨ht.1, ht.2, ?_, ?_, ?_, ?_, ?_, ?_⟩
    · rw [hclip]; rfl
    · rw [hclip]; rfl
    · rw [hclip]; rfl
    · rw [hclip]; exact clip_depth edge.from_.z edge.to_.z near hb hk
    · rw [hclip]
    · exact projectEdge_not_culled edge dimensions focal_length near
        (fun h => absurd h.1 hk')

/-- C10: for an edge whose endpoints both have `z ≥ near` (and nonzero `z`) and dimensions
set by `updateDimensions w h` with `h > 0`, the clip leaves the edge as it is, `projectEdge`
is the projection to the screen alone, and each endpoint `(x, y, z)` is mapped to
`((x * focal_length / z + 1) * w / 2, h - (y * (focal_length / z) * (w / h) + 1) * h / 2, z)`;
the second coordinate is also `h / 2 - y * focal_length * w / (2 * z)`. -/
theorem projectEdge_visible (edge : Edge F) (w h : Nat) (focal_length near : F)
    (hh : 0 < h) (hfrom : near ≤ edge.from_.z) (hto : near ≤ edge.to_.z)
    (hz1 : edge.from_.z ≠ 0) (hz2 : edge.to_.z ≠ 0) :
    clipEdge edge near = edge ∧
    projectEdge edge (updateDimensions w h) focal_length near =
      projectToScreen edge (updateDimensions w h) focal_length ∧
    (projectEdge edge (updateDimensions w h) focal_length near).from_.x =
      (edge.from_.x * focal_length / edge.from_.z + 1) * w / 2 ∧
    (projectEdge edge (updateDimensions w h) focal_length near).from_.y =
      h - (edge.from_.y * (focal_length / edge.from_.z) * (w / h) + 1) * h / 2 ∧
    (projectEdge edge (updateDimensions w h) focal_length near).from_.z = edge.from_.z ∧
    (projectEdge edge (updateDimensions w h) focal_length near).to_.x =
      (edge.to_.x * focal_length / edge.to_.z + 1) * w / 2 ∧
    (projectEdge edge (updateDimensions w h) focal_length near).to_.y =
      h - (edge.to_.y * (focal_length / edge.to_.z) * (w / h) + 1) * h / 2 ∧
    (projectEdge edge (updateDimensions w h) focal_length near).to_.z = edge.to_.z ∧
    (projectEdge edge (updateDimensions w h) focal_length near).from_.y =
      h / 2 - edge.from_.y * focal_length * w / (2 * edge.from_.z) ∧
    (projectEdge edge (updateDimensions w h) focal_length near).to_.y =
      h / 2 - edge.to_.y * focal_length * w / (2 * edge.to_.z) := by
  have hh' : (h : F) ≠ 0 := by exact_mod_cast hh.ne'
  have h1 : ¬ edge.from_.z < near := not_lt.mpr hfrom
  have h2 : ¬ edge.to_.z < near := not_lt.mpr hto
  have hclip : clipEdge edge near = edge := by
    simp only [clipEdge, h1, h2, or_self, if_false]
  have hproj : projectEdge edge (updateDimensions w h) focal_length near =
      projectToScreen edge (updateDimensions w h) focal_length := by
    rw [projectEdge_not_culled edge _ focal_length near (fun h => h1 h.1), hclip]
  refine ⟨hclip, hproj, ?_, ?_, ?_, ?_, ?_, ?_, ?_, ?_⟩
  · rw [hproj]; simp only [projectToScreen, updateDimensions]; field_simp
  · rw [hproj]; simp only [projectToScreen, updateDimensions]; ring
  · rw [hproj]; rfl
  · rw [hproj]; simp only [projectToScreen, updateDimensions]; field_simp
  · rw [hproj]; simp only [projectToScreen, updateDimensions]; ring
  · rw [hproj]; rfl
  · rw [hproj]; simp only [projectToScreen, updateDimensions]; field_simp; ring
  · rw [hproj]; simp only [projectToScreen, updateDimensions]; field_simp; ring

end EdgeProjectorClaims

/-- C9, instance: the edge from (0,0,-1) to (6,3,5) with the near plane at 2 is clipped at its
`from` end to depth 2, and the reversed edge at its `to` end. -/
theorem projectEdge_clip_to_near_witness :
    ((-1 : ℚ) < 2 ∧ (2 : ℚ) ≤ 5) ∧
    (clipEdge (⟨⟨0, 0, -1⟩, ⟨6, 3, 5⟩⟩ : Edge ℚ) 2).from_.z = 2 ∧
    (clipEdge (⟨⟨6, 3, 5⟩, ⟨0, 0, -1⟩⟩ : Edge ℚ) 2).to_.z = 2 :=
  ⟨⟨by norm_num, by norm_num⟩,
   ((projectEdge_clip_to_near (⟨⟨0, 0, -1⟩, ⟨6, 3, 5⟩⟩ : Edge ℚ) (updateDimensions 10 10) 1 2).1
      (by norm_num) (by norm_num)).2.2.2.2.2.1,
   ((projectEdge_clip_to_near (⟨⟨6, 3, 5⟩, ⟨0, 0, -1⟩⟩ : Edge ℚ) (updateDimensions 10 10) 1 2).2
      (by norm_num) (by norm_num)).2.2.2.2.2.1⟩

/-- C10, instance: the edge from (1,2,4) to (3,1,5) with the near plane at 2, focal length 2,
on a 20x10 frame. -/
theorem projectEdge_visible_witness :
    (0 < 10 ∧ (2 : ℚ) ≤ 4 ∧ (2 : ℚ) ≤ 5 ∧ (4 : ℚ) ≠ 0 ∧ (5 : ℚ) ≠ 0) ∧
    (projectEdge (⟨⟨1, 2, 4⟩, ⟨3, 1, 5⟩⟩ : Edge ℚ) (updateDimensions 20 10) 2 2).from_.x =
      (1 * 2 / 4 + 1) * (20 : ℕ) / 2 :=
  ⟨⟨by norm_num, by norm_num, by norm_num, by norm_num, by norm_num⟩,
   (projectEdge_visible (⟨⟨1, 2, 4⟩, ⟨3, 1, 5⟩⟩ : Edge ℚ) 20 10 2 2 (by norm_num)
      (by norm_num) (by norm_num) (by norm_num) (by norm_num)).2.2.1⟩

/-! ## Matrix inverses -/

section MatrixInverse

variable {F : Type} [LinearOrderedField F]

theorem det_fin_three_rows (a b c d e f g h i : F) :
    Matrix.det !![a, b, c; d, e, f; g, h, i] =
      a * (e * i - h * f) - d * (b * i - h * c) + g * (b * f - e * c) := by
  simp [Matrix.det_fin_three]
  ring

theorem det_fin_four_rows
    (a11 a12 a13 a14 a21 a22 a23 a24 a31 a32 a33 a34 a41 a42 a43 a44 : F) :
    Matrix.det !![a11, a12, a13, a14; a21, a22, a23, a24;
                  a31, a32, a33, a34; a41, a42, a43, a44] =
      a11 * (a22 * (a33 * a44 - a34 * a43) - a23 * (a32 * a44 - a34 * a42)
        + a24 * (a32 * a43 - a33 * a42))
      - a12 * (a21 * (a33 * a44 - a34 * a43) - a23 * (a31 * a44 - a34 * a41)
        + a24 * (a31 * a43 - a33 * a41))
      + a13 * (a21 * (a32 * a44 - a34 * a42) - a22 * (a31 * a44 - a34 * a41)
        + a24 * (a31 * a42 - a32 * a41))
      - a14 * (a21 * (a32 * a43 - a33 * a42) - a22 * (a31 * a43 - a33 * a41)
        + a23 * (a31 * a42 - a32 * a41)) := by
  have h1 : (Fin.succ (2 : Fin 3)) = (3 : Fin 4) := rfl
  have h2 : Fin.castSucc (2 : Fin 3) = (2 : Fin 4) := rfl
  rw [Matrix.det_succ_row_zero]
  simp [Fin.sum_univ_succ, Matrix.det_fin_three, Matrix.submatrix, Fin.succAbove, h1, h2]
  ring

theorem invMat3Divisor_eq_det (m : mat3 F) : invMat3Divisor m = m.toMatrix.det := by
  rw [mat3.toMatrix, det_fin_three_rows]
  rfl

theorem invMat4Det_eq_det (m : mat4 F) : invMat4Det m = m.toMatrix.det := by
  rw [mat4.toMatrix, det_fin_four_rows]
  simp only [invMat4Det, invMat4Cofactors]
  ring

theorem mulMat3_invMat3 (m : mat3 F) (h : invMat3Divisor m ≠ 0) :
    mulMat3 m (invMat3 m) = getMat3Identity ∧ mulMat3 (invMat3 m) m = getMat3Identity := by
  have hde : invMat3Divisor m * (1 / invMat3Divisor m) = 1 := mul_one_div_cancel h
  constructor
  · simp only [mulMat3, invMat3, getMat3Identity, mat3.mk.injEq, vec3.mk.injEq]
    generalize 1 / invMat3Divisor m = e at hde ⊢
    simp only [invMat3Divisor] at hde
    refine ⟨⟨?_, ?_, ?_⟩, ⟨?_, ?_, ?_⟩, ⟨?_, ?_, ?_⟩⟩ <;>
      first | ring1 | linear_combination hde
  · simp only [mulMat3, invMat3, getMat3Identity, mat3.mk.injEq, vec3.mk.injEq]
    generalize 1 / invMat3Divisor m = e at hde ⊢
    simp only [invMat3Divisor] at hde
    refine ⟨⟨?_, ?_, ?_⟩, ⟨?_, ?_, ?_⟩, ⟨?_, ?_, ?_⟩⟩ <;>
      first | ring1 | linear_combination hde

theorem mulMat4_invMat4_right (m : mat4 F) (h : invMat4Det m ≠ 0) :
    mulMat4 m (invMat4 m) = getMat4Identity := by
  have hde : invMat4Det m * (1 / invMat4Det m) = 1 := mul_one_div_cancel h
  simp only [invMat4, if_neg h, mulMat4, scaleMat4, scaleVec4, getMat4Identity, mat4.mk.injEq,
    vec4.mk.injEq]
  generalize 1 / invMat4Det m = e at hde ⊢
  simp only [invMat4Det, invMat4Cofactors] at hde ⊢
  refine ⟨⟨?_, ?_, ?_, ?_⟩, ⟨?_, ?_, ?_, ?_⟩, ⟨?_, ?_, ?_, ?_⟩, ⟨?_, ?_, ?_, ?_⟩⟩ <;>
    first | ring1 | linear_combination hde

theorem mulMat4_invMat4_left (m : mat4 F) (h : invMat4Det m ≠ 0) :
    mulMat4 (invMat4 m) m = getMat4Identity := by
  have hde : invMat4Det m * (1 / invMat4Det m) = 1 := mul_one_div_cancel h
  simp only [invMat4, if_neg h, mulMat4, scaleMat4, scaleVec4, getMat4Identity, mat4.mk.injEq,
    vec4.mk.injEq]
  generalize 1 / invMat4Det m = e at hde ⊢
  simp only [invMat4Det, invMat4Cofactors] at hde ⊢
  refine ⟨⟨?_, ?_, ?_, ?_⟩, ⟨?_, ?_, ?_, ?_⟩, ⟨?_, ?_, ?_, ?_⟩, ⟨?_, ?_, ?_, ?_⟩⟩ <;>
    first | ring1 | linear_combination hde

/-- C14: for every 4x4 matrix `m`, the value `det` computed by `invMat4` is the determinant
of `m`; when it is nonzero `invMat4 m` is the inverse of `m` on both sides, and when it is
zero `invMat4 m` is `m` itself. -/
theorem invMat4_inverse (m : mat4 F) :
    invMat4Det m = m.toMatrix.det ∧
    (invMat4Det m ≠ 0 →
      mulMat4 m (invMat4 m) = getMat4Identity ∧ mulMat4 (invMat4 m) m = getMat4Identity) ∧
    (invMat4Det m = 0 → invMat4 m = m) := by
  refine ⟨invMat4Det_eq_det m, fun h => ⟨mulMat4_invMat4_right m h, mulMat4_invMat4_left m h⟩,
    fun h => ?_⟩
  simp only [invMat4, if_pos h]

/-- C17: for every 3x3 matrix `m` with nonzero determinant, the divisor computed by `invMat3`
is the determinant of `m` and `invMat3 m` is the inverse of `m` on both sides. -/
theorem invMat3_inverse (m : mat3 F) (hdet : m.toMatrix.det ≠ 0) :
    invMat3Divisor m = m.toMatrix.det ∧
    mulMat3 m (invMat3 m) = getMat3Identity ∧ mulMat3 (invMat3 m) m = getMat3Identity := by
  have h : invMat3Divisor m ≠ 0 := by rw [invMat3Divisor_eq_det]; exact hdet
  exact ⟨invMat3Divisor_eq_det m, mulMat3_invMat3 m h⟩

end MatrixInverse

/-- C14, instance: a matrix with `det = 2` and the zero matrix, with `det = 0`. -/
theorem invMat4_inverse_witness :
    (invMat4Det (⟨⟨2, 0, 0, 0⟩, ⟨0, 1, 0, 0⟩, ⟨0, 0, 1, 0⟩, ⟨1, 0, 0, 1⟩⟩ : mat4 ℚ) ≠ 0 ∧
      mulMat4 (⟨⟨2, 0, 0, 0⟩, ⟨0, 1, 0, 0⟩, ⟨0, 0, 1, 0⟩, ⟨1, 0, 0, 1⟩⟩ : mat4 ℚ)
        (invMat4 ⟨⟨2, 0, 0, 0⟩, ⟨0, 1, 0, 0⟩, ⟨0, 0, 1, 0⟩, ⟨1, 0, 0, 1⟩⟩) = getMat4Identity) ∧
    (invMat4Det (⟨⟨0, 0, 0, 0⟩, ⟨0, 0, 0, 0⟩, ⟨0, 0, 0, 0⟩, ⟨0, 0, 0, 0⟩⟩ : mat4 ℚ) = 0 ∧
      invMat4 (⟨⟨0, 0, 0, 0⟩, ⟨0, 0, 0, 0⟩, ⟨0, 0, 0, 0⟩, ⟨0, 0, 0, 0⟩⟩ : mat4 ℚ) =
        ⟨⟨0, 0, 0, 0⟩, ⟨0, 0, 0, 0⟩, ⟨0, 0, 0, 0⟩, ⟨0, 0, 0, 0⟩⟩) :=
  have h1 : invMat4Det
      (⟨⟨2, 0, 0, 0⟩, ⟨0, 1, 0, 0⟩, ⟨0, 0, 1, 0⟩, ⟨1, 0, 0, 1⟩⟩ : mat4 ℚ) ≠ 0 := by
    norm_num [invMat4Det, invMat4Cofactors]
  have h2 : invMat4Det
      (⟨⟨0, 0, 0, 0⟩, ⟨0, 0, 0, 0⟩, ⟨0, 0, 0, 0⟩, ⟨0, 0, 0, 0⟩⟩ : mat4 ℚ) = 0 := by
    norm_num [invMat4Det, invMat4Cofactors]
  ⟨⟨h1, ((invMat4_inverse _).2.1 h1).1⟩, ⟨h2, (invMat4_inverse _).2.2 h2⟩⟩

/-- C17, instance: the matrix with rows (2,0,0), (0,1,0), (1,0,1). -/
theorem invMat3_inverse_witness :
    (⟨⟨2, 0, 0⟩, ⟨0, 1, 0⟩, ⟨1, 0, 1⟩⟩ : mat3 ℚ).toMatrix.det ≠ 0 ∧
    mulMat3 (⟨⟨2, 0, 0⟩, ⟨0, 1, 0⟩, ⟨1, 0, 1⟩⟩ : mat3 ℚ)
      (invMat3 ⟨⟨2, 0, 0⟩, ⟨0, 1, 0⟩, ⟨1, 0, 1⟩⟩) = getMat3Identity :=
  have h : (⟨⟨2, 0, 0⟩, ⟨0, 1, 0⟩, ⟨1, 0, 1⟩⟩ : mat3 ℚ).toMatrix.det ≠ 0 := by
    rw [← invMat3Divisor_eq_det]; norm_num [invMat3Divisor]
  ⟨h, (invMat3_inverse _ h).2.1⟩

/-- C15: the value that `safeInvertMat3` tests is the sum of the nine cofactors, not the
determinant.  The matrix with rows (1,0,0), (0,1,0), (0,0,0) has determinant 0 and
`safeInvertMat3` returns true on it (and overwrites it); the matrix with rows (1,0,0),
(0,1,0), (0,0,-1/2) has determinant -1/2 and `safeInvertMat3` returns false on it. -/
theorem safeInvertMat3_flag_is_not_determinant :
    ((⟨⟨1, 0, 0⟩, ⟨0, 1, 0⟩, ⟨0, 0, 0⟩⟩ : mat3 ℚ).toMatrix.det = 0 ∧
      safeInvertMat3 (⟨⟨1, 0, 0⟩, ⟨0, 1, 0⟩, ⟨0, 0, 0⟩⟩ : mat3 ℚ) =
        (true, ⟨⟨0, 0, 0⟩, ⟨0, 0, 0⟩, ⟨0, 0, 1⟩⟩)) ∧
    ((⟨⟨1, 0, 0⟩, ⟨0, 1, 0⟩, ⟨0, 0, -1 / 2⟩⟩ : mat3 ℚ).toMatrix.det = -1 / 2 ∧
      safeInvertMat3 (⟨⟨1, 0, 0⟩, ⟨0, 1, 0⟩, ⟨0, 0, -1 / 2⟩⟩ : mat3 ℚ) =
        (false, ⟨⟨1, 0, 0⟩, ⟨0, 1, 0⟩, ⟨0, 0, -1 / 2⟩⟩)) := by
  refine ⟨⟨?_, ?_⟩, ⟨?_, ?_⟩⟩
  · rw [← invMat3Divisor_eq_det]; norm_num [invMat3Divisor]
  · norm_num [safeInvertMat3, safeInvertMat3Divisor]
  · rw [← invMat3Divisor_eq_det]; norm_num [invMat3Divisor]
  · norm_num [safeInvertMat3, safeInvertMat3Divisor]

/-- C16: `safeInvertMat3` returns true on the identity matrix and leaves one third of the
identity in place, because it divides by the sum of the nine cofactors, 3, instead of the
determinant, 1; the product of the original and the result is not the identity. -/
theorem safeInvertMat3_identity_scaled :
    safeInvertMat3 (getMat3Identity : mat3 ℚ) =
      (true, ⟨⟨1 / 3, 0, 0⟩, ⟨0, 1 / 3, 0⟩, ⟨0, 0, 1 / 3⟩⟩) ∧
    mulMat3 (getMat3Identity : mat3 ℚ) (safeInvertMat3 (getMat3Identity : mat3 ℚ)).2 ≠
      getMat3Identity := by
  have h : safeInvertMat3 (getMat3Identity : mat3 ℚ) =
      (true, ⟨⟨1 / 3, 0, 0⟩, ⟨0, 1 / 3, 0⟩, ⟨0, 0, 1 / 3⟩⟩) := by
    norm_num [safeInvertMat3, safeInvertMat3Divisor, getMat3Identity]
  refine ⟨h, ?_⟩
  rw [h]
  norm_num [mulMat3, getMat3Identity]

/-! ## Rotations -/

section Rotations

variable {F : Type} [LinearOrderedField F]

theorem getPointOnUnitCircle_sq (t : F) :
    (getPointOnUnitCircle t).x * (getPointOnUnitCircle t).x +
      (getPointOnUnitCircle t).y * (getPointOnUnitCircle t).y = 1 := by
  have h : (1 : F) + t * t ≠ 0 :=
    (add_pos_of_pos_of_nonneg one_pos (mul_self_nonneg t)).ne'
  simp only [getPointOnUnitCircle]
  field_simp
  ring

theorem mulMat3_assoc (a b c : mat3 F) : mulMat3 (mulMat3 a b) c = mulMat3 a (mulMat3 b c) := by
  simp only [mulMat3, mat3.mk.injEq, vec3.mk.injEq]
  refine ⟨⟨?_, ?_, ?_⟩, ⟨?_, ?_, ?_⟩, ⟨?_, ?_, ?_⟩⟩ <;> ring

theorem transposedMat3_mulMat3 (a b : mat3 F) :
    transposedMat3 (mulMat3 a b) = mulMat3 (transposedMat3 b) (transposedMat3 a) := by
  simp only [mulMat3, transposedMat3, mat3.mk.injEq, vec3.mk.injEq]
  refine ⟨⟨?_, ?_, ?_⟩, ⟨?_, ?_, ?_⟩, ⟨?_, ?_, ?_⟩⟩ <;> ring

theorem mulMat3_identity_left (a : mat3 F) : mulMat3 getMat3Identity a = a := by
  simp [mulMat3, getMat3Identity]

theorem mulMat3_identity_right (a : mat3 F) : mulMat3 a getMat3Identity = a := by
  simp [mulMat3, getMat3Identity]

theorem orthonormal_identity : Orthonormal (getMat3Identity : mat3 F) := by
  constructor <;> simp [mulMat3, transposedMat3, getMat3Identity]

theorem orthonormal_mulMat3 (a b : mat3 F) (ha : Orthonormal a) (hb : Orthonormal b) :
    Orthonormal (mulMat3 a b) := by
  constructor
  · rw [transposedMat3_mulMat3, mulMat3_assoc, ← mulMat3_assoc b, hb.1, mulMat3_identity_left,
      ha.1]
  · rw [transposedMat3_mulMat3, mulMat3_assoc, ← mulMat3_assoc (transposedMat3 a), ha.2,
      mulMat3_identity_left, hb.2]

theorem yawMat3_eq_mulMat3 (amount : F) (m : mat3 F) :
    yawMat3 amount m = mulMat3 m (yawMat3 amount getMat3Identity) := by
  simp only [yawMat3, mulMat3, getMat3Identity, mat3.mk.injEq, vec3.mk.injEq]
  refine ⟨⟨?_, ?_, ?_⟩, ⟨?_, ?_, ?_⟩, ⟨?_, ?_, ?_⟩⟩ <;> ring

theorem pitchMat3_eq_mulMat3 (amount : F) (m : mat3 F) :
    pitchMat3 amount m = mulMat3 m (pitchMat3 amount getMat3Identity) := by
  simp only [pitchMat3, mulMat3, getMat3Identity, mat3.mk.injEq, vec3.mk.injEq]
  refine ⟨⟨?_, ?_, ?_⟩, ⟨?_, ?_, ?_⟩, ⟨?_, ?_, ?_⟩⟩ <;> ring

theorem rollMat3_eq_mulMat3 (amount : F) (m : mat3 F) :
    rollMat3 amount m = mulMat3 m (rollMat3 amount getMat3Identity) := by
  simp only [rollMat3, mulMat3, getMat3Identity, mat3.mk.injEq, vec3.mk.injEq]
  refine ⟨⟨?_, ?_, ?_⟩, ⟨?_, ?_, ?_⟩, ⟨?_, ?_, ?_⟩⟩ <;> ring

theorem orthonormal_yaw_identity (amount : F) :
    Orthonormal (yawMat3 amount (getMat3Identity : mat3 F)) := by
  have hcs := getPointOnUnitCircle_sq amount
  constructor <;>
  · simp only [yawMat3, mulMat3, transposedMat3, getMat3Identity, mat3.mk.injEq, vec3.mk.injEq]
    generalize (getPointOnUnitCircle amount).x = c at hcs ⊢
    generalize (getPointOnUnitCircle amount).y = s at hcs ⊢
    refine ⟨⟨?_, ?_, ?_⟩, ⟨?_, ?_, ?_⟩, ⟨?_, ?_, ?_⟩⟩ <;>
      first | ring1 | linear_combination hcs

theorem orthonormal_pitch_identity (amount : F) :
    Orthonormal (pitchMat3 amount (getMat3Identity : mat3 F)) := by
  have hcs := getPointOnUnitCircle_sq amount
  constructor <;>
  · simp only [pitchMat3, mulMat3, transposedMat3, getMat3Identity, mat3.mk.injEq,
      vec3.mk.injEq]
    generalize (getPointOnUnitCircle amount).x = c at hcs ⊢
    generalize (getPointOnUnitCircle amount).y = s at hcs ⊢
    refine ⟨⟨?_, ?_, ?_⟩, ⟨?_, ?_, ?_⟩, ⟨?_, ?_, ?_⟩⟩ <;>
      first | ring1 | linear_combination hcs

theorem orthonormal_roll_identity (amount : F) :
    Orthonormal (rollMat3 amount (getMat3Identity : mat3 F)) := by
  have hcs := getPointOnUnitCircle_sq amount
  constructor <;>
  · simp only [rollMat3, mulMat3, transposedMat3, getMat3Identity, mat3.mk.injEq,
      vec3.mk.injEq]
    generalize (getPointOnUnitCircle amount).x = c at hcs ⊢
    generalize (getPointOnUnitCircle amount).y = s at hcs ⊢
    refine ⟨⟨?_, ?_, ?_⟩, ⟨?_, ?_, ?_⟩, ⟨?_, ?_, ?_⟩⟩ <;>
      first | ring1 | linear_combination hcs

theorem orthonormal_yawMat3 (amount : F) (m : mat3 F) (h : Orthonormal m) :
    Orthonormal (yawMat3 amount m) := by
  rw [yawMat3_eq_mulMat3]; exact orthonormal_mulMat3 _ _ h (orthonormal_yaw_identity amount)

theorem orthonormal_pitchMat3 (amount : F) (m : mat3 F) (h : Orthonormal m) :
    Orthonormal (pitchMat3 amount m) := by
  rw [pitchMat3_eq_mulMat3]; exact orthonormal_mulMat3 _ _ h (orthonormal_pitch_identity amount)

theorem orthonormal_rollMat3 (amount : F) (m : mat3 F) (h : Orthonormal m) :
    Orthonormal (rollMat3 amount m) := by
  rw [rollMat3_eq_mulMat3]; exact orthonormal_mulMat3 _ _ h (orthonormal_roll_identity amount)

theorem initXform3_inSync : XformInSync (initXform3 : xform3 F) :=
  ⟨orthonormal_identity, orthonormal_identity, orthonormal_identity, orthonormal_identity,
    by simp [initXform3, transposedMat3, getMat3Identity]⟩

theorem rotateXform3_inSync (xform : xform3 F) (yaw pitch roll : F) (h : XformInSync xform) :
    XformInSync (rotateXform3 xform yaw pitch roll) := by
  obtain ⟨hy, hp, hr, _, _⟩ := h
  have hy' : Orthonormal (if yaw ≠ 0 then yawMat3 yaw xform.yaw_matrix else xform.yaw_matrix) := by
    split
    · exact orthonormal_yawMat3 _ _ hy
    · exact hy
  have hp' : Orthonormal
      (if pitch ≠ 0 then pitchMat3 pitch xform.pitch_matrix else xform.pitch_matrix) := by
    split
    · exact orthonormal_pitchMat3 _ _ hp
    · exact hp
  have hr' : Orthonormal
      (if roll ≠ 0 then rollMat3 roll xform.roll_matrix else xform.roll_matrix) := by
    split
    · exact orthonormal_rollMat3 _ _ hr
    · exact hr
  exact ⟨hy', hp', hr', orthonormal_mulMat3 _ _ (orthonormal_mulMat3 _ _ hp' hy') hr', rfl⟩

theorem rotateXform3_foldl_inSync (calls : List (F × F × F)) :
    ∀ xform : xform3 F, XformInSync xform →
      XformInSync (calls.foldl (fun x c => rotateXform3 x c.1 c.2.1 c.2.2) xform) := by
  induction calls with
  | nil => intro xform h; exact h
  | cons c cs ih =>
    intro xform h
    exact ih _ (rotateXform3_inSync xform c.1 c.2.1 c.2.2 h)

/-- C13: in every `xform3` state reached from `initXform3` by a sequence of `rotateXform3`
calls with arbitrary arguments, `rotation_matrix_inverted` is the transpose of
`rotation_matrix` and is its inverse on both sides, and the rotation matrix and the cached
yaw, pitch and roll matrices are orthonormal. -/
theorem rotateXform3_inverse_in_sync (calls : List (F × F × F)) :
    (calls.foldl (fun x c => rotateXform3 x c.1 c.2.1 c.2.2)
      (initXform3 : xform3 F)).rotation_matrix_inverted =
      transposedMat3 (calls.foldl (fun x c => rotateXform3 x c.1 c.2.1 c.2.2)
        (initXform3 : xform3 F)).rotation_matrix ∧
    mulMat3 (calls.foldl (fun x c => rotateXform3 x c.1 c.2.1 c.2.2)
        (initXform3 : xform3 F)).rotation_matrix
      (calls.foldl (fun x c => rotateXform3 x c.1 c.2.1 c.2.2)
        (initXform3 : xform3 F)).rotation_matrix_inverted = getMat3Identity ∧
    mulMat3 (calls.foldl (fun x c => rotateXform3 x c.1 c.2.1 c.2.2)
        (initXform3 : xform3 F)).rotation_matrix_inverted
      (calls.foldl (fun x c => rotateXform3 x c.1 c.2.1 c.2.2)
        (initXform3 : xform3 F)).rotation_matrix = getMat3Identity ∧
    XformInSync (calls.foldl (fun x c => rotateXform3 x c.1 c.2.1 c.2.2)
        (initXform3 : xform3 F)) := by
  have h := rotateXform3_foldl_inSync calls (initXform3 : xform3 F) initXform3_inSync
  refine ⟨h.2.2.2.2, ?_, ?_, h⟩
  · rw [h.2.2.2.2]; exact h.2.2.2.1.1
  · rw [h.2.2.2.2]; exact h.2.2.2.1.2

end Rotations

/-! ## Camera and edge drawing -/

section CameraClaims

variable {F : Type} [LinearOrderedField F]

theorem toI32_neg_one [FloorRing F] : toI32 (-1 : F) = -1 := by
  have h : ¬ (0 : F) ≤ -1 := by norm_num
  simp only [toI32, if_neg h]
  have : ((-1 : F)) = ((-1 : Int) : F) := by norm_num
  rw [this, Int.ceil_intCast]

theorem projectEdge_culled (edge : Edge F) (dimensions : Dimensions F) (focal_length near : F)
    (h1 : edge.from_.z < near) (h2 : edge.to_.z < near) :
    projectEdge edge dimensions focal_length near =
      { from_ := getVec3Of (-1), to_ := getVec3Of (-1) } := by
  simp only [projectEdge, if_pos (And.intro h1 h2)]

/-- C11: for every edge whose endpoints in view space both have `z < near`, `projectEdge`
returns the sentinel (-1,-1,-1) for both endpoints, and `drawEdge` of such an edge calls
`drawLine2D` with four negative coordinates, which returns at its pre-check: no pixel is
written, for any fuel, and the store is unchanged. -/
theorem drawEdge_behind_near_plane [FloorRing F] (canvas : PixelGrid F) (color : RGBA)
    (N : Edge F) (camera : Camera F) (near : F)
    (h1 : (viewEdge N camera).from_.z < near) (h2 : (viewEdge N camera).to_.z < near) :
    projectEdge (viewEdge N camera) canvas.dimensions camera.focal_length near =
      { from_ := ⟨-1, -1, -1⟩, to_ := ⟨-1, -1, -1⟩ } ∧
    (∀ fuel, drawEdge fuel canvas N camera near = some []) ∧
    writePixels canvas color [] = canvas := by
  refine ⟨projectEdge_culled _ _ _ _ h1 h2, fun fuel => ?_, rfl⟩
  simp only [drawEdge, projectEdge_culled _ _ _ _ h1 h2, getVec3Of, toI32_neg_one]
  simp [drawLine2D]

theorem dollyCamera_round_trip_aux (powf : F → F → F) (camera : Camera F) (d max_distance : F) :
    (dollyCamera powf (dollyCamera powf camera d max_distance) (-d) max_distance).target_distance
      = powf 2 (camera.dolly / -200) * max_distance ∧
    (dollyCamera powf (dollyCamera powf camera d max_distance) (-d) max_distance).transform.position
      = subVec3 (addVec3 camera.transform.position
          (scaleVec3 camera.transform.forward_direction camera.target_distance))
        (scaleVec3 camera.transform.forward_direction
          (powf 2 (camera.dolly / -200) * max_distance)) := by
  have h : camera.dolly + d + -d = camera.dolly := by ring
  constructor
  · simp only [dollyCamera, h]
  · simp only [dollyCamera, xform3.forward_direction, addVec3, subVec3, scaleVec3, h,
      vec3.mk.injEq]
    refine ⟨?_, ?_, ?_⟩ <;> ring

/-- C20, amended: for every camera state whose `target_distance` is
`powf(2, dolly / -200) * max_distance`, as it is after any `dollyCamera` call with that
`max_distance`, `dollyCamera(d, max_distance)` followed by `dollyCamera(-d, max_distance)`
restores `target_distance`, `position` and `dolly`. -/
theorem dollyCamera_round_trip (powf : F → F → F) (camera : Camera F) (d max_distance : F)
    (h : camera.target_distance = powf 2 (camera.dolly / -200) * max_distance) :
    (dollyCamera powf (dollyCamera powf camera d max_distance) (-d) max_distance).target_distance
      = camera.target_distance ∧
    (dollyCamera powf (dollyCamera powf camera d max_distance) (-d) max_distance).transform.position
      = camera.transform.position ∧
    (dollyCamera powf (dollyCamera powf camera d max_distance) (-d) max_distance).dolly
      = camera.dolly := by
  obtain ⟨h1, h2⟩ := dollyCamera_round_trip_aux powf camera d max_distance
  refine ⟨by rw [h1, h], ?_, ?_⟩
  · rw [h2, ← h]
    simp only [addVec3, subVec3, scaleVec3]
    congr 1 <;> ring
  · simp only [dollyCamera]; ring

end CameraClaims

/-- C20, instance: a camera fresh from `initCamera` with the default settings
(`dolly = 0`, `target_distance = 10`) and `max_distance = 10`, over the reals. -/
theorem dollyCamera_round_trip_witness :
    (initCamera (getDefaultCameraSettings : CameraSettings ℝ)).target_distance =
      (fun x y : ℝ => x ^ y) 2
        ((initCamera (getDefaultCameraSettings : CameraSettings ℝ)).dolly / -200) * 10 ∧
    (dollyCamera (fun x y : ℝ => x ^ y)
      (dollyCamera (fun x y : ℝ => x ^ y) (initCamera getDefaultCameraSettings) 200 10)
      (-200) 10).target_distance = 10 :=
  have h : (initCamera (getDefaultCameraSettings : CameraSettings ℝ)).target_distance =
      (fun x y : ℝ => x ^ y) 2
        ((initCamera (getDefaultCameraSettings : CameraSettings ℝ)).dolly / -200) * 10 := by
    simp [initCamera, getDefaultCameraSettings]
  ⟨h, (dollyCamera_round_trip (fun x y : ℝ => x ^ y)
    (initCamera getDefaultCameraSettings) 200 10 h).1⟩

/-- C20: a camera fresh from `initCamera` with the default settings has `dolly = 0` and
`target_distance = 10`; after `dollyCamera(200, 20)` and `dollyCamera(-200, 20)` its
`target_distance` is `2^0 * 20 = 20` and its position is (0,0,-10) instead of (0,0,0). -/
theorem dollyCamera_round_trip_fails :
    (dollyCamera (fun x y : ℝ => x ^ y)
      (dollyCamera (fun x y : ℝ => x ^ y) (initCamera getDefaultCameraSettings) 200 20)
      (-200) 20).target_distance ≠
      (initCamera (getDefaultCameraSettings : CameraSettings ℝ)).target_distance ∧
    (dollyCamera (fun x y : ℝ => x ^ y)
      (dollyCamera (fun x y : ℝ => x ^ y) (initCamera getDefaultCameraSettings) 200 20)
      (-200) 20).transform.position ≠
      (initCamera (getDefaultCameraSettings : CameraSettings ℝ)).transform.position := by
  obtain ⟨h1, h2⟩ := dollyCamera_round_trip_aux (fun x y : ℝ => x ^ y)
    (initCamera getDefaultCameraSettings) 200 20
  rw [h1, h2]
  constructor
  · simp [initCamera, getDefaultCameraSettings]
  · norm_num [initCamera, getDefaultCameraSettings, initXform3, xform3.forward_direction,
      getMat3Identity, getVec3Of, addVec3, subVec3, scaleVec3]

/-- C11, instance: the edge from (0,0,-5) to (1,1,-3) seen by a camera fresh from `initCamera`
with the near plane at 1, on a 10x10 grid. -/
theorem drawEdge_behind_near_plane_witness :
    ((viewEdge (⟨⟨0, 0, -5⟩, ⟨1, 1, -3⟩⟩ : Edge ℚ) (initCamera getDefaultCameraSettings)).from_.z
        < 1 ∧
      (viewEdge (⟨⟨0, 0, -5⟩, ⟨1, 1, -3⟩⟩ : Edge ℚ) (initCamera getDefaultCameraSettings)).to_.z
        < 1) ∧
    ∀ fuel, drawEdge fuel (blankGrid 10 10) (⟨⟨0, 0, -5⟩, ⟨1, 1, -3⟩⟩ : Edge ℚ)
      (initCamera getDefaultCameraSettings) 1 = some [] :=
  have h1 : (viewEdge (⟨⟨0, 0, -5⟩, ⟨1, 1, -3⟩⟩ : Edge ℚ)
      (initCamera getDefaultCameraSettings)).from_.z < 1 := by
    norm_num [viewEdge, initCamera, initXform3, getMat3Identity, getVec3Of, mulVec3Mat3, subVec3]
  have h2 : (viewEdge (⟨⟨0, 0, -5⟩, ⟨1, 1, -3⟩⟩ : Edge ℚ)
      (initCamera getDefaultCameraSettings)).to_.z < 1 := by
    norm_num [viewEdge, initCamera, initXform3, getMat3Identity, getVec3Of, mulVec3Mat3, subVec3]
  ⟨⟨h1, h2⟩, (drawEdge_behind_near_plane (blankGrid 10 10) ⟨0, 0, 0, 0⟩ _ _ 1 h1 h2).2.1⟩

/-! ## Normalisation and quaternions over the reals -/

theorem real_sqrt_mul_self_pos (s : ℝ) (h : Real.sqrt s ≠ 0) :
    0 < Real.sqrt s ∧ Real.sqrt s * Real.sqrt s = s := by
  have hpos : 0 < Real.sqrt s := lt_of_le_of_ne (Real.sqrt_nonneg s) (Ne.symm h)
  have hs : 0 < s := Real.sqrt_pos.mp hpos
  exact ⟨hpos, Real.mul_self_sqrt hs.le⟩

/-- C18: for every `vec3` over the reals whose length is not zero, `normVec3` has squared
length 1 and is the vector scaled by a positive factor. -/
theorem normVec3_unit_length (v : vec3 ℝ) (h : lengthVec3 Real.sqrt v ≠ 0) :
    squaredLengthVec3 (normVec3 Real.sqrt v) = 1 ∧
    ∃ c : ℝ, 0 < c ∧ normVec3 Real.sqrt v = scaleVec3 v c := by
  obtain ⟨hpos, hsq⟩ := real_sqrt_mul_self_pos (squaredLengthVec3 v) h
  constructor
  · simp only [normVec3, length, lengthVec3]
    generalize Real.sqrt (squaredLengthVec3 v) = L at hpos hsq
    simp only [squaredLengthVec3, scaleVec3] at hsq ⊢
    have hL : L ≠ 0 := hpos.ne'
    field_simp
    linear_combination (-1 : ℝ) * hsq
  · exact ⟨1 / lengthVec3 Real.sqrt v, one_div_pos.mpr hpos, rfl⟩

/-- C18, instance: the vector (3,4,0), of length 5. -/
theorem normVec3_unit_length_witness :
    lengthVec3 Real.sqrt (⟨3, 4, 0⟩ : vec3 ℝ) ≠ 0 ∧
    squaredLengthVec3 (normVec3 Real.sqrt (⟨3, 4, 0⟩ : vec3 ℝ)) = 1 :=
  have h : lengthVec3 Real.sqrt (⟨3, 4, 0⟩ : vec3 ℝ) ≠ 0 := by
    simp only [lengthVec3, squaredLengthVec3]
    exact Real.sqrt_ne_zero'.mpr (by norm_num)
  ⟨h, (normVec3_unit_length _ h).1⟩

/-- C12: the unit quaternion with axis (3/5, 0, 0) and amount 4/5 is converted to the matrix
with rows (1,0,0), (0,7/25,-24/25), (0,24/25,7/25), and that matrix is converted back to the
quaternion with axis (-3/5, 0, 0) and amount 4/5: the conjugate, which is neither the
quaternion nor its negation.  The two conversions use transposed conventions for the
off-diagonal entries. -/
theorem quaternion_round_trip_conjugates :
    (3 / 5 : ℝ) * (3 / 5) + 0 * 0 + 0 * 0 + (4 / 5) * (4 / 5) = 1 ∧
    convertQuaternionToRotationMatrix (⟨⟨3 / 5, 0, 0⟩, 4 / 5⟩ : quat ℝ) =
      ⟨⟨1, 0, 0⟩, ⟨0, 7 / 25, -24 / 25⟩, ⟨0, 24 / 25, 7 / 25⟩⟩ ∧
    convertRotationMatrixToQuaternion Real.sqrt
      (convertQuaternionToRotationMatrix (⟨⟨3 / 5, 0, 0⟩, 4 / 5⟩ : quat ℝ)) =
      ⟨⟨-3 / 5, 0, 0⟩, 4 / 5⟩ ∧
    (⟨⟨-3 / 5, 0, 0⟩, 4 / 5⟩ : quat ℝ) ≠ ⟨⟨3 / 5, 0, 0⟩, 4 / 5⟩ ∧
    (⟨⟨-3 / 5, 0, 0⟩, 4 / 5⟩ : quat ℝ) ≠ ⟨⟨-(3 / 5), -0, -0⟩, -(4 / 5)⟩ := by
  have hM : convertQuaternionToRotationMatrix (⟨⟨3 / 5, 0, 0⟩, 4 / 5⟩ : quat ℝ) =
      ⟨⟨1, 0, 0⟩, ⟨0, 7 / 25, -24 / 25⟩, ⟨0, 24 / 25, 7 / 25⟩⟩ := by
    norm_num [convertQuaternionToRotationMatrix]
  have hs : Real.sqrt (64 / 25) = 8 / 5 := by
    rw [show (64 / 25 : ℝ) = (8 / 5) ^ 2 by norm_num]
    exact Real.sqrt_sq (by norm_num)
  refine ⟨by norm_num, hM, ?_, ?_, ?_⟩
  · rw [hM]
    simp only [convertRotationMatrixToQuaternion]
    norm_num [hs]
  · norm_num
  · norm_num

theorem real_sqrt_four_mul_self (b : ℝ) : Real.sqrt (4 * (b * b)) = 2 * |b| := by
  rw [show 4 * (b * b) = (2 * b) ^ 2 by ring, Real.sqrt_sq_eq_abs, abs_mul, abs_two]

set_option maxHeartbeats 1000000 in
/-- In exact real arithmetic the round trip through the matrix returns, for every unit
quaternion, its conjugate or the negation of its conjugate. -/
theorem quaternion_round_trip_general (x y z w : ℝ) (hq : x * x + y * y + z * z + w * w = 1) :
    convertRotationMatrixToQuaternion Real.sqrt
        (convertQuaternionToRotationMatrix ⟨⟨x, y, z⟩, w⟩) = ⟨⟨-x, -y, -z⟩, w⟩ ∨
    convertRotationMatrixToQuaternion Real.sqrt
        (convertQuaternionToRotationMatrix ⟨⟨x, y, z⟩, w⟩) = ⟨⟨x, y, z⟩, -w⟩ := by
  have eW : 2 * (w * w + x * x) - 1 + (2 * (w * w + y * y) - 1) + (2 * (w * w + z * z) - 1) + 1
      = 4 * (w * w) := by linear_combination 2 * hq
  have eX : 2 * (w * w + x * x) - 1 - (2 * (w * w + y * y) - 1) - (2 * (w * w + z * z) - 1) + 1
      = 4 * (x * x) := by linear_combination (-2) * hq
  have eY : 2 * (w * w + y * y) - 1 - (2 * (w * w + x * x) - 1) - (2 * (w * w + z * z) - 1) + 1
      = 4 * (y * y) := by linear_combination (-2) * hq
  have eZ : 2 * (w * w + z * z) - 1 - (2 * (w * w + x * x) - 1) - (2 * (w * w + y * y) - 1) + 1
      = 4 * (z * z) := by linear_combination (-2) * hq
  simp only [convertRotationMatrixToQuaternion, convertQuaternionToRotationMatrix]
  split_ifs
  all_goals try contradiction
  all_goals first
    | (rw [eW, real_sqrt_four_mul_self]
       have hb : 1 / 4 ≤ w * w := by nlinarith
       have hne : w ≠ 0 := by rintro rfl; norm_num at hb
       rcases lt_or_gt_of_ne hne with hneg | hpos
       · right
         rw [abs_of_neg hneg]
         simp only [quat.mk.injEq, vec3.mk.injEq]
         refine ⟨⟨?_, ?_, ?_⟩, ?_⟩ <;> field_simp <;> ring
       · left
         rw [abs_of_pos hpos]
         simp only [quat.mk.injEq, vec3.mk.injEq]
         refine ⟨⟨?_, ?_, ?_⟩, ?_⟩ <;> field_simp <;> ring)
    | (rw [eX, real_sqrt_four_mul_self]
       have hb : 1 / 4 ≤ x * x := by nlinarith
       have hne : x ≠ 0 := by rintro rfl; norm_num at hb
       rcases lt_or_gt_of_ne hne with hneg | hpos
       · left
         rw [abs_of_neg hneg]
         simp only [quat.mk.injEq, vec3.mk.injEq]
         refine ⟨⟨?_, ?_, ?_⟩, ?_⟩ <;> field_simp <;> ring
       · right
         rw [abs_of_pos hpos]
         simp only [quat.mk.injEq, vec3.mk.injEq]
         refine ⟨⟨?_, ?_, ?_⟩, ?_⟩ <;> field_simp <;> ring)
    | (rw [eY, real_sqrt_four_mul_self]
       have hb : 1 / 4 ≤ y * y := by nlinarith
       have hne : y ≠ 0 := by rintro rfl; norm_num at hb
       rcases lt_or_gt_of_ne hne with hneg | hpos
       · left
         rw [abs_of_neg hneg]
         simp only [quat.mk.injEq, vec3.mk.injEq]
         refine ⟨⟨?_, ?_, ?_⟩, ?_⟩ <;> field_simp <;> ring
       · right
         rw [abs_of_pos hpos]
         simp only [quat.mk.injEq, vec3.mk.injEq]
         refine ⟨⟨?_, ?_, ?_⟩, ?_⟩ <;> field_simp <;> ring)
    | (rw [eZ, real_sqrt_four_mul_self]
       have hb : 1 / 4 ≤ z * z := by nlinarith
       have hne : z ≠ 0 := by rintro rfl; norm_num at hb
       rcases lt_or_gt_of_ne hne with hneg | hpos
       · left
         rw [abs_of_neg hneg]
         simp only [quat.mk.injEq, vec3.mk.injEq]
         refine ⟨⟨?_, ?_, ?_⟩, ?_⟩ <;> field_simp <;> ring
       · right
         rw [abs_of_pos hpos]
         simp only [quat.mk.injEq, vec3.mk.injEq]
         refine ⟨⟨?_, ?_, ?_⟩, ?_⟩ <;> field_simp <;> ring)

/-! ## Camera operations -/

section CameraOperationClaims

variable {F : Type} [LinearOrderedField F]

theorem rotateXform3_rotation_of_position (xform : xform3 F) (p : vec3 F) (yaw pitch roll : F) :
    (rotateXform3 { xform with position := p } yaw pitch roll).rotation_matrix =
      (rotateXform3 xform yaw pitch roll).rotation_matrix := rfl

/-- C22: `zoomCamera` sets `zoom' = zoom + delta` and `focal_length` to `zoom'` if
`zoom' > 1`, to `-1 / zoom'` if `zoom' < -1` and to 1 otherwise; the focal length is
strictly positive after the call. -/
theorem zoomCamera_focal_length (camera : Camera F) (delta : F) :
    (zoomCamera camera delta).zoom = camera.zoom + delta ∧
    (zoomCamera camera delta).focal_length =
      (if camera.zoom + delta > 1 then camera.zoom + delta
       else if camera.zoom + delta < -1 then -1 / (camera.zoom + delta) else 1) ∧
    0 < (zoomCamera camera delta).focal_length := by
  refine ⟨rfl, rfl, ?_⟩
  simp only [zoomCamera]
  split
  · rename_i h; exact lt_trans one_pos h
  · split
    · rename_i h
      exact div_pos_of_neg_of_neg (by norm_num) (lt_trans h (by norm_num))
    · exact one_pos

theorem navigationTurn_flags (camera : Camera F) (navigation : Navigation F) (delta_time : F) :
    ((navigationTurn camera navigation delta_time).turned =
      (camera.turned || (navigation.turn.right || navigation.turn.left))) ∧
    (navigationTurn camera navigation delta_time).zoomed = camera.zoomed ∧
    (navigationTurn camera navigation delta_time).current_velocity = camera.current_velocity := by
  unfold navigationTurn
  split
  · rename_i h; simp [h]
  · rename_i h
    simp only [Bool.not_eq_true] at h
    simp [h]

theorem navigateCamera_flags (camera : Camera F) (navigation : Navigation F) (delta_time : F) :
    ((navigateCamera camera navigation delta_time).turned =
      (camera.turned || (navigation.turn.right || navigation.turn.left))) ∧
    (navigateCamera camera navigation delta_time).zoomed = camera.zoomed ∧
    (navigateCamera camera navigation delta_time).moved =
      nonZeroVec3 (navigateCamera camera navigation delta_time).current_velocity ∧
    (navigateCamera camera navigation delta_time).current_velocity =
      approachVec3 camera.current_velocity (navigationTargetVelocity navigation)
        (navigation.settings.acceleration * delta_time) := by
  obtain ⟨h1, h2, h3⟩ := navigationTurn_flags camera navigation delta_time
  unfold navigateCamera
  simp only [h3]
  split
  · exact ⟨h1, h2, rfl, rfl⟩
  · exact ⟨h1, h2, rfl, rfl⟩

theorem camera_operations_keep_flags (powf : F → F → F) (camera : Camera F) (a b : F) :
    ((camera.moved = true → (zoomCamera camera a).moved = true) ∧
     (camera.turned = true → (zoomCamera camera a).turned = true) ∧
     (zoomCamera camera a).zoomed = true) ∧
    ((dollyCamera powf camera a b).moved = true ∧
     (camera.turned = true → (dollyCamera powf camera a b).turned = true) ∧
     (camera.zoomed = true → (dollyCamera powf camera a b).zoomed = true)) ∧
    ((camera.moved = true → (turnCamera camera a b).moved = true) ∧
     (turnCamera camera a b).turned = true ∧
     (camera.zoomed = true → (turnCamera camera a b).zoomed = true)) ∧
    ((orbitCamera camera a b).moved = true ∧
     (orbitCamera camera a b).turned = true ∧
     (camera.zoomed = true → (orbitCamera camera a b).zoomed = true)) ∧
    ((panCamera camera a b).moved = true ∧
     (camera.turned = true → (panCamera camera a b).turned = true) ∧
     (camera.zoomed = true → (panCamera camera a b).zoomed = true)) :=
  ⟨⟨fun h => h, fun h => h, rfl⟩, ⟨rfl, fun h => h, fun h => h⟩,
    ⟨fun h => h, rfl, fun h => h⟩, ⟨rfl, rfl, fun h => h⟩, ⟨rfl, fun h => h, fun h => h⟩⟩

end CameraOperationClaims

/-- C23: a camera at rest (`current_velocity = 0`) whose flag `moved` is set, and a
navigation state with no key down: `navigateCamera` computes the velocity 0 again and resets
`moved` to false. -/
theorem navigateCamera_resets_moved :
    ({ (initCamera getDefaultCameraSettings : Camera ℚ) with moved := true }).moved = true ∧
    (navigateCamera ({ (initCamera getDefaultCameraSettings : Camera ℚ) with moved := true })
      ⟨⟨false, false, false, false, false, false⟩, ⟨false, false⟩, ⟨⟨2, 1, 1, 1, 1, 1⟩, 8, 30⟩⟩
      1).moved = false := by
  refine ⟨rfl, ?_⟩
  rw [(navigateCamera_flags _ _ _).2.2.1, (navigateCamera_flags _ _ _).2.2.2]
  norm_num [navigationTargetVelocity, initCamera, getDefaultCameraSettings, getVec3Of,
    approachVec3, approach, nonZeroVec3]

/-! ## Primitives -/

section PrimitiveClaims

variable {F : Type} [LinearOrderedField F]

theorem mulVec3_one (p : vec3 F) : mulVec3 p (getVec3Of 1) = p := by
  cases p; simp [mulVec3, getVec3Of]

theorem addVec3_zero (p : vec3 F) : addVec3 p (getVec3Of 0) = p := by
  cases p; simp [addVec3, getVec3Of]

theorem mulVec3Quat_identity (p : vec3 F) : mulVec3Quat p getIdentityQuaternion = p := by
  cases p
  simp [mulVec3Quat, getIdentityQuaternion, cross, crossVec3, scaleAddVec3, getVec3Of]

theorem convertPositionToWorldSpace_eq (p : vec3 F) (primitive : Primitive F) :
    convertPositionToWorldSpace p primitive =
      convertPositionToWorldSpaceUnflagged p
        (if primitive.flags &&& IS_SCALED ≠ 0 then primitive.scale else getVec3Of 1)
        (if primitive.flags &&& IS_ROTATED ≠ 0 then primitive.rotation
         else getIdentityQuaternion)
        (if primitive.flags &&& IS_TRANSLATED ≠ 0 then primitive.position else getVec3Of 0) := by
  unfold convertPositionToWorldSpace convertPositionToWorldSpaceUnflagged
  by_cases hs : primitive.flags &&& IS_SCALED ≠ 0 <;>
  by_cases hr : primitive.flags &&& IS_ROTATED ≠ 0 <;>
  by_cases ht : primitive.flags &&& IS_TRANSLATED ≠ 0 <;>
  simp [hs, hr, ht, mulVec3_one, addVec3_zero, mulVec3Quat_identity]

/-- C24: for a primitive whose flags are consistent with its fields (a clear `IS_SCALED`
implies `scale = (1,1,1)`, a clear `IS_ROTATED` implies the identity quaternion, a clear
`IS_TRANSLATED` implies `position = 0`), `convertPositionToWorldSpace` equals the unflagged
computation `mulVec3Quat(mulVec3(p, scale), rotation) + position`; and for every primitive
it equals the unflagged computation in which each field whose flag is clear is replaced by
its identity value, whatever the field holds. -/
theorem convertPositionToWorldSpace_flags (p : vec3 F) (primitive : Primitive F) :
    ((primitive.flags &&& IS_SCALED = 0 → primitive.scale = getVec3Of 1) →
     (primitive.flags &&& IS_ROTATED = 0 → primitive.rotation = getIdentityQuaternion) →
     (primitive.flags &&& IS_TRANSLATED = 0 → primitive.position = getVec3Of 0) →
     convertPositionToWorldSpace p primitive =
       convertPositionToWorldSpaceUnflagged p primitive.scale primitive.rotation
         primitive.position) ∧
    convertPositionToWorldSpace p primitive =
      convertPositionToWorldSpaceUnflagged p
        (if primitive.flags &&& IS_SCALED ≠ 0 then primitive.scale else getVec3Of 1)
        (if primitive.flags &&& IS_ROTATED ≠ 0 then primitive.rotation
         else getIdentityQuaternion)
        (if primitive.flags &&& IS_TRANSLATED ≠ 0 then primitive.position else getVec3Of 0) := by
  refine ⟨fun hs hr ht => ?_, convertPositionToWorldSpace_eq p primitive⟩
  rw [convertPositionToWorldSpace_eq]
  have e1 : (if primitive.flags &&& IS_SCALED ≠ 0 then primitive.scale else getVec3Of 1) =
      primitive.scale := by
    split
    · rfl
    · rename_i h; exact (hs (not_not.mp h)).symm
  have e2 : (if primitive.flags &&& IS_ROTATED ≠ 0 then primitive.rotation
      else getIdentityQuaternion) = primitive.rotation := by
    split
    · rfl
    · rename_i h; exact (hr (not_not.mp h)).symm
  have e3 : (if primitive.flags &&& IS_TRANSLATED ≠ 0 then primitive.position
      else getVec3Of 0) = primitive.position := by
    split
    · rfl
    · rename_i h; exact (ht (not_not.mp h)).symm
  rw [e1, e2, e3]

end PrimitiveClaims

/-- C24, instance: a primitive with only `IS_SCALED` set, scale (2,2,2), and the identity
values in the fields whose flags are clear; the point (1,2,3) is mapped to (2,4,6). -/
theorem convertPositionToWorldSpace_flags_witness :
    (((⟨getIdentityQuaternion, getVec3Of 0, getVec3Of 2, 0, PrimitiveType.Box, 9⟩ :
        Primitive ℚ).flags &&& IS_ROTATED = 0 →
      (⟨getIdentityQuaternion, getVec3Of 0, getVec3Of 2, 0, PrimitiveType.Box, 9⟩ :
        Primitive ℚ).rotation = getIdentityQuaternion)) ∧
    convertPositionToWorldSpace (⟨1, 2, 3⟩ : vec3 ℚ)
      ⟨getIdentityQuaternion, getVec3Of 0, getVec3Of 2, 0, PrimitiveType.Box, 9⟩ =
      convertPositionToWorldSpaceUnflagged ⟨1, 2, 3⟩ (getVec3Of 2) getIdentityQuaternion
        (getVec3Of 0) :=
  ⟨fun _ => rfl,
   (convertPositionToWorldSpace_flags (⟨1, 2, 3⟩ : vec3 ℚ)
      ⟨getIdentityQuaternion, getVec3Of 0, getVec3Of 2, 0, PrimitiveType.Box, 9⟩).1
      (fun h => absurd h (by decide)) (fun _ => rfl) (fun _ => rfl)⟩

/-! ## Text: characters outside the font -/

theorem drawTextLoop_skips (width height pixel_line_step char_line_step : Nat) (x : Int)
    (c : Int) (h0 : c ≠ 0) (hn : c ≠ 10) (ht : c ≠ 9)
    (hr : ¬ (c ≥ FIRST_CHARACTER_CODE ∧ c ≤ LAST_CHARACTER_CODE)) (post : List Int) :
    ∀ (pre : List Int) (cur : TextCursor),
      drawTextLoop width height pixel_line_step char_line_step x (pre ++ c :: post) cur =
        drawTextLoop width height pixel_line_step char_line_step x (pre ++ post) cur := by
  intro pre
  induction pre with
  | nil =>
    intro cur
    simp only [List.nil_append]
    rw [drawTextLoop]
    simp only [h0, hn, ht, hr, if_false]
  | cons a pre ih =>
    intro cur
    simp only [List.cons_append]
    rw [drawTextLoop, drawTextLoop]
    simp only [ih]

/-- C25: for every string, every start position and every character whose code is outside
[32,127] and is neither the newline (10), the tab (9) nor NUL (0), `drawText` writes the same
pixels, in the same order, for the string with the character inserted at any place as for
the string without it. -/
theorem drawText_skips_unsupported {F : Type} (canvas : PixelGrid F) (pre post : List Int)
    (c x y : Int) (h0 : c ≠ 0) (hn : c ≠ 10) (ht : c ≠ 9)
    (hr : ¬ (FIRST_CHARACTER_CODE ≤ c ∧ c ≤ LAST_CHARACTER_CODE)) :
    drawText canvas (pre ++ c :: post) x y = drawText canvas (pre ++ post) x y := by
  simp only [drawText, drawTextLoop_skips _ _ _ _ _ c h0 hn ht hr]

/-- C25, instance: the bell character (7) between `A` and `B` on a 32x16 grid. -/
theorem drawText_skips_unsupported_witness :
    ((7 : Int) ≠ 0 ∧ (7 : Int) ≠ 10 ∧ (7 : Int) ≠ 9 ∧
      ¬ (FIRST_CHARACTER_CODE ≤ 7 ∧ (7 : Int) ≤ LAST_CHARACTER_CODE)) ∧
    drawText (blankGrid 32 16) ([65] ++ 7 :: [66]) 0 0 =
      drawText (blankGrid 32 16) ([65] ++ [66]) 0 0 :=
  ⟨⟨by decide, by decide, by decide, by decide⟩,
   drawText_skips_unsupported (blankGrid 32 16) [65] [66] 7 0 0 (by decide) (by decide)
     (by decide) (by decide)⟩

/-! ## Triangles -/

section TriangleOrderLemmas

variable {F : Type} [LinearOrderedField F]

theorem triangleExtremes_fst_le (Y : Fin 3 → F) (j : Fin 3) :
    Y (triangleExtremes Y).1 ≤ Y j := by
  simp only [triangleExtremes]
  by_cases h1 : Y 1 < Y 0
  · simp only [h1, if_true]
    by_cases h2 : Y 2 < Y 1
    · simp only [h2, if_true]
      fin_cases j <;> simp <;> linarith
    · simp only [h2, if_false]
      fin_cases j <;> simp <;> linarith
  · simp only [h1, if_false]
    by_cases h2 : Y 2 < Y 0
    · simp only [h2, if_true]
      fin_cases j <;> simp <;> linarith
    · simp only [h2, if_false]
      fin_cases j <;> simp <;> linarith

theorem triangleExtremes_fst_first (Y : Fin 3 → F) (j : Fin 3)
    (hj : j < (triangleExtremes Y).1) : Y (triangleExtremes Y).1 < Y j := by
  revert hj
  simp only [triangleExtremes]
  by_cases h1 : Y 1 < Y 0
  · simp only [h1, if_true]
    by_cases h2 : Y 2 < Y 1
    · simp only [h2, if_true]
      fin_cases j
      · intro _; exact lt_trans h2 h1
      · intro _; exact h2
      · intro h; exact absurd h (lt_irrefl _)
    · simp only [h2, if_false]
      fin_cases j
      · intro _; exact h1
      · intro h; exact absurd h (lt_irrefl _)
      · intro h; exact absurd h (by decide)
  · simp only [h1, if_false]
    by_cases h2 : Y 2 < Y 0
    · simp only [h2, if_true]
      fin_cases j
      · intro _; exact h2
      · intro _; exact lt_of_lt_of_le h2 (not_lt.mp h1)
      · intro h; exact absurd h (lt_irrefl _)
    · simp only [h2, if_false]
      intro h
      exact absurd h (Fin.not_lt_zero j)

end TriangleOrderLemmas

section TriangleClaims

variable {F : Type} [LinearOrderedField F] [FloorRing F]

/-- C26: the three slopes of `fillTriangle` are computed by `triangleSlope` from the
vertices in the order in which they are used; whenever the quotient
`(xb - xa) / (yb - ya)` is evaluated, the truncated `y` coordinates differ and so
`yb - ya` is not zero; and an edge whose truncated `x` or truncated `y` coordinates coincide
gets the slope 0. -/
theorem fillTriangle_slopes_never_divide_by_zero (X Y : Fin 3 → F) :
    ((triangleSetup X Y).dx1 = triangleSlope (triangleSetup X Y).x1 (triangleSetup X Y).y1
        (triangleSetup X Y).x2 (triangleSetup X Y).y2 ∧
     (triangleSetup X Y).dx2 = triangleSlope (triangleSetup X Y).x2 (triangleSetup X Y).y2
        (triangleSetup X Y).x3 (triangleSetup X Y).y3 ∧
     (triangleSetup X Y).dx3 = triangleSlope (triangleSetup X Y).x1 (triangleSetup X Y).y1
        (triangleSetup X Y).x3 (triangleSetup X Y).y3) ∧
    ∀ xa ya xb yb : F,
      (¬ (toI32 xa = toI32 xb ∨ toI32 ya = toI32 yb) →
        yb - ya ≠ 0 ∧ triangleSlope xa ya xb yb = (xb - xa) / (yb - ya)) ∧
      ((toI32 xa = toI32 xb ∨ toI32 ya = toI32 yb) → triangleSlope xa ya xb yb = 0) := by
  refine ⟨⟨rfl, rfl, rfl⟩, fun xa ya xb yb => ⟨fun h => ⟨?_, ?_⟩, fun h => ?_⟩⟩
  · intro hy
    have : ya = yb := by linear_combination -hy
    exact h (Or.inr (by rw [this]))
  · simp only [triangleSlope, if_neg h]
  · simp only [triangleSlope, if_pos h]

theorem triangleOrder_zero : ∀ ysi : Fin 3, triangleOrder ysi 0 = ysi := by decide

theorem triangleOrder_rotation : ∀ ysi j : Fin 3, triangleOrder ysi j = j + ysi := by decide

theorem triangleSetup_ysi (X Y : Fin 3 → F) :
    (triangleSetup X Y).ysi = (triangleSetup X Y).y1i := by
  simp only [triangleSetup, triangleOrder_zero]

theorem triangleRow_mem (W H : Nat) (y offset xsi xei i : Int)
    (h : i ∈ triangleRow W H y offset xsi xei) :
    ∃ x : Int, i = offset + x ∧ 0 < x ∧ x < W ∧ 0 < y ∧ y < H := by
  unfold triangleRow at h
  rw [List.mem_map] at h
  obtain ⟨x, hx, rfl⟩ := h
  rw [List.mem_filter] at hx
  have := of_decide_eq_true hx.2
  exact ⟨x, rfl, this.1, this.2.1, this.2.2.1, this.2.2.2⟩

theorem triangleLoop_mem (W H : Nat) (t : TriangleSetup F) :
    ∀ (n : Nat) (y : Int) (s : TriangleState F), s.offset = (W : Int) * y →
      ∀ i ∈ triangleLoop W H t n y s,
        ∃ col row : Int, i = row * W + col ∧ 0 < col ∧ col < W ∧ 0 < row ∧ row < H := by
  intro n
  induction n with
  | zero => intro y s _ i hi; simp [triangleLoop] at hi
  | succ n ih =>
    intro y s hs i hi
    rw [triangleLoop] at hi
    simp only [List.mem_append] at hi
    rcases hi with hi | hi
    · obtain ⟨x, rfl, h1, h2, h3, h4⟩ := triangleRow_mem W H y _ _ _ i hi
      exact ⟨x, y, by rw [hs]; ring, h1, h2, h3, h4⟩
    · exact ih (y + 1) _ (by simp only [hs]; ring) i hi

/-- C29: every index that `fillTriangle` writes is `y * W + x` for a column `x` and a row
`y` with `0 < x < W` and `0 < y < H`; so every write is inside the `W * H` pixels of the
grid, and no pixel of row 0 or of column 0 is written. -/
theorem fillTriangle_writes_inside (canvas : PixelGrid F) (X Y : Fin 3 → F) :
    ∀ i ∈ fillTriangle canvas X Y,
      (∃ x y : Int, i = y * canvas.dimensions.width + x ∧
        0 < x ∧ x < canvas.dimensions.width ∧ 0 < y ∧ y < canvas.dimensions.height) ∧
      0 ≤ i ∧ i < (canvas.dimensions.width : Int) * canvas.dimensions.height := by
  intro i hi
  unfold fillTriangle at hi
  obtain ⟨x, y, rfl, h1, h2, h3, h4⟩ := triangleLoop_mem _ _ _ _ _ _
    (by simp only [triangleInit, triangleSetup_ysi]) i hi
  refine ⟨⟨x, y, rfl, h1, h2, h3, h4⟩, ?_, ?_⟩
  · have : 0 ≤ y * (canvas.dimensions.width : Int) :=
      Int.mul_nonneg h3.le (Int.ofNat_nonneg _)
    omega
  · have hw : (0 : Int) ≤ canvas.dimensions.width := Int.ofNat_nonneg _
    have : (y + 1) * (canvas.dimensions.width : Int) ≤
        (canvas.dimensions.height : Int) * canvas.dimensions.width :=
      Int.mul_le_mul_of_nonneg_right (by omega) hw
    nlinarith

/-- C30, amended: the order in which `fillTriangle` uses the vertices is the input order
rotated cyclically so that the first vertex of least `Y` in input order comes first: with
`s` its index, `Y s <= Y j` for every `j` and `Y s < Y j` for every `j` before `s`; the three
vertices used are the input vertices `s`, `s + 1`, `s + 2` (indices modulo 3), so that
`y1 <= y2` and `y1 <= y3`; nothing is said about the order of `y2` and `y3`. -/
theorem fillTriangle_first_vertex_lowest (X Y : Fin 3 → F) :
    ((∀ j : Fin 3, Y (triangleExtremes Y).1 ≤ Y j) ∧
     (∀ j : Fin 3, j < (triangleExtremes Y).1 → Y (triangleExtremes Y).1 < Y j)) ∧
    (∀ j : Fin 3, triangleOrder (triangleExtremes Y).1 j = j + (triangleExtremes Y).1) ∧
    ((triangleSetup X Y).x1 = X (triangleExtremes Y).1 ∧
     (triangleSetup X Y).y1 = Y (triangleExtremes Y).1 ∧
     (triangleSetup X Y).x2 = X (1 + (triangleExtremes Y).1) ∧
     (triangleSetup X Y).y2 = Y (1 + (triangleExtremes Y).1) ∧
     (triangleSetup X Y).x3 = X (2 + (triangleExtremes Y).1) ∧
     (triangleSetup X Y).y3 = Y (2 + (triangleExtremes Y).1)) ∧
    (triangleSetup X Y).y1 ≤ (triangleSetup X Y).y2 ∧
    (triangleSetup X Y).y1 ≤ (triangleSetup X Y).y3 := by
  have h0 : (triangleSetup X Y).y1 = Y (triangleExtremes Y).1 := by
    simp only [triangleSetup, triangleOrder_zero]
  refine ⟨⟨fun j => triangleExtremes_fst_le Y j, fun j hj => triangleExtremes_fst_first Y j hj⟩,
    fun j => triangleOrder_rotation _ j, ?_, ?_, ?_⟩
  · simp only [triangleSetup, triangleOrder_rotation, zero_add, and_self]
  · rw [h0]; exact triangleExtremes_fst_le Y _
  · rw [h0]; exact triangleExtremes_fst_le Y _

end TriangleClaims

/-- C30: for the vertices with `Y = (0, 2, 1)` the first vertex has the least `Y`, so the
vertices are used in the input order: `y1 = 0`, `y2 = 2`, `y3 = 1`, which is not sorted. -/
theorem fillTriangle_order_not_sorted :
    (triangleSetup (![0, 1, 2] : Fin 3 → ℚ) ![0, 2, 1]).y1 = 0 ∧
    (triangleSetup (![0, 1, 2] : Fin 3 → ℚ) ![0, 2, 1]).y2 = 2 ∧
    (triangleSetup (![0, 1, 2] : Fin 3 → ℚ) ![0, 2, 1]).y3 = 1 ∧
    ¬ ((triangleSetup (![0, 1, 2] : Fin 3 → ℚ) ![0, 2, 1]).y1 ≤
        (triangleSetup (![0, 1, 2] : Fin 3 → ℚ) ![0, 2, 1]).y2 ∧
       (triangleSetup (![0, 1, 2] : Fin 3 → ℚ) ![0, 2, 1]).y2 ≤
        (triangleSetup (![0, 1, 2] : Fin 3 → ℚ) ![0, 2, 1]).y3) := by
  have he : (triangleExtremes (![0, 2, 1] : Fin 3 → ℚ)).1 = 0 := by
    norm_num [triangleExtremes]
  have h1 : (triangleSetup (![0, 1, 2] : Fin 3 → ℚ) ![0, 2, 1]).y1 = 0 := by
    simp [triangleSetup, he, triangleOrder]
  have h2 : (triangleSetup (![0, 1, 2] : Fin 3 → ℚ) ![0, 2, 1]).y2 = 2 := by
    simp [triangleSetup, he, triangleOrder]
  have h3 : (triangleSetup (![0, 1, 2] : Fin 3 → ℚ) ![0, 2, 1]).y3 = 1 := by
    simp [triangleSetup, he, triangleOrder]
  refine ⟨h1, h2, h3, ?_⟩
  rw [h1, h2, h3]
  norm_num

theorem triangleExtremes_example : triangleExtremes (![1, 1, 4] : Fin 3 → ℚ) = (0, 2) := by
  norm_num [triangleExtremes]

theorem triangleSetup_example : triangleSetup (![1, 4, 1] : Fin 3 → ℚ) ![1, 1, 4] =
    { x1 := 1, y1 := 1, x2 := 4, y2 := 1, x3 := 1, y3 := 4,
      x1i := 1, y1i := 1, x2i := 4, y2i := 1, x3i := 1, y3i := 4,
      dx1 := 0, dx2 := -1, dx3 := 0, ysi := 1, yei := 4 } := by
  simp only [triangleSetup, triangleExtremes_example]
  norm_num [triangleOrder, triangleSlope, toI32]

theorem fillTriangle_example :
    fillTriangle (blankGrid 10 10) ![1, 4, 1] ![1, 1, 4] = [11, 12, 21] := by
  simp only [fillTriangle, triangleSetup_example]
  norm_num [triangleLoop, triangleInit, triangleBounds, triangleRow, toI32, forRange, blankGrid,
    updateDimensions, List.range_succ, List.filter]

/-- C26, instance: the edge from (0,0) to (2,4): the truncated coordinates differ, the
quotient is evaluated and its denominator `4 - 0` is not zero. -/
theorem fillTriangle_slopes_never_divide_by_zero_witness :
    ¬ (toI32 (0 : ℚ) = toI32 (2 : ℚ) ∨ toI32 (0 : ℚ) = toI32 (4 : ℚ)) ∧
    ((4 : ℚ) - 0 ≠ 0 ∧ triangleSlope (0 : ℚ) 0 2 4 = (2 - 0) / (4 - 0)) :=
  ⟨by norm_num [toI32],
   ((fillTriangle_slopes_never_divide_by_zero (![0, 2, 0] : Fin 3 → ℚ) ![0, 4, 4]).2
      0 0 2 4).1 (by norm_num [toI32])⟩

/-- C29, instance: the triangle (1,1), (4,1), (1,4) on a 10x10 grid writes the indices
11, 12 and 21; the index 11 is that of column 1 and row 1. -/
theorem fillTriangle_writes_inside_witness :
    fillTriangle (blankGrid 10 10) ![1, 4, 1] ![1, 1, 4] = [11, 12, 21] ∧
    (∃ x y : Int, (11 : Int) = y * (blankGrid 10 10).dimensions.width + x ∧
        0 < x ∧ x < (blankGrid 10 10).dimensions.width ∧
        0 < y ∧ y < (blankGrid 10 10).dimensions.height) ∧
      (0 : Int) ≤ 11 ∧
      (11 : Int) < ((blankGrid 10 10).dimensions.width : Int) *
        (blankGrid 10 10).dimensions.height :=
  ⟨fillTriangle_example,
   fillTriangle_writes_inside (blankGrid 10 10) ![1, 4, 1] ![1, 1, 4] 11
     (by rw [fillTriangle_example]; decide)⟩

/-- C30, instance: for `Y = (1, 1, 4)` the first vertex of least `Y` is vertex 0, and the
vertices are used in the input order. -/
theorem fillTriangle_first_vertex_lowest_witness :
    (triangleExtremes (![1, 1, 4] : Fin 3 → ℚ)).1 = 0 ∧
    (triangleSetup (![1, 4, 1] : Fin 3 → ℚ) ![1, 1, 4]).y1 =
      (![1, 1, 4] : Fin 3 → ℚ) (triangleExtremes (![1, 1, 4] : Fin 3 → ℚ)).1 ∧
    (triangleSetup (![1, 4, 1] : Fin 3 → ℚ) ![1, 1, 4]).x2 = 4 :=
  ⟨by rw [triangleExtremes_example],
   (fillTriangle_first_vertex_lowest (![1, 4, 1] : Fin 3 → ℚ) ![1, 1, 4]).2.2.1.2.1,
   by rw [triangleSetup_example]⟩

/-! ## Lines: the points visited by the Bresenham loop -/

theorem lineBody_snd (c : LineConfig) (s : LineState) :
    (lineBody c s).2 =
      if s.error + c.error_inc > c.threshold then
        { index := s.index + c.index_inc1 + c.index_inc2
          error := s.error + c.error_inc - c.error_dec
          current1 := s.current1 + c.inc1, current2 := s.current2 + c.inc2 }
      else
        { index := s.index + c.index_inc1, error := s.error + c.error_inc
          current1 := s.current1 + c.inc1, current2 := s.current2 } := by
  unfold lineBody
  by_cases h : s.error + c.error_inc > c.threshold
  · simp only [h, if_true]
  · simp only [h, if_false]

theorem lineIter_invariant (c : LineConfig) (s0 : LineState) (M m : Int)
    (hM : c.threshold = M) (hinc : c.error_inc = 2 * m) (hdec : c.error_dec = 2 * M)
    (hm0 : 0 ≤ m) (hmM : m ≤ M) (hMpos : 0 < M) (he : s0.error = 0) :
    ∀ k : Nat, ∃ j : Int, 0 ≤ j ∧ j ≤ k ∧
      ((fun s => (lineBody c s).2)^[k] s0).current1 = s0.current1 + k * c.inc1 ∧
      ((fun s => (lineBody c s).2)^[k] s0).current2 = s0.current2 + j * c.inc2 ∧
      ((fun s => (lineBody c s).2)^[k] s0).index =
        s0.index + k * c.index_inc1 + j * c.index_inc2 ∧
      ((fun s => (lineBody c s).2)^[k] s0).error = 2 * m * k - 2 * M * j ∧
      -M < ((fun s => (lineBody c s).2)^[k] s0).error ∧
      ((fun s => (lineBody c s).2)^[k] s0).error ≤ M := by
  intro k
  induction k with
  | zero =>
    refine ⟨0, le_refl _, by simp, ?_, ?_, ?_, ?_, ?_, ?_⟩ <;>
      simp only [Function.iterate_zero, id_eq, Nat.cast_zero] <;> omega
  | succ k ih =>
    obtain ⟨j, hj0, hjk, h1, h2, h3, h4, h5, h6⟩ := ih
    rw [Function.iterate_succ_apply']
    generalize (fun s => (lineBody c s).2)^[k] s0 = s at h1 h2 h3 h4 h5 h6
    rw [lineBody_snd, hM, hinc, hdec]
    by_cases h : s.error + 2 * m > M
    · rw [if_pos h]
      refine ⟨j + 1, by omega, by push_cast; omega, ?_, ?_, ?_, ?_, ?_, ?_⟩
      · simp only [h1]; push_cast; ring
      · simp only [h2]; ring
      · simp only [h3]; push_cast; ring
      · simp only [h4]; push_cast; ring
      · simp only; omega
      · simp only; omega
    · rw [if_neg h]
      refine ⟨j, hj0, by push_cast; omega, ?_, ?_, ?_, ?_, ?_, ?_⟩
      · simp only [h1]; push_cast; ring
      · simp only [h2]
      · simp only [h3]; push_cast; ring
      · simp only [h4]; push_cast; ring
      · simp only; omega
      · simp only; omega

theorem lineSetup_shallow {F : Type} (canvas : PixelGrid F) (x0 y0 x1 y1 : Int)
    (h : ¬ (if y1 - y0 < 0 then -(y1 - y0) else y1 - y0) >
      (if x1 - x0 < 0 then -(x1 - x0) else x1 - x0)) :
    lineSetup canvas x0 y0 x1 y1 =
      ({ width := canvas.dimensions.width, height := canvas.dimensions.height
         size := canvas.dimensions.width_times_height, is_steap := false
         inc1 := if x1 - x0 < 0 then -1 else 1
         inc2 := if y1 - y0 < 0 then -1 else 1
         index_inc1 := if x1 - x0 < 0 then -1 else 1
         index_inc2 := if y1 - y0 < 0 then -(canvas.dimensions.width : Int)
           else canvas.dimensions.width
         error_inc := (if y1 - y0 < 0 then -(y1 - y0) else y1 - y0) +
           (if y1 - y0 < 0 then -(y1 - y0) else y1 - y0)
         error_dec := (if x1 - x0 < 0 then -(x1 - x0) else x1 - x0) +
           (if x1 - x0 < 0 then -(x1 - x0) else x1 - x0)
         threshold := if x1 - x0 < 0 then -(x1 - x0) else x1 - x0
         end_ := x1 + if x1 - x0 < 0 then -1 else 1 },
       { index := x0 + y0 * canvas.dimensions.width, error := 0, current1 := x0,
         current2 := y0 }) := by
  simp only [lineSetup, swap, h, decide_False, Bool.false_eq_true, if_false]

theorem lineSetup_steep {F : Type} (canvas : PixelGrid F) (x0 y0 x1 y1 : Int)
    (h : (if y1 - y0 < 0 then -(y1 - y0) else y1 - y0) >
      (if x1 - x0 < 0 then -(x1 - x0) else x1 - x0)) :
    lineSetup canvas x0 y0 x1 y1 =
      ({ width := canvas.dimensions.width, height := canvas.dimensions.height
         size := canvas.dimensions.width_times_height, is_steap := true
         inc1 := if y1 - y0 < 0 then -1 else 1
         inc2 := if x1 - x0 < 0 then -1 else 1
         index_inc1 := if y1 - y0 < 0 then -(canvas.dimensions.width : Int)
           else canvas.dimensions.width
         index_inc2 := if x1 - x0 < 0 then -1 else 1
         error_inc := (if x1 - x0 < 0 then -(x1 - x0) else x1 - x0) +
           (if x1 - x0 < 0 then -(x1 - x0) else x1 - x0)
         error_dec := (if y1 - y0 < 0 then -(y1 - y0) else y1 - y0) +
           (if y1 - y0 < 0 then -(y1 - y0) else y1 - y0)
         threshold := if y1 - y0 < 0 then -(y1 - y0) else y1 - y0
         end_ := y1 + if y1 - y0 < 0 then -1 else 1 },
       { index := x0 + y0 * canvas.dimensions.width, error := 0, current1 := y0,
         current2 := x0 }) := by
  simp only [lineSetup, swap, h, decide_True, if_true]

theorem int_abs_eq_ite (a : Int) : |a| = if a < 0 then -a else a := by
  split
  · rename_i h; exact abs_of_neg h
  · rename_i h; exact abs_of_nonneg (not_lt.mp h)

theorem int_sign_eq_ite (a : Int) (h : a ≠ 0) : Int.sign a = if a < 0 then -1 else 1 := by
  split
  · rename_i h'; exact Int.sign_eq_neg_one_of_neg h'
  · rename_i h'; exact Int.sign_eq_one_of_pos (by omega)

theorem bresenham_half_bound (M m j e : Int) (k : Nat) (hM : 0 < M)
    (he : e = 2 * m * k - 2 * M * j) (h5 : -M < e) (h6 : e ≤ M) :
    |(j : ℚ) - (k : ℚ) * (m : ℚ) / (M : ℚ)| ≤ 1 / 2 := by
  have hMq : (0 : ℚ) < M := by exact_mod_cast hM
  have key : (j : ℚ) - (k : ℚ) * (m : ℚ) / (M : ℚ) = -(e : ℚ) / (2 * M) := by
    rw [he]; push_cast; field_simp; ring
  have h5q : -(M : ℚ) < e := by exact_mod_cast h5
  have h6q : (e : ℚ) ≤ M := by exact_mod_cast h6
  rw [key, abs_le]
  constructor
  · rw [le_div_iff₀ (by positivity)]; linarith
  · rw [div_le_iff₀ (by positivity)]; linarith

theorem int_sign_abs_cases (a : Int) (h : a ≠ 0) :
    (a < 0 ∧ Int.sign a = -1 ∧ |a| = -a) ∨ (0 < a ∧ Int.sign a = 1 ∧ |a| = a) := by
  rcases lt_or_gt_of_ne h with h' | h'
  · exact Or.inl ⟨h', Int.sign_eq_neg_one_of_neg h', abs_of_neg h'⟩
  · exact Or.inr ⟨h', Int.sign_eq_one_of_pos h', abs_of_pos h'⟩

/-- C27: for every line with `x0 != x1` and `y0 != y1`, with `major` and `minor` the larger
and the smaller of `|x1 - x0|` and `|y1 - y0|`: for every `k <= major` the loop of
`drawLine2D` makes pass `k` (counted from 0), and at its start the visited point is `k` steps
from `(x0, y0)` along the major axis and `j` steps along the minor axis, towards
`(x1, y1)`, with `|j - k * minor / major| <= 1/2`, and the running index is
`col + row * width` of that point; after pass `major` the loop stops. -/
theorem drawLine2D_visits_line_points {F : Type} (canvas : PixelGrid F) (x0 y0 x1 y1 : Int)
    (hx : x0 ≠ x1) (hy : y0 ≠ y1) :
    (∀ k : Nat, (k : Int) ≤ max |x1 - x0| |y1 - y0| →
      (lineStateAt canvas x0 y0 x1 y1 k).current1 ≠ (lineSetup canvas x0 y0 x1 y1).1.end_ ∧
      ∃ j : Int, 0 ≤ j ∧
        |(j : ℚ) - (k : ℚ) * ((min |x1 - x0| |y1 - y0| : Int) : ℚ) /
          ((max |x1 - x0| |y1 - y0| : Int) : ℚ)| ≤ 1 / 2 ∧
        (if |y1 - y0| > |x1 - x0| then
          (lineStateAt canvas x0 y0 x1 y1 k).current1 = y0 + k * Int.sign (y1 - y0) ∧
          (lineStateAt canvas x0 y0 x1 y1 k).current2 = x0 + j * Int.sign (x1 - x0) ∧
          (lineStateAt canvas x0 y0 x1 y1 k).index =
            (x0 + j * Int.sign (x1 - x0)) +
              (y0 + k * Int.sign (y1 - y0)) * canvas.dimensions.width
        else
          (lineStateAt canvas x0 y0 x1 y1 k).current1 = x0 + k * Int.sign (x1 - x0) ∧
          (lineStateAt canvas x0 y0 x1 y1 k).current2 = y0 + j * Int.sign (y1 - y0) ∧
          (lineStateAt canvas x0 y0 x1 y1 k).index =
            (x0 + k * Int.sign (x1 - x0)) +
              (y0 + j * Int.sign (y1 - y0)) * canvas.dimensions.width)) ∧
    (lineStateAt canvas x0 y0 x1 y1 ((max |x1 - x0| |y1 - y0|).toNat + 1)).current1 =
      (lineSetup canvas x0 y0 x1 y1).1.end_ := by
  have ax : (if x1 - x0 < 0 then -(x1 - x0) else x1 - x0) = |x1 - x0| :=
    (int_abs_eq_ite _).symm
  have ay : (if y1 - y0 < 0 then -(y1 - y0) else y1 - y0) = |y1 - y0| :=
    (int_abs_eq_ite _).symm
  have sx : (if x1 - x0 < 0 then (-1 : Int) else 1) = Int.sign (x1 - x0) :=
    (int_sign_eq_ite _ (by omega)).symm
  have sy : (if y1 - y0 < 0 then (-1 : Int) else 1) = Int.sign (y1 - y0) :=
    (int_sign_eq_ite _ (by omega)).symm
  have pw : (if y1 - y0 < 0 then -(canvas.dimensions.width : Int)
      else canvas.dimensions.width) = Int.sign (y1 - y0) * canvas.dimensions.width := by
    rw [← sy]; split <;> simp
  have hax : 0 < |x1 - x0| := abs_pos.mpr (by omega)
  have hay : 0 < |y1 - y0| := abs_pos.mpr (by omega)
  have cx := int_sign_abs_cases (x1 - x0) (by omega)
  have cy := int_sign_abs_cases (y1 - y0) (by omega)
  by_cases hs : |y1 - y0| > |x1 - x0|
  · have hsetup := lineSetup_steep canvas x0 y0 x1 y1 (by rw [ax, ay]; exact hs)
    rw [ax, ay, sx, sy, pw] at hsetup
    have hc := congrArg Prod.fst hsetup
    have h0 := congrArg Prod.snd hsetup
    simp only at hc h0
    have hmax : max |x1 - x0| |y1 - y0| = |y1 - y0| := max_eq_right hs.le
    have hmin : min |x1 - x0| |y1 - y0| = |x1 - x0| := min_eq_left hs.le
    have inv := lineIter_invariant (lineSetup canvas x0 y0 x1 y1).1
      (lineSetup canvas x0 y0 x1 y1).2 |y1 - y0| |x1 - x0|
      (by rw [hc]) (by rw [hc]; ring) (by rw [hc]; ring) hax.le hs.le hay (by rw [h0])
    simp only [if_pos hs, hmax, hmin]
    constructor
    · intro k hk
      obtain ⟨j, hj0, _, h1, h2, h3, h4, h5, h6⟩ := inv k
      have e1 : (lineSetup canvas x0 y0 x1 y1).2.current1 = y0 := by rw [h0]
      have e2 : (lineSetup canvas x0 y0 x1 y1).2.current2 = x0 := by rw [h0]
      have e3 : (lineSetup canvas x0 y0 x1 y1).2.index = x0 + y0 * canvas.dimensions.width := by
        rw [h0]
      have e4 : (lineSetup canvas x0 y0 x1 y1).1.inc1 = Int.sign (y1 - y0) := by rw [hc]
      have e5 : (lineSetup canvas x0 y0 x1 y1).1.inc2 = Int.sign (x1 - x0) := by rw [hc]
      have e6 : (lineSetup canvas x0 y0 x1 y1).1.index_inc1 =
          Int.sign (y1 - y0) * canvas.dimensions.width := by rw [hc]
      have e7 : (lineSetup canvas x0 y0 x1 y1).1.index_inc2 = Int.sign (x1 - x0) := by rw [hc]
      have e8 : (lineSetup canvas x0 y0 x1 y1).1.end_ = y1 + Int.sign (y1 - y0) := by rw [hc]
      rw [e1, e4] at h1
      rw [e2, e5] at h2
      rw [e3, e6, e7] at h3
      unfold lineStateAt
      refine ⟨?_, j, hj0, bresenham_half_bound _ _ j _ k hay h4 h5 h6, h1, h2, ?_⟩
      · rw [h1, e8]
        rcases cy with ⟨_, hsg, hab⟩ | ⟨_, hsg, hab⟩ <;> rw [hsg] <;> rw [hab] at hk <;> omega
      · rw [h3]; ring
    · obtain ⟨j, _, _, h1, _⟩ := inv (|y1 - y0|.toNat + 1)
      unfold lineStateAt
      rw [h1, hc, h0]
      simp only
      push_cast
      rw [Int.toNat_of_nonneg hay.le]
      rcases cy with ⟨_, hsg, hab⟩ | ⟨_, hsg, hab⟩ <;> rw [hsg, hab] <;> ring
  · have hs' : |y1 - y0| ≤ |x1 - x0| := not_lt.mp hs
    have hsetup := lineSetup_shallow canvas x0 y0 x1 y1 (by rw [ax, ay]; exact hs)
    rw [ax, ay, sx, sy, pw] at hsetup
    have hc := congrArg Prod.fst hsetup
    have h0 := congrArg Prod.snd hsetup
    simp only at hc h0
    have hmax : max |x1 - x0| |y1 - y0| = |x1 - x0| := max_eq_left hs'
    have hmin : min |x1 - x0| |y1 - y0| = |y1 - y0| := min_eq_right hs'
    have inv := lineIter_invariant (lineSetup canvas x0 y0 x1 y1).1
      (lineSetup canvas x0 y0 x1 y1).2 |x1 - x0| |y1 - y0|
      (by rw [hc]) (by rw [hc]; ring) (by rw [hc]; ring) hay.le hs' hax (by rw [h0])
    simp only [if_neg hs, hmax, hmin]
    constructor
    · intro k hk
      obtain ⟨j, hj0, _, h1, h2, h3, h4, h5, h6⟩ := inv k
      have e1 : (lineSetup canvas x0 y0 x1 y1).2.current1 = x0 := by rw [h0]
      have e2 : (lineSetup canvas x0 y0 x1 y1).2.current2 = y0 := by rw [h0]
      have e3 : (lineSetup canvas x0 y0 x1 y1).2.index = x0 + y0 * canvas.dimensions.width := by
        rw [h0]
      have e4 : (lineSetup canvas x0 y0 x1 y1).1.inc1 = Int.sign (x1 - x0) := by rw [hc]
      have e5 : (lineSetup canvas x0 y0 x1 y1).1.inc2 = Int.sign (y1 - y0) := by rw [hc]
      have e6 : (lineSetup canvas x0 y0 x1 y1).1.index_inc1 = Int.sign (x1 - x0) := by rw [hc]
      have e7 : (lineSetup canvas x0 y0 x1 y1).1.index_inc2 =
          Int.sign (y1 - y0) * canvas.dimensions.width := by rw [hc]
      have e8 : (lineSetup canvas x0 y0 x1 y1).1.end_ = x1 + Int.sign (x1 - x0) := by rw [hc]
      rw [e1, e4] at h1
      rw [e2, e5] at h2
      rw [e3, e6, e7] at h3
      unfold lineStateAt
      refine ⟨?_, j, hj0, bresenham_half_bound _ _ j _ k hax h4 h5 h6, h1, h2, ?_⟩
      · rw [h1, e8]
        rcases cx with ⟨_, hsg, hab⟩ | ⟨_, hsg, hab⟩ <;> rw [hsg] <;> rw [hab] at hk <;> omega
      · rw [h3]; ring
    · obtain ⟨j, _, _, h1, _⟩ := inv (|x1 - x0|.toNat + 1)
      unfold lineStateAt
      rw [h1, hc, h0]
      simp only
      push_cast
      rw [Int.toNat_of_nonneg hax.le]
      rcases cx with ⟨_, hsg, hab⟩ | ⟨_, hsg, hab⟩ <;> rw [hsg, hab] <;> ring

/-- C27, instance: the line from (0,0) to (9,5) on a 10x10 grid: `major = 9`, `minor = 5`;
at the start of pass 4 the visited point is (4,2), with index 24, and the loop stops after
pass 9. -/
theorem drawLine2D_visits_line_points_witness :
    ((0 : Int) ≠ 9 ∧ (0 : Int) ≠ 5) ∧
    lineStateAt (blankGrid 10 10) 0 0 9 5 4 =
      { index := 24, error := 4, current1 := 4, current2 := 2 } ∧
    (lineStateAt (blankGrid 10 10) 0 0 9 5 ((max |(9 : Int) - 0| |(5 : Int) - 0|).toNat + 1)).current1 =
      (lineSetup (blankGrid 10 10) 0 0 9 5).1.end_ :=
  ⟨⟨by decide, by decide⟩, by decide,
   (drawLine2D_visits_line_points (blankGrid 10 10) 0 0 9 5 (by decide) (by decide)).2⟩

/-! ## Circles: distance to the ideal circle -/

theorem circleInit_onRadius (width cx cy r : Int) (hr : 1 ≤ r) :
    CircleOnRadius width cx cy r (circleInit width cx cy r) := by
  simp only [CircleOnRadius, circleInit]
  refine ⟨trivial, trivial, by ring, by ring, by ring, by ring, trivial, trivial, trivial,
    by ring, le_refl _, le_refl _, by nlinarith, fun _ => by nlinarith⟩

theorem circleAdvance_onRadius (width cx cy r : Int) (s : CircleState)
    (h : CircleOnRadius width cx cy r s) (hloop : s.y ≤ s.x) :
    CircleOnRadius width cx cy r (circleAdvance width (r * r) s) := by
  obtain ⟨h1, h2, h3, h4, h5, h6, h7, h8, h9, h10, h11, h12, h13, h14⟩ := h
  have hup := h14 hloop
  by_cases hx : s.x2 + s.y2 > r * r
  · simp only [CircleOnRadius, circleAdvance, hx, if_true]
    rw [h9, h10] at hx
    refine ⟨by omega, by omega, by rw [h3]; ring, by rw [h4]; ring, by omega, by omega,
      by rw [h7]; ring, by rw [h8]; ring, trivial, trivial, by omega, by omega, ?_, ?_⟩
    · nlinarith
    · intro hle; nlinarith
  · simp only [CircleOnRadius, circleAdvance, hx, if_false]
    rw [h9, h10] at hx
    refine ⟨h1, h2, by rw [h3]; ring, by rw [h4]; ring, by omega, by omega, h7, h8, h9, trivial,
      by omega, h12, ?_, ?_⟩
    · nlinarith
    · intro hle; nlinarith

theorem circleRowPoints_cases (width size Sy Sx Ex i : Int)
    (h : i ∈ circleRowPoints width size Sy Sx Ex) :
    (i = Sy + Sx ∧ 0 ≤ Sx ∧ Sx < width) ∨ (i = Sy + Ex ∧ 0 ≤ Ex ∧ Ex < width) := by
  unfold circleRowPoints at h
  split at h
  · rw [List.mem_append] at h
    rcases h with h | h
    · split at h
      · rename_i hc
        simp only [List.mem_singleton] at h
        exact Or.inl ⟨h, hc.1, hc.2⟩
      · simp at h
    · split at h
      · rename_i hc
        simp only [List.mem_singleton] at h
        exact Or.inr ⟨h, hc.1, hc.2⟩
      · simp at h
  · simp at h

theorem drawCircleBody_onRadius (width size cx cy r : Int) (s : CircleState)
    (h : CircleOnRadius width cx cy r s) (hloop : s.y ≤ s.x) (i : Int)
    (hi : i ∈ drawCircleBody width size s) :
    ∃ dx dy : Int, i = (cy + dy) * width + (cx + dx) ∧ 0 ≤ cx + dx ∧ cx + dx < width ∧
      (r - 1) ^ 2 < dx ^ 2 + dy ^ 2 ∧ dx ^ 2 + dy ^ 2 < (r + 1) ^ 2 := by
  obtain ⟨h1, h2, h3, h4, h5, h6, h7, h8, _, _, _, _, h13, h14⟩ := h
  have hup := h14 hloop
  have e1 : (-s.x) ^ 2 + (-s.y) ^ 2 = s.x ^ 2 + s.y ^ 2 := by ring
  have e2 : s.x ^ 2 + (-s.y) ^ 2 = s.x ^ 2 + s.y ^ 2 := by ring
  have e3 : (-s.x) ^ 2 + s.y ^ 2 = s.x ^ 2 + s.y ^ 2 := by ring
  have e4 : (-s.y) ^ 2 + (-s.x) ^ 2 = s.x ^ 2 + s.y ^ 2 := by ring
  have e5 : s.y ^ 2 + (-s.x) ^ 2 = s.x ^ 2 + s.y ^ 2 := by ring
  have e6 : (-s.y) ^ 2 + s.x ^ 2 = s.x ^ 2 + s.y ^ 2 := by ring
  have e7 : s.y ^ 2 + s.x ^ 2 = s.x ^ 2 + s.y ^ 2 := by ring
  unfold drawCircleBody at hi
  simp only [List.mem_append] at hi
  rcases hi with ((hi | hi) | hi) | hi
  · rcases circleRowPoints_cases _ _ _ _ _ _ hi with ⟨hi, ha, hb⟩ | ⟨hi, ha, hb⟩
    · exact ⟨-s.x, -s.y, by linear_combination hi + h3 + h1, by omega, by omega,
        by rw [e1]; exact h13, by rw [e1]; exact hup⟩
    · exact ⟨s.x, -s.y, by linear_combination hi + h3 + h2, by omega, by omega,
        by rw [e2]; exact h13, by rw [e2]; exact hup⟩
  · rcases circleRowPoints_cases _ _ _ _ _ _ hi with ⟨hi, ha, hb⟩ | ⟨hi, ha, hb⟩
    · exact ⟨-s.x, s.y, by linear_combination hi + h4 + h1, by omega, by omega,
        by rw [e3]; exact h13, by rw [e3]; exact hup⟩
    · exact ⟨s.x, s.y, by linear_combination hi + h4 + h2, by omega, by omega, h13, hup⟩
  · rcases circleRowPoints_cases _ _ _ _ _ _ hi with ⟨hi, ha, hb⟩ | ⟨hi, ha, hb⟩
    · exact ⟨-s.y, -s.x, by linear_combination hi + h7 + h5, by omega, by omega,
        by rw [e4]; exact h13, by rw [e4]; exact hup⟩
    · exact ⟨s.y, -s.x, by linear_combination hi + h7 + h6, by omega, by omega,
        by rw [e5]; exact h13, by rw [e5]; exact hup⟩
  · rcases circleRowPoints_cases _ _ _ _ _ _ hi with ⟨hi, ha, hb⟩ | ⟨hi, ha, hb⟩
    · exact ⟨-s.y, s.x, by linear_combination hi + h8 + h5, by omega, by omega,
        by rw [e6]; exact h13, by rw [e6]; exact hup⟩
    · exact ⟨s.y, s.x, by linear_combination hi + h8 + h6, by omega, by omega,
        by rw [e7]; exact h13, by rw [e7]; exact hup⟩

theorem circleLoop_mem_of_invariant (body : CircleState → List Int) (width r2 : Int)
    (Inv : CircleState → Prop) (P : Int → Prop)
    (hadv : ∀ s, Inv s → s.y ≤ s.x → Inv (circleAdvance width r2 s))
    (hbody : ∀ s, Inv s → s.y ≤ s.x → ∀ i ∈ body s, P i) :
    ∀ (fuel : Nat) (s : CircleState) (ws : List Int), Inv s →
      circleLoop body width r2 fuel s = some ws → ∀ i ∈ ws, P i := by
  intro fuel
  induction fuel with
  | zero => intro s ws _ h; simp [circleLoop] at h
  | succ n ih =>
    intro s ws hs h i hi
    rw [circleLoop] at h
    split at h
    · rename_i hloop
      rw [Option.map_eq_some'] at h
      obtain ⟨ws', hws', rfl⟩ := h
      rw [List.mem_append] at hi
      rcases hi with hi | hi
      · exact hbody s hs hloop i hi
      · exact ih _ _ (hadv s hs hloop) hws' i hi
    · cases h; simp at hi

/-- C28: for every radius `r >= 2` and every centre, `drawCircle` returns, and every index it
writes is that of a pixel `(cx + dx, cy + dy)`, in a column of the grid, with
`(r - 1)^2 < dx^2 + dy^2 < (r + 1)^2`. -/
theorem drawCircle_near_ideal_circle {F : Type} (canvas : PixelGrid F)
    (center_x center_y radius : Int) (hr : 2 ≤ radius) :
    (∃ n ws, ∀ fuel, n ≤ fuel → drawCircle fuel canvas center_x center_y radius = some ws) ∧
    (∀ fuel ws, drawCircle fuel canvas center_x center_y radius = some ws →
      ∀ i ∈ ws, ∃ dx dy : Int,
        i = (center_y + dy) * canvas.dimensions.width + (center_x + dx) ∧
        0 ≤ center_x + dx ∧ center_x + dx < canvas.dimensions.width ∧
        (radius - 1) ^ 2 < dx ^ 2 + dy ^ 2 ∧ dx ^ 2 + dy ^ 2 < (radius + 1) ^ 2) := by
  have hr' : ¬ radius ≤ 1 := by omega
  unfold drawCircle
  simp only [if_neg hr']
  refine ⟨circleLoop_returns _ _ _ _, fun fuel ws h => ?_⟩
  exact circleLoop_mem_of_invariant _ _ _
    (CircleOnRadius canvas.dimensions.width center_x center_y radius) _
    (fun s hs hl => circleAdvance_onRadius _ _ _ _ s hs hl)
    (fun s hs hl i hi => drawCircleBody_onRadius _ _ _ _ _ s hs hl i hi)
    fuel _ ws (circleInit_onRadius _ _ _ _ (by omega)) h

/-- C28, instance: the circle of radius 3 around (5,5) on a 10x10 grid: the indices written
and the bound for each of them. -/
theorem drawCircle_near_ideal_circle_witness :
    (2 : Int) ≤ 3 ∧
    drawCircle 20 (blankGrid 10 10) 5 5 3 =
      some [52, 58, 52, 58, 25, 25, 85, 85, 42, 48, 62, 68, 24, 26, 84, 86,
        33, 37, 73, 77, 33, 37, 73, 77] ∧
    ∀ i ∈ ([52, 58, 52, 58, 25, 25, 85, 85, 42, 48, 62, 68, 24, 26, 84, 86,
        33, 37, 73, 77, 33, 37, 73, 77] : List Int), ∃ dx dy : Int,
      i = (5 + dy) * (blankGrid 10 10).dimensions.width + (5 + dx) ∧
      0 ≤ 5 + dx ∧ 5 + dx < (blankGrid 10 10).dimensions.width ∧
      (3 - 1) ^ 2 < dx ^ 2 + dy ^ 2 ∧ dx ^ 2 + dy ^ 2 < (3 + 1) ^ 2 :=
  ⟨by decide, by decide,
   (drawCircle_near_ideal_circle (blankGrid 10 10) 5 5 3 (by decide)).2 20 _ (by decide)⟩

/-! ## Text: the control characters -/

theorem textTab_offset (n : Nat) :
    (FONT_WIDTH * (4 - n / FONT_WIDTH % 4)) % 2 ^ 16 = FONT_WIDTH * (4 - n / FONT_WIDTH % 4) := by
  simp only [FONT_WIDTH]
  omega

/-- C31, amended: in the loop of `drawText`, for every cursor state: a newline ends the
drawing when `current_y + FONT_HEIGHT > height`, and otherwise sets the column back to the
start `x` and advances the row by `LINE_HEIGHT = 12`; a tab advances the column by
`8 * (4 - (current_x / 8) mod 4)`, so that `current_x / 8` becomes the smallest multiple of 4
strictly greater than before, and leaves the row unchanged; in both cases, when neither the
`u16` cursor nor the `u32` pointer step wraps around, the pixel pointer stays equal to
`width * current_y + current_x`; and every other character below code 32, except the
terminating NUL, has no effect. -/
theorem drawText_control_characters (width height pixel_line_step : Nat) (x : Int)
    (str : List Int) (cur : TextCursor) :
    (drawTextLoop width height pixel_line_step (width * LINE_HEIGHT) x (10 :: str) cur =
      if cur.current_y + FONT_HEIGHT > height then []
      else drawTextLoop width height pixel_line_step (width * LINE_HEIGHT) x str
        (textNewline (width * LINE_HEIGHT) x cur)) ∧
    (0 ≤ x → x < 2 ^ 16 → cur.current_y + LINE_HEIGHT < 2 ^ 16 →
      ((textNewline (width * LINE_HEIGHT) x cur).current_x : Int) = x ∧
      (textNewline (width * LINE_HEIGHT) x cur).current_y = cur.current_y + LINE_HEIGHT ∧
      (width < 2 ^ 16 → (cur.current_x : Int) ≤ width * LINE_HEIGHT + x →
        cur.pixel = width * cur.current_y + cur.current_x →
        (textNewline (width * LINE_HEIGHT) x cur).pixel =
          width * (textNewline (width * LINE_HEIGHT) x cur).current_y +
            (textNewline (width * LINE_HEIGHT) x cur).current_x)) ∧
    (drawTextLoop width height pixel_line_step (width * LINE_HEIGHT) x (9 :: str) cur =
      drawTextLoop width height pixel_line_step (width * LINE_HEIGHT) x str (textTab cur)) ∧
    (cur.current_x + FONT_WIDTH * (4 - cur.current_x / FONT_WIDTH % 4) < 2 ^ 16 →
      (textTab cur).current_x =
        cur.current_x + FONT_WIDTH * (4 - cur.current_x / FONT_WIDTH % 4) ∧
      (textTab cur).current_y = cur.current_y ∧
      (textTab cur).current_x / FONT_WIDTH = 4 * (cur.current_x / FONT_WIDTH / 4 + 1) ∧
      cur.current_x / FONT_WIDTH < (textTab cur).current_x / FONT_WIDTH ∧
      (∀ m : Nat, 4 ∣ m → cur.current_x / FONT_WIDTH < m →
        (textTab cur).current_x / FONT_WIDTH ≤ m) ∧
      (cur.pixel = width * cur.current_y + cur.current_x →
        (textTab cur).pixel =
          width * (textTab cur).current_y + (textTab cur).current_x)) ∧
    (∀ c : Int, c < 32 → c ≠ 0 → c ≠ 10 → c ≠ 9 →
      drawTextLoop width height pixel_line_step (width * LINE_HEIGHT) x (c :: str) cur =
        drawTextLoop width height pixel_line_step (width * LINE_HEIGHT) x str cur) := by
  refine ⟨?_, ?_, ?_, ?_, ?_⟩
  · rw [drawTextLoop]
    simp
  · intro hx0 hx1 hy
    have e1 : ((textNewline (width * LINE_HEIGHT) x cur).current_x : Int) = x := by
      simp only [textNewline]
      rw [Int.toNat_of_nonneg (Int.emod_nonneg _ (by norm_num))]
      exact Int.emod_eq_of_lt hx0 hx1
    have e2 : (textNewline (width * LINE_HEIGHT) x cur).current_y =
        cur.current_y + LINE_HEIGHT := by
      simp only [textNewline]
      exact Nat.mod_eq_of_lt hy
    refine ⟨e1, e2, fun hw hcx hp => ?_⟩
    rw [e1, e2]
    simp only [textNewline, LINE_HEIGHT] at hcx ⊢
    have hlt : ((width * 12 : Nat) : Int) - (cur.current_x : Int) + x < 2 ^ 32 := by
      push_cast
      omega
    rw [Int.emod_eq_of_lt (by push_cast at hcx ⊢; omega) hlt, hp]
    push_cast
    ring
  · rw [drawTextLoop]
    simp
  · intro hlt
    have e1 : (textTab cur).current_x =
        cur.current_x + FONT_WIDTH * (4 - cur.current_x / FONT_WIDTH % 4) := by
      simp only [textTab, textTab_offset]
      exact Nat.mod_eq_of_lt hlt
    refine ⟨e1, rfl, ?_, ?_, ?_, fun hp => ?_⟩
    · rw [e1]; simp only [FONT_WIDTH]; omega
    · rw [e1]; simp only [FONT_WIDTH]; omega
    · intro m hm hlt'
      rw [e1]
      obtain ⟨t, rfl⟩ := hm
      simp only [FONT_WIDTH] at hlt' ⊢
      omega
    · rw [e1]
      simp only [textTab, textTab_offset, hp]
      push_cast
      ring
  · intro c hc h0 hn ht
    rw [drawTextLoop]
    have hr : ¬ (c ≥ FIRST_CHARACTER_CODE ∧ c ≤ LAST_CHARACTER_CODE) := by
      simp only [FIRST_CHARACTER_CODE]; omega
    simp only [h0, hn, ht, hr, if_false]

/-- C31, instance: on a grid of width 16 the cursor at column 8 of row 0, with the
pointer at offset 8: a newline for the start column 0 moves it to column 0 of row 12, with
the pointer at offset 192. -/
theorem drawText_control_characters_witness :
    ((0 : Int) ≤ 0 ∧ (0 : Int) < 2 ^ 16 ∧ 0 + LINE_HEIGHT < 2 ^ 16) ∧
    ((textNewline (16 * LINE_HEIGHT) 0 ⟨8, 0, 8⟩).current_x : Int) = 0 ∧
    (textNewline (16 * LINE_HEIGHT) 0 ⟨8, 0, 8⟩).current_y = 0 + LINE_HEIGHT ∧
    textNewline (16 * LINE_HEIGHT) 0 ⟨8, 0, 8⟩ = ⟨0, 12, 192⟩ :=
  ⟨⟨by decide, by decide, by decide⟩,
   ((drawText_control_characters 16 16 8 0 [] ⟨8, 0, 8⟩).2.1 (by decide) (by decide)
      (by decide)).1,
   ((drawText_control_characters 16 16 8 0 [] ⟨8, 0, 8⟩).2.1 (by decide) (by decide)
      (by decide)).2.1,
   by decide⟩

/-- C31: on a 16x16 grid, `drawText` of two newlines and `A` at (0,0) writes nothing: the
second newline finds the cursor at row 12, where `12 + FONT_HEIGHT > 16`, and ends the
drawing instead of moving the cursor to row 24, from where the `A` would be drawn.  And on a
grid of width 8 a cursor at column 128 (after four tabs from column 0), with the pointer at
`8 * 0 + 128`: the `u32` step `96 - 128 + 0` of a newline wraps around, and the pointer is no
longer `width * current_y + current_x`. -/
theorem drawText_newline_stops :
    drawText (blankGrid 16 16) [10, 10, 65] 0 0 = [] ∧
    drawTextLoop 16 16 8 (16 * LINE_HEIGHT) 0 [10, 65] ⟨0, 12, 192⟩ = [] ∧
    drawTextLoop 16 16 8 (16 * LINE_HEIGHT) 0 [65] ⟨0, 24, 384⟩ ≠ [] ∧
    (textNewline (8 * LINE_HEIGHT) 0 ⟨128, 0, 128⟩).pixel ≠
      8 * (textNewline (8 * LINE_HEIGHT) 0 ⟨128, 0, 128⟩).current_y +
        (textNewline (8 * LINE_HEIGHT) 0 ⟨128, 0, 128⟩).current_x := by
  set_option maxRecDepth 100000 in
  refine ⟨by decide, by decide, by decide, by decide⟩

/-! ## Quaternions: the divisor of the matrix-to-quaternion conversion -/

section QuaternionDivisor

variable {F : Type} [LinearOrderedField F]

theorem fourBiggestSquaredMinus1_nonneg (m : mat3 F) : 0 ≤ fourBiggestSquaredMinus1 m := by
  simp only [fourBiggestSquaredMinus1]
  split_ifs <;> linarith

theorem fourBiggestSquaredMinus1_ge (m : mat3 F) :
    (fourSquaredMinus1 m).1 ≤ fourBiggestSquaredMinus1 m ∧
    (fourSquaredMinus1 m).2.1 ≤ fourBiggestSquaredMinus1 m ∧
    (fourSquaredMinus1 m).2.2.1 ≤ fourBiggestSquaredMinus1 m ∧
    (fourSquaredMinus1 m).2.2.2 ≤ fourBiggestSquaredMinus1 m := by
  simp only [fourBiggestSquaredMinus1, fourSquaredMinus1]
  split_ifs <;> refine ⟨?_, ?_, ?_, ?_⟩ <;> linarith

theorem convertRotationMatrixToQuaternion_eq (sqrtf : F → F) (m : mat3 F) :
    convertRotationMatrixToQuaternion sqrtf m =
      if biggestIndex m = 0 then
        { amount := biggestVal sqrtf m
          axis := ⟨(m.Y.z - m.Z.y) * ((1 / 4) / biggestVal sqrtf m),
                   (m.Z.x - m.X.z) * ((1 / 4) / biggestVal sqrtf m),
                   (m.X.y - m.Y.x) * ((1 / 4) / biggestVal sqrtf m)⟩ }
      else if biggestIndex m = 1 then
        { amount := (m.Y.z - m.Z.y) * ((1 / 4) / biggestVal sqrtf m)
          axis := ⟨biggestVal sqrtf m,
                   (m.X.y + m.Y.x) * ((1 / 4) / biggestVal sqrtf m),
                   (m.Z.x + m.X.z) * ((1 / 4) / biggestVal sqrtf m)⟩ }
      else if biggestIndex m = 2 then
        { amount := (m.Z.x - m.X.z) * ((1 / 4) / biggestVal sqrtf m)
          axis := ⟨(m.X.y + m.Y.x) * ((1 / 4) / biggestVal sqrtf m),
                   biggestVal sqrtf m,
                   (m.Y.z + m.Z.y) * ((1 / 4) / biggestVal sqrtf m)⟩ }
      else
        { amount := (m.X.y - m.Y.x) * ((1 / 4) / biggestVal sqrtf m)
          axis := ⟨(m.Z.x + m.X.z) * ((1 / 4) / biggestVal sqrtf m),
                   (m.Y.z + m.Z.y) * ((1 / 4) / biggestVal sqrtf m),
                   biggestVal sqrtf m⟩ } := rfl

end QuaternionDivisor

/-- C32: for every 3x3 matrix, rotation or not, the four candidate terms of
`convertRotationMatrixToQuaternion` sum to 0 and the one selected,
`fourBiggestSquaredMinus1`, is the largest of them and is `>= 0`; so
`biggestVal = sqrt(fourBiggestSquaredMinus1 + 1) / 2 >= 1/2`, and the divisor of
`0.25 / biggestVal` is not zero.  The conversion is the function of `biggestVal` and of
`mult = 0.25 / biggestVal` shown. -/
theorem convertRotationMatrixToQuaternion_divisor (m : mat3 ℝ) :
    (fourSquaredMinus1 m).1 + (fourSquaredMinus1 m).2.1 + (fourSquaredMinus1 m).2.2.1 +
      (fourSquaredMinus1 m).2.2.2 = 0 ∧
    ((fourSquaredMinus1 m).1 ≤ fourBiggestSquaredMinus1 m ∧
     (fourSquaredMinus1 m).2.1 ≤ fourBiggestSquaredMinus1 m ∧
     (fourSquaredMinus1 m).2.2.1 ≤ fourBiggestSquaredMinus1 m ∧
     (fourSquaredMinus1 m).2.2.2 ≤ fourBiggestSquaredMinus1 m) ∧
    0 ≤ fourBiggestSquaredMinus1 m ∧
    1 / 2 ≤ biggestVal Real.sqrt m ∧
    biggestVal Real.sqrt m ≠ 0 ∧
    convertRotationMatrixToQuaternion Real.sqrt m =
      (if biggestIndex m = 0 then
        { amount := biggestVal Real.sqrt m
          axis := ⟨(m.Y.z - m.Z.y) * ((1 / 4) / biggestVal Real.sqrt m),
                   (m.Z.x - m.X.z) * ((1 / 4) / biggestVal Real.sqrt m),
                   (m.X.y - m.Y.x) * ((1 / 4) / biggestVal Real.sqrt m)⟩ }
      else if biggestIndex m = 1 then
        { amount := (m.Y.z - m.Z.y) * ((1 / 4) / biggestVal Real.sqrt m)
          axis := ⟨biggestVal Real.sqrt m,
                   (m.X.y + m.Y.x) * ((1 / 4) / biggestVal Real.sqrt m),
                   (m.Z.x + m.X.z) * ((1 / 4) / biggestVal Real.sqrt m)⟩ }
      else if biggestIndex m = 2 then
        { amount := (m.Z.x - m.X.z) * ((1 / 4) / biggestVal Real.sqrt m)
          axis := ⟨(m.X.y + m.Y.x) * ((1 / 4) / biggestVal Real.sqrt m),
                   biggestVal Real.sqrt m,
                   (m.Y.z + m.Z.y) * ((1 / 4) / biggestVal Real.sqrt m)⟩ }
      else
        { amount := (m.X.y - m.Y.x) * ((1 / 4) / biggestVal Real.sqrt m)
          axis := ⟨(m.Z.x + m.X.z) * ((1 / 4) / biggestVal Real.sqrt m),
                   (m.Y.z + m.Z.y) * ((1 / 4) / biggestVal Real.sqrt m),
                   biggestVal Real.sqrt m⟩ }) := by
  have h0 := fourBiggestSquaredMinus1_nonneg m
  have h1 : (1 : ℝ) ≤ Real.sqrt (fourBiggestSquaredMinus1 m + 1) := by
    rw [Real.le_sqrt' one_pos, one_pow]
    linarith
  have h2 : 1 / 2 ≤ biggestVal Real.sqrt m := by
    simp only [biggestVal]
    linarith
  refine ⟨?_, fourBiggestSquaredMinus1_ge m, h0, h2, ?_,
    convertRotationMatrixToQuaternion_eq Real.sqrt m⟩
  · simp only [fourSquaredMinus1]; ring
  · linarith

/-! ## Unit quaternions -/

section UnitQuaternions

variable {F : Type} [LinearOrderedField F]

theorem mulVec3Quat_conjugate_left (v : vec3 F) (q : quat F) (hq : UnitQuat q) :
    mulVec3Quat (mulVec3Quat v q) (conjugate q) = v := by
  obtain ⟨⟨x, y, z⟩, w⟩ := q
  obtain ⟨vx, vy, vz⟩ := v
  simp only [UnitQuat] at hq
  simp only [mulVec3Quat, conjugate, invertedVec3, cross, crossVec3, scaleAddVec3,
    vec3.mk.injEq]
  refine ⟨?_, ?_, ?_⟩
  · linear_combination (4 * vx * y * y + 4 * vx * z * z - 4 * vy * x * y - 4 * vz * x * z) * hq
  · linear_combination (-4 * vx * x * y + 4 * vy * x * x + 4 * vy * z * z - 4 * vz * y * z) * hq
  · linear_combination (-4 * vx * x * z - 4 * vy * y * z + 4 * vz * x * x + 4 * vz * y * y) * hq

theorem mulVec3Quat_conjugate_right (v : vec3 F) (q : quat F) (hq : UnitQuat q) :
    mulVec3Quat (mulVec3Quat v (conjugate q)) q = v := by
  obtain ⟨⟨x, y, z⟩, w⟩ := q
  obtain ⟨vx, vy, vz⟩ := v
  simp only [UnitQuat] at hq
  simp only [mulVec3Quat, conjugate, invertedVec3, cross, crossVec3, scaleAddVec3,
    vec3.mk.injEq]
  refine ⟨?_, ?_, ?_⟩
  · linear_combination (4 * vx * y * y + 4 * vx * z * z - 4 * vy * x * y - 4 * vz * x * z) * hq
  · linear_combination (-4 * vx * x * y + 4 * vy * x * x + 4 * vy * z * z - 4 * vz * y * z) * hq
  · linear_combination (-4 * vx * x * z - 4 * vy * y * z + 4 * vz * x * x + 4 * vz * y * y) * hq

theorem mulVec3_oneOver_left (v s : vec3 F) (hx : s.x ≠ 0) (hy : s.y ≠ 0) (hz : s.z ≠ 0) :
    mulVec3 (mulVec3 v s) (oneOver s) = v := by
  obtain ⟨vx, vy, vz⟩ := v
  simp only [mulVec3, oneOver, oneOverVec3, vec3.mk.injEq]
  refine ⟨?_, ?_, ?_⟩ <;> field_simp

theorem mulVec3_oneOver_right (v s : vec3 F) (hx : s.x ≠ 0) (hy : s.y ≠ 0) (hz : s.z ≠ 0) :
    mulVec3 (mulVec3 v (oneOver s)) s = v := by
  obtain ⟨vx, vy, vz⟩ := v
  simp only [mulVec3, oneOver, oneOverVec3, vec3.mk.injEq]
  refine ⟨?_, ?_, ?_⟩ <;> field_simp

theorem subVec3_addVec3 (v t : vec3 F) : subVec3 (addVec3 v t) t = v := by
  obtain ⟨vx, vy, vz⟩ := v
  simp [subVec3, addVec3]

theorem addVec3_subVec3 (v t : vec3 F) : addVec3 (subVec3 v t) t = v := by
  obtain ⟨vx, vy, vz⟩ := v
  simp [subVec3, addVec3]

/-- C33: for every unit quaternion `q` the matrix `convertQuaternionToRotationMatrix q` is
orthonormal: its product with its transpose, on either side, is the identity. -/
theorem convertQuaternionToRotationMatrix_orthonormal (q : quat F) (hq : UnitQuat q) :
    mulMat3 (convertQuaternionToRotationMatrix q)
        (transposedMat3 (convertQuaternionToRotationMatrix q)) = getMat3Identity ∧
    mulMat3 (transposedMat3 (convertQuaternionToRotationMatrix q))
        (convertQuaternionToRotationMatrix q) = getMat3Identity := by
  obtain ⟨⟨x, y, z⟩, w⟩ := q
  simp only [UnitQuat] at hq
  constructor <;>
  · simp only [convertQuaternionToRotationMatrix, mulMat3, transposedMat3, getMat3Identity,
      mat3.mk.injEq, vec3.mk.injEq]
    refine ⟨⟨?_, ?_, ?_⟩, ⟨?_, ?_, ?_⟩, ⟨?_, ?_, ?_⟩⟩
    · linear_combination (4 * w * w + 4 * x * x) * hq
    · linear_combination (4 * x * y) * hq
    · linear_combination (4 * x * z) * hq
    · linear_combination (4 * x * y) * hq
    · linear_combination (4 * w * w + 4 * y * y) * hq
    · linear_combination (4 * y * z) * hq
    · linear_combination (4 * x * z) * hq
    · linear_combination (4 * y * z) * hq
    · linear_combination (4 * w * w + 4 * z * z) * hq

/-- C34: for every primitive whose rotation is a unit quaternion and whose scale components
are all nonzero, for every value of the flags and every point `p`,
`convertPositionToObjectSpace (convertPositionToWorldSpace p) = p` and
`convertPositionToWorldSpace (convertPositionToObjectSpace p) = p`. -/
theorem convertPosition_round_trip (p : vec3 F) (primitive : Primitive F)
    (hq : UnitQuat primitive.rotation) (hx : primitive.scale.x ≠ 0)
    (hy : primitive.scale.y ≠ 0) (hz : primitive.scale.z ≠ 0) :
    convertPositionToObjectSpace (convertPositionToWorldSpace p primitive) primitive = p ∧
    convertPositionToWorldSpace (convertPositionToObjectSpace p primitive) primitive = p := by
  unfold convertPositionToObjectSpace convertPositionToWorldSpace
  by_cases hs : primitive.flags &&& IS_SCALED ≠ 0 <;>
  by_cases hr : primitive.flags &&& IS_ROTATED ≠ 0 <;>
  by_cases ht : primitive.flags &&& IS_TRANSLATED ≠ 0 <;>
  simp only [hs, hr, ht, if_true, if_false, not_false_eq_true, ne_eq, not_true_eq_false,
    subVec3_addVec3, addVec3_subVec3, mulVec3Quat_conjugate_left _ _ hq,
    mulVec3Quat_conjugate_right _ _ hq, mulVec3_oneOver_left _ _ hx hy hz,
    mulVec3_oneOver_right _ _ hx hy hz, and_self]

/-- C35: for every unit quaternion `q` and every vector `v`, the product of `v` with the
matrix built from `q`, by the vector-matrix product of the library, is the rotation of `v`
by the conjugate of `q`. -/
theorem mulVec3Mat3_quaternion_matrix (v : vec3 F) (q : quat F) (hq : UnitQuat q) :
    mulVec3Mat3 v (convertQuaternionToRotationMatrix q) = mulVec3Quat v (conjugate q) := by
  obtain ⟨⟨x, y, z⟩, w⟩ := q
  obtain ⟨vx, vy, vz⟩ := v
  simp only [UnitQuat] at hq
  simp only [mulVec3Mat3, convertQuaternionToRotationMatrix, mulVec3Quat, conjugate,
    invertedVec3, cross, crossVec3, scaleAddVec3, vec3.mk.injEq]
  refine ⟨?_, ?_, ?_⟩
  · linear_combination (2 * vx) * hq
  · linear_combination (2 * vy) * hq
  · linear_combination (2 * vz) * hq

end UnitQuaternions

/-- C33, instance: the unit quaternion with axis (3/5, 0, 0) and amount 4/5. -/
theorem convertQuaternionToRotationMatrix_orthonormal_witness :
    UnitQuat (⟨⟨3 / 5, 0, 0⟩, 4 / 5⟩ : quat ℚ) ∧
    convertQuaternionToRotationMatrix (⟨⟨3 / 5, 0, 0⟩, 4 / 5⟩ : quat ℚ) =
      ⟨⟨1, 0, 0⟩, ⟨0, 7 / 25, -24 / 25⟩, ⟨0, 24 / 25, 7 / 25⟩⟩ ∧
    mulMat3 (convertQuaternionToRotationMatrix (⟨⟨3 / 5, 0, 0⟩, 4 / 5⟩ : quat ℚ))
      (transposedMat3 (convertQuaternionToRotationMatrix (⟨⟨3 / 5, 0, 0⟩, 4 / 5⟩ : quat ℚ))) =
      getMat3Identity :=
  ⟨by norm_num [UnitQuat], by norm_num [convertQuaternionToRotationMatrix],
   (convertQuaternionToRotationMatrix_orthonormal (⟨⟨3 / 5, 0, 0⟩, 4 / 5⟩ : quat ℚ)
      (by norm_num [UnitQuat])).1⟩

/-- C34, instance: a primitive with all three transform flags set, the rotation
(3/5, 0, 0; 4/5), the scale (2, 3, 4) and the position (1, 1, 1); the point (1, 2, 3) goes
to (3, -221/25, 253/25) in world space and back. -/
theorem convertPosition_round_trip_witness :
    (UnitQuat (⟨⟨⟨3 / 5, 0, 0⟩, 4 / 5⟩, ⟨1, 1, 1⟩, ⟨2, 3, 4⟩, 0, PrimitiveType.Box, 15⟩ :
        Primitive ℚ).rotation ∧ (2 : ℚ) ≠ 0 ∧ (3 : ℚ) ≠ 0 ∧ (4 : ℚ) ≠ 0) ∧
    convertPositionToWorldSpace (⟨1, 2, 3⟩ : vec3 ℚ)
      ⟨⟨⟨3 / 5, 0, 0⟩, 4 / 5⟩, ⟨1, 1, 1⟩, ⟨2, 3, 4⟩, 0, PrimitiveType.Box, 15⟩ =
      ⟨3, -221 / 25, 253 / 25⟩ ∧
    convertPositionToObjectSpace (convertPositionToWorldSpace (⟨1, 2, 3⟩ : vec3 ℚ)
      ⟨⟨⟨3 / 5, 0, 0⟩, 4 / 5⟩, ⟨1, 1, 1⟩, ⟨2, 3, 4⟩, 0, PrimitiveType.Box, 15⟩)
      ⟨⟨⟨3 / 5, 0, 0⟩, 4 / 5⟩, ⟨1, 1, 1⟩, ⟨2, 3, 4⟩, 0, PrimitiveType.Box, 15⟩ = ⟨1, 2, 3⟩ :=
  ⟨⟨by norm_num [UnitQuat], by norm_num, by norm_num, by norm_num⟩,
   by
    have h1 : 15 &&& IS_SCALED = 8 := by decide
    have h2 : 15 &&& IS_ROTATED = 4 := by decide
    have h3 : 15 &&& IS_TRANSLATED = 2 := by decide
    norm_num [convertPositionToWorldSpace, h1, h2, h3, mulVec3, mulVec3Quat, cross, crossVec3,
      scaleAddVec3, addVec3],
   (convertPosition_round_trip (⟨1, 2, 3⟩ : vec3 ℚ)
      ⟨⟨⟨3 / 5, 0, 0⟩, 4 / 5⟩, ⟨1, 1, 1⟩, ⟨2, 3, 4⟩, 0, PrimitiveType.Box, 15⟩
      (by norm_num [UnitQuat]) (by norm_num) (by norm_num) (by norm_num)).1⟩

/-- C35, instance: the unit quaternion (3/5, 0, 0; 4/5) and the vector (1, 2, 3): both sides
are (1, 86/25, -27/25). -/
theorem mulVec3Mat3_quaternion_matrix_witness :
    UnitQuat (⟨⟨3 / 5, 0, 0⟩, 4 / 5⟩ : quat ℚ) ∧
    mulVec3Quat (⟨1, 2, 3⟩ : vec3 ℚ) (conjugate ⟨⟨3 / 5, 0, 0⟩, 4 / 5⟩) =
      ⟨1, 86 / 25, -27 / 25⟩ ∧
    mulVec3Mat3 (⟨1, 2, 3⟩ : vec3 ℚ)
      (convertQuaternionToRotationMatrix ⟨⟨3 / 5, 0, 0⟩, 4 / 5⟩) =
      mulVec3Quat ⟨1, 2, 3⟩ (conjugate ⟨⟨3 / 5, 0, 0⟩, 4 / 5⟩) :=
  ⟨by norm_num [UnitQuat],
   by norm_num [mulVec3Quat, conjugate, invertedVec3, cross, crossVec3, scaleAddVec3],
   mulVec3Mat3_quaternion_matrix (⟨1, 2, 3⟩ : vec3 ℚ) ⟨⟨3 / 5, 0, 0⟩, 4 / 5⟩
     (by norm_num [UnitQuat])⟩

/-! ## Rectangles -/

theorem mem_forRange_one_iff (first last i : Int) :
    i ∈ forRange first last 1 ↔ first ≤ i ∧ i ≤ last := by
  unfold forRange
  split
  · rename_i hle
    simp only [List.mem_map, List.mem_range, Int.ediv_one, mul_one]
    constructor
    · rintro ⟨k, hk, rfl⟩
      omega
    · rintro ⟨h1, h2⟩
      exact ⟨(i - first).toNat, by omega, by omega⟩
  · rename_i hle
    simp only [List.not_mem_nil, false_iff]
    omega

theorem subRange_inside (a b e : Int) (ha : 0 ≤ a) (hab : a ≤ b) (hb : b < e) :
    subRange a b e 0 = (a, b - 1) := by
  simp only [subRange, swap]
  have h1 : ¬ b < a := by omega
  simp only [h1, if_false, hb, if_true]
  congr 1
  split <;> omega

theorem drawHLine2D_inside {F : Type} (canvas : PixelGrid F) (a b y : Int)
    (hy0 : 0 ≤ y) (hy1 : y < canvas.dimensions.height) (ha : 0 ≤ a) (hab : a ≤ b)
    (hb : b < canvas.dimensions.width) :
    drawHLine2D canvas a b y =
      forRange (a + y * canvas.dimensions.width) (b - 1 + y * canvas.dimensions.width) 1 := by
  have hin : inRange y canvas.dimensions.height 0 = true := by
    rw [inRange_iff]; exact ⟨hy0, hy1⟩
  have hs : subRange a b canvas.dimensions.width 0 = (a, b - 1) :=
    subRange_inside a b _ ha hab hb
  simp only [drawHLine2D, hin, Bool.not_true, Bool.false_eq_true, if_false, hs]

theorem fillRectLoop_eq {F : Type} (canvas : PixelGrid F) (min_x max_x max_y : Int)
    (hmax : max_y < 2 ^ 16 - 1) :
    ∀ (n y fuel : Nat), (y : Int) + n = max_y + 1 → n < fuel →
      fillRectLoop canvas min_x max_x max_y fuel y =
        some ((List.range n).flatMap
          (fun k => drawHLine2D canvas min_x max_x ((y + k : Nat) : Int))) := by
  intro n
  induction n with
  | zero =>
    intro y fuel hy hf
    obtain ⟨f, rfl⟩ : ∃ f, fuel = f + 1 := ⟨fuel - 1, by omega⟩
    have hc : ¬ (y : Int) ≤ max_y := by omega
    simp [fillRectLoop, hc]
  | succ n ih =>
    intro y fuel hy hf
    obtain ⟨f, rfl⟩ : ∃ f, fuel = f + 1 := ⟨fuel - 1, by omega⟩
    have hc : (y : Int) ≤ max_y := by omega
    have hw : (y + 1) % 2 ^ 16 = y + 1 := Nat.mod_eq_of_lt (by omega)
    rw [fillRectLoop, if_pos hc, hw, ih (y + 1) f (by push_cast; omega) (by omega)]
    simp only [Option.map_some', List.range_succ_eq_map, List.flatMap_cons, List.flatMap_map,
      Nat.add_zero, Option.some.injEq, List.append_cancel_left_eq]
    congr 1
    funext k
    simp only [Function.comp, Nat.succ_eq_add_one]
    congr 2
    omega

/-- C36: for every grid (its height a `u16`) and every rectangle inside it, with
`0 <= min.x < max.x < width` and `0 <= min.y <= max.y < height`, `fillRect` returns, and the
indices it writes are exactly those of the pixels `(x, y)` with `min.x <= x <= max.x - 2` and
`min.y <= y <= max.y - 1`. -/
theorem fillRect_writes_exactly {F : Type} (canvas : PixelGrid F) (rect : Rect)
    (hH : canvas.dimensions.height < 2 ^ 16)
    (hx0 : 0 ≤ rect.min.x) (hx1 : rect.min.x < rect.max.x)
    (hx2 : rect.max.x < canvas.dimensions.width)
    (hy0 : 0 ≤ rect.min.y) (hy1 : rect.min.y ≤ rect.max.y)
    (hy2 : rect.max.y < canvas.dimensions.height) :
    ∃ ws, (∀ fuel, (rect.max.y - rect.min.y).toNat < fuel →
        fillRect fuel canvas rect = some ws) ∧
      ∀ i : Int, i ∈ ws ↔ ∃ x y : Int,
        rect.min.x ≤ x ∧ x ≤ rect.max.x - 2 ∧ rect.min.y ≤ y ∧ y ≤ rect.max.y - 1 ∧
        i = y * canvas.dimensions.width + x := by
  have hguard : ¬ (rect.max.x < 0 ∨ rect.min.x ≥ (canvas.dimensions.width : Int) ∨
      rect.max.y < 0 ∨ rect.min.y ≥ (canvas.dimensions.height : Int)) := by omega
  have hxs : subRange rect.min.x rect.max.x canvas.dimensions.width 0 =
      (rect.min.x, rect.max.x - 1) := subRange_inside _ _ _ hx0 hx1.le hx2
  have hys : subRange rect.min.y rect.max.y canvas.dimensions.height 0 =
      (rect.min.y, rect.max.y - 1) := subRange_inside _ _ _ hy0 hy1 hy2
  have hy16 : rect.min.y % 2 ^ 16 = rect.min.y := Int.emod_eq_of_lt hy0 (by omega)
  refine ⟨(List.range (rect.max.y - rect.min.y).toNat).flatMap
      (fun k => drawHLine2D canvas rect.min.x (rect.max.x - 1)
        ((rect.min.y.toNat + k : Nat) : Int)), fun fuel hf => ?_, fun i => ?_⟩
  · simp only [fillRect, if_neg hguard, hxs, hys, hy16]
    exact fillRectLoop_eq canvas _ _ _ (by omega) _ _ fuel (by omega) hf
  · simp only [List.mem_flatMap, List.mem_range]
    constructor
    · rintro ⟨k, hk, hi⟩
      rw [drawHLine2D_inside canvas _ _ _ (by omega) (by omega) hx0 (by omega) (by omega),
        mem_forRange_one_iff] at hi
      refine ⟨i - ((rect.min.y.toNat + k : Nat) : Int) * canvas.dimensions.width,
        ((rect.min.y.toNat + k : Nat) : Int), by omega, by omega, by omega, by omega, by ring⟩
    · rintro ⟨x, y, h1, h2, h3, h4, rfl⟩
      refine ⟨(y - rect.min.y).toNat, by omega, ?_⟩
      have hyk : ((rect.min.y.toNat + (y - rect.min.y).toNat : Nat) : Int) = y := by omega
      rw [hyk, drawHLine2D_inside canvas _ _ _ (by omega) (by omega) hx0 (by omega) (by omega),
        mem_forRange_one_iff]
      omega

/-- C36, instance: on a 10x10 grid the rectangle with `min = (2, 3)` and `max = (6, 5)`:
`fillRect` writes the columns 2..4 of the rows 3 and 4. -/
theorem fillRect_writes_exactly_witness :
    ((blankGrid 10 10).dimensions.height < 2 ^ 16 ∧ (0 : Int) ≤ 2 ∧ (2 : Int) < 6 ∧
      (6 : Int) < (blankGrid 10 10).dimensions.width ∧ (0 : Int) ≤ 3 ∧ (3 : Int) ≤ 5 ∧
      (5 : Int) < (blankGrid 10 10).dimensions.height) ∧
    fillRect 3 (blankGrid 10 10) ⟨⟨2, 3⟩, ⟨6, 5⟩⟩ = some [32, 33, 34, 42, 43, 44] ∧
    ∃ ws, (∀ fuel, ((5 : Int) - 3).toNat < fuel →
        fillRect fuel (blankGrid 10 10) ⟨⟨2, 3⟩, ⟨6, 5⟩⟩ = some ws) ∧
      ∀ i : Int, i ∈ ws ↔ ∃ x y : Int,
        2 ≤ x ∧ x ≤ 6 - 2 ∧ 3 ≤ y ∧ y ≤ 5 - 1 ∧
        i = y * (blankGrid 10 10).dimensions.width + x :=
  ⟨⟨by decide, by decide, by decide, by decide, by decide, by decide, by decide⟩, by decide,
   fillRect_writes_exactly (blankGrid 10 10) ⟨⟨2, 3⟩, ⟨6, 5⟩⟩ (by decide) (by decide)
     (by decide) (by decide) (by decide) (by decide) (by decide)⟩

/-! ## Edge projection: the divisors -/

section EdgeDivisors

variable {F : Type} [LinearOrderedField F]

end EdgeDivisors

theorem lineLoopPasses_count (c : LineConfig) :
    ∀ (n : Nat) (s : LineState),
      ((c.inc1 = 1 ∧ c.end_ - s.current1 = n) ∨ (c.inc1 = -1 ∧ s.current1 - c.end_ = n)) →
      ∀ fuel, n < fuel → lineLoopPasses c fuel s = some n := by
  intro n
  induction n with
  | zero =>
    intro s h fuel hf
    obtain ⟨f, rfl⟩ : ∃ f, fuel = f + 1 := ⟨fuel - 1, by omega⟩
    have he : s.current1 = c.end_ := by
      rcases h with ⟨_, h⟩ | ⟨_, h⟩ <;> simp at h <;> omega
    simp [lineLoopPasses, he]
  | succ n ih =>
    intro s h fuel hf
    obtain ⟨f, rfl⟩ : ∃ f, fuel = f + 1 := ⟨fuel - 1, by omega⟩
    have hne : s.current1 ≠ c.end_ := by
      rcases h with ⟨_, h⟩ | ⟨_, h⟩ <;> push_cast at h <;> omega
    have hnext : (c.inc1 = 1 ∧ c.end_ - (lineBody c s).2.current1 = n) ∨
        (c.inc1 = -1 ∧ (lineBody c s).2.current1 - c.end_ = n) := by
      rw [lineBody_current1]
      rcases h with ⟨h1, h⟩ | ⟨h1, h⟩
      · left; refine ⟨h1, ?_⟩; push_cast at h; omega
      · right; refine ⟨h1, ?_⟩; push_cast at h; omega
    rw [lineLoopPasses, if_pos hne, ih _ hnext f (by omega)]
    rfl

theorem lineLoop_some_of_passes (c : LineConfig) :
    ∀ (fuel : Nat) (s : LineState) (n : Nat), lineLoopPasses c fuel s = some n →
      ∃ ws, lineLoop c fuel s = some ws := by
  intro fuel
  induction fuel with
  | zero => intro s n h; simp [lineLoopPasses] at h
  | succ f ih =>
    intro s n h
    rw [lineLoopPasses] at h
    rw [lineLoop]
    split
    · rename_i hne
      rw [if_pos hne, Option.map_eq_some'] at h
      obtain ⟨m, hm, _⟩ := h
      obtain ⟨ws, hws⟩ := ih _ _ hm
      exact ⟨_, by rw [hws]; rfl⟩
    · exact ⟨[], rfl⟩

theorem lineSetup_distance {F : Type} (canvas : PixelGrid F) (x0 y0 x1 y1 : Int) :
    ((lineSetup canvas x0 y0 x1 y1).1.inc1 = 1 ∧
      (lineSetup canvas x0 y0 x1 y1).1.end_ - (lineSetup canvas x0 y0 x1 y1).2.current1 =
        (((max |x1 - x0| |y1 - y0|).toNat + 1 : Nat) : Int)) ∨
    ((lineSetup canvas x0 y0 x1 y1).1.inc1 = -1 ∧
      (lineSetup canvas x0 y0 x1 y1).2.current1 - (lineSetup canvas x0 y0 x1 y1).1.end_ =
        (((max |x1 - x0| |y1 - y0|).toNat + 1 : Nat) : Int)) := by
  have ax := int_abs_eq_ite (x1 - x0)
  have ay := int_abs_eq_ite (y1 - y0)
  by_cases hs : (if y1 - y0 < 0 then -(y1 - y0) else y1 - y0) >
      (if x1 - x0 < 0 then -(x1 - x0) else x1 - x0)
  · rw [lineSetup_steep canvas x0 y0 x1 y1 hs]
    rw [← ax, ← ay] at hs
    have hm : max |x1 - x0| |y1 - y0| = |y1 - y0| := max_eq_right hs.le
    rw [hm, ay]
    by_cases hneg : y1 - y0 < 0
    · right; simp only [hneg, if_true]; refine ⟨trivial, ?_⟩; push_cast; omega
    · left; simp only [hneg, if_false]; refine ⟨trivial, ?_⟩; push_cast; omega
  · rw [lineSetup_shallow canvas x0 y0 x1 y1 hs]
    rw [← ax, ← ay] at hs
    have hm : max |x1 - x0| |y1 - y0| = |x1 - x0| := max_eq_left (not_lt.mp hs)
    rw [hm, ax]
    by_cases hneg : x1 - x0 < 0
    · right; simp only [hneg, if_true]; refine ⟨trivial, ?_⟩; push_cast; omega
    · left; simp only [hneg, if_false]; refine ⟨trivial, ?_⟩; push_cast; omega

/-- C38: for all endpoints with `x0 != x1` and `y0 != y1` and every grid, the `while` loop of
`drawLine2D` terminates after exactly `max(|x1 - x0|, |y1 - y0|) + 1` passes: with more fuel
than that the loop returns, having made that number of passes, and `drawLine2D` returns
its writes unless it skips the line at entry. -/
theorem drawLine2D_loop_passes {F : Type} (canvas : PixelGrid F) (x0 y0 x1 y1 : Int)
    (hx : x0 ≠ x1) (hy : y0 ≠ y1) :
    (∀ fuel, (max |x1 - x0| |y1 - y0|).toNat + 1 < fuel →
      lineLoopPasses (lineSetup canvas x0 y0 x1 y1).1 fuel (lineSetup canvas x0 y0 x1 y1).2 =
        some ((max |x1 - x0| |y1 - y0|).toNat + 1)) ∧
    (∀ fuel, (max |x1 - x0| |y1 - y0|).toNat + 1 < fuel →
      ∃ ws, lineLoop (lineSetup canvas x0 y0 x1 y1).1 fuel (lineSetup canvas x0 y0 x1 y1).2 =
          some ws ∧
        (¬ (x0 < 0 ∧ y0 < 0 ∧ x1 < 0 ∧ y1 < 0) →
          drawLine2D fuel canvas x0 y0 x1 y1 = some ws)) := by
  have hcount := fun fuel hf =>
    lineLoopPasses_count (lineSetup canvas x0 y0 x1 y1).1 _ _
      (lineSetup_distance canvas x0 y0 x1 y1) fuel hf
  refine ⟨hcount, fun fuel hf => ?_⟩
  obtain ⟨ws, hws⟩ := lineLoop_some_of_passes _ _ _ _ (hcount fuel hf)
  refine ⟨ws, hws, fun h0 => ?_⟩
  rw [drawLine2D, if_neg h0, if_neg hx, if_neg hy, hws]

/-- C38, instance: the line from (0,0) to (9,5) on a 10x10 grid: `max(9, 5) + 1 = 10`
passes. -/
theorem drawLine2D_loop_passes_witness :
    ((0 : Int) ≠ 9 ∧ (0 : Int) ≠ 5) ∧
    (max |(9 : Int) - 0| |(5 : Int) - 0|).toNat + 1 = 10 ∧
    lineLoopPasses (lineSetup (blankGrid 10 10) 0 0 9 5).1 11
      (lineSetup (blankGrid 10 10) 0 0 9 5).2 = some 10 ∧
    lineLoopPasses (lineSetup (blankGrid 10 10) 0 0 9 5).1 10
      (lineSetup (blankGrid 10 10) 0 0 9 5).2 = none :=
  ⟨⟨by decide, by decide⟩, by decide,
   (drawLine2D_loop_passes (blankGrid 10 10) 0 0 9 5 (by decide) (by decide)).1 11
     (by decide),
   by decide⟩

/-! ## Boxes -/

theorem lor_ne_zero_iff (a b : Nat) : a ||| b ≠ 0 ↔ a ≠ 0 ∨ b ≠ 0 := by
  constructor
  · intro h
    by_contra hc
    push_neg at hc
    rw [hc.1, hc.2] at h
    exact h (by simp)
  · rintro (h | h) hc
    · apply h
      apply Nat.eq_of_testBit_eq
      intro i
      have := congrArg (fun n => n.testBit i) hc
      simp only [Nat.testBit_lor, Nat.zero_testBit, Bool.or_eq_false_iff] at this
      simp [this.1]
    · apply h
      apply Nat.eq_of_testBit_eq
      intro i
      have := congrArg (fun n => n.testBit i) hc
      simp only [Nat.testBit_lor, Nat.zero_testBit, Bool.or_eq_false_iff] at this
      simp [this.2]

theorem drawBBox_mem (sides : Nat) (h : sides ≠ AllBoxSides) (e : BBoxEdgeSides) :
    e ∈ drawBBox sides ↔ (sides &&& e.sides.1 ≠ 0 ∨ sides &&& e.sides.2 ≠ 0) := by
  simp only [drawBBox, if_neg h, lor_ne_zero_iff]
  cases e <;> simp [BBoxEdgeSides.sides]

theorem drawBox_mem (sides : Nat) (h : sides ≠ AllBoxSides) (e : BBoxEdgeSides) :
    e ∈ drawBox sides ↔ (sides &&& e.sides.1 ≠ 0 ∨ sides &&& e.sides.2 ≠ 0) := by
  have h' : sides ≠ BOX__ALL_SIDES := h
  simp only [drawBox, if_neg h', lor_ne_zero_iff]
  cases e <;> simp [BBoxEdgeSides.sides]

theorem ite_singleton_sublist (c : Prop) [Decidable c] (e : BBoxEdgeSides) :
    List.Sublist (if c then [e] else []) [e] := by
  split
  · exact List.Sublist.refl _
  · exact List.nil_sublist _

theorem drawBBox_nodup (sides : Nat) : (drawBBox sides).Nodup := by
  unfold drawBBox
  split
  · decide
  · refine List.Nodup.sublist (?_ : List.Sublist _ ([.front_top] ++ [.front_bottom] ++
      [.front_left] ++ [.front_right] ++ [.back_top] ++ [.back_bottom] ++ [.back_left] ++
      [.back_right] ++ [.left_top] ++ [.left_bottom] ++ [.right_top] ++ [.right_bottom]))
      (by decide)
    repeat first
      | exact ite_singleton_sublist _ _
      | apply List.Sublist.append

theorem drawBox_nodup (sides : Nat) : (drawBox sides).Nodup := by
  unfold drawBox
  split
  · decide
  · refine List.Nodup.sublist (?_ : List.Sublist _ ([.front_top] ++ [.front_bottom] ++
      [.front_left] ++ [.front_right] ++ [.back_top] ++ [.back_bottom] ++ [.back_left] ++
      [.back_right] ++ [.left_top] ++ [.left_bottom] ++ [.right_top] ++ [.right_bottom]))
      (by decide)
    repeat first
      | exact ite_singleton_sublist _ _
      | apply List.Sublist.append

/-- C39: for every mask of sides other than the all-sides mask, `drawBBox` and `drawBox`
draw an edge of the box exactly when at least one of the two sides that name it is in the
mask, and no edge twice; with the empty mask no edge is drawn, and with the all-sides mask
all 12 edges are drawn, once each. -/
theorem drawBox_edges_by_sides (sides : Nat) :
    (sides ≠ AllBoxSides → ∀ e : BBoxEdgeSides,
      (e ∈ drawBBox sides ↔ (sides &&& e.sides.1 ≠ 0 ∨ sides &&& e.sides.2 ≠ 0)) ∧
      (e ∈ drawBox sides ↔ (sides &&& e.sides.1 ≠ 0 ∨ sides &&& e.sides.2 ≠ 0))) ∧
    ((drawBBox sides).Nodup ∧ (drawBox sides).Nodup) ∧
    (drawBBox BoxSide.NoSide = [] ∧ drawBox BoxSide.NoSide = []) ∧
    ((∀ e : BBoxEdgeSides, e ∈ drawBBox AllBoxSides ∧ e ∈ drawBox AllBoxSides) ∧
      (drawBBox AllBoxSides).length = 12 ∧ (drawBox AllBoxSides).length = 12) := by
  refine ⟨fun h e => ⟨drawBBox_mem sides h e, drawBox_mem sides h e⟩,
    ⟨drawBBox_nodup sides, drawBox_nodup sides⟩, ⟨by decide, by decide⟩,
    ⟨fun e => by cases e <;> decide, by decide, by decide⟩⟩

/-- C39, instance: the mask `Front` alone draws the four edges of the front side; the mask
`Top | Left` draws the seven edges named by `Top` or by `Left`. -/
theorem drawBox_edges_by_sides_witness :
    BoxSide.Front ≠ AllBoxSides ∧
    drawBBox BoxSide.Front = [.front_top, .front_bottom, .front_left, .front_right] ∧
    drawBox (BoxSide.Top ||| BoxSide.Left) =
      [.front_top, .front_left, .back_top, .back_left, .left_top, .left_bottom, .right_top] ∧
    (BBoxEdgeSides.back_left ∈ drawBBox BoxSide.Front ↔
      (BoxSide.Front &&& BBoxEdgeSides.back_left.sides.1 ≠ 0 ∨
        BoxSide.Front &&& BBoxEdgeSides.back_left.sides.2 ≠ 0)) :=
  ⟨by decide, by decide, by decide,
   ((drawBox_edges_by_sides BoxSide.Front).1 (by decide) BBoxEdgeSides.back_left).1⟩

/-! ## The point on the unit circle and the single-axis rotations -/

section UnitCircle

variable {F : Type} [LinearOrderedField F]

theorem getPointOnUnitCircle_eq (t : F) :
    getPointOnUnitCircle t = ⟨(1 - t ^ 2) / (1 + t ^ 2), 2 * t / (1 + t ^ 2)⟩ := by
  simp only [getPointOnUnitCircle, vec2.mk.injEq]
  constructor <;> ring

theorem getPointOnUnitCircle_zero : getPointOnUnitCircle (0 : F) = ⟨1, 0⟩ := by
  simp [getPointOnUnitCircle]

/-- C40: for every `t`, `getPointOnUnitCircle t` is
`((1 - t^2) / (1 + t^2), 2t / (1 + t^2))` and lies on the unit circle, with
`getPointOnUnitCircle 0 = (1, 0)`; hence `yawMat3`, `pitchMat3` and `rollMat3` with the
amount 0 leave the matrix unchanged, and with any amount they map an orthonormal matrix to
an orthonormal matrix. -/
theorem getPointOnUnitCircle_rotations (t : F) (m : mat3 F) :
    getPointOnUnitCircle t = ⟨(1 - t ^ 2) / (1 + t ^ 2), 2 * t / (1 + t ^ 2)⟩ ∧
    (getPointOnUnitCircle t).x ^ 2 + (getPointOnUnitCircle t).y ^ 2 = 1 ∧
    getPointOnUnitCircle (0 : F) = ⟨1, 0⟩ ∧
    (yawMat3 0 m = m ∧ pitchMat3 0 m = m ∧ rollMat3 0 m = m) ∧
    (Orthonormal m →
      Orthonormal (yawMat3 t m) ∧ Orthonormal (pitchMat3 t m) ∧ Orthonormal (rollMat3 t m)) := by
  refine ⟨getPointOnUnitCircle_eq t, ?_, getPointOnUnitCircle_zero, ⟨?_, ?_, ?_⟩, fun h =>
    ⟨orthonormal_yawMat3 t m h, orthonormal_pitchMat3 t m h, orthonormal_rollMat3 t m h⟩⟩
  · rw [pow_two, pow_two]; exact getPointOnUnitCircle_sq t
  · simp [yawMat3, getPointOnUnitCircle_zero]
  · simp [pitchMat3, getPointOnUnitCircle_zero]
  · simp [rollMat3, getPointOnUnitCircle_zero]

end UnitCircle

/-- C40, instance: the identity matrix is orthonormal, and so is its yaw by the amount
1/2, for which the point on the unit circle is (3/5, 4/5). -/
theorem getPointOnUnitCircle_rotations_witness :
    Orthonormal (getMat3Identity : mat3 ℚ) ∧
    getPointOnUnitCircle (1 / 2 : ℚ) = ⟨3 / 5, 4 / 5⟩ ∧
    Orthonormal (yawMat3 (1 / 2) (getMat3Identity : mat3 ℚ)) :=
  ⟨orthonormal_identity, by norm_num [getPointOnUnitCircle],
   ((getPointOnUnitCircle_rotations (1 / 2 : ℚ) getMat3Identity).2.2.2.2
      orthonormal_identity).1⟩

end SlimEngine
